import Mathlib

/-!
# go-gin-auth: credential and session lifecycle

A shallow embedding of `internal/usecase/auth_usecase.go`,
`internal/usecase/user_usecase.go`, the three repositories under
`internal/repository`, `internal/domain`, `pkg/jwt` and `pkg/password`.

Conventions of the embedding:

* `time.Time` is an integer number of nanoseconds since the Unix epoch and
  `time.Duration` an integer number of nanoseconds.
* The database is the three tables the repositories touch, each a list of rows
  in primary-key order.  A statement is atomic: it either fails and leaves the
  tables alone or takes effect completely.  Column comparison is exact equality
  and stored values are kept exactly.
* Everything an operation reads from outside (the clock, the random source,
  the outcome of each database statement) is supplied by an `Env`.  Call sites
  are numbered in source order inside each function.
* Usecase methods return the Go result together with the database they leave
  behind, also on the error paths.
* A signed token string is identified with the header, payload and signature
  it encodes; an HMAC tag is the symbolic term recording the key block and the
  message it was computed over.  The key block is computed as `crypto/hmac`
  does (zero padding to the block size, digest of a longer key).
* The usecases take the two functions of `golang.org/x/crypto/bcrypt` as a
  `BcryptLib`.  The library itself is `goBcrypt`: its length and cost checks,
  its digest format and its parser are written out, over the entropy source
  and the Blowfish computation (`BcryptPrimitives`).
* The `LIKE` operator of the database is a parameter.  The float computation
  of the page count in `ListUsers` is `ceilFloat64` (`float64` values are the
  rationals they denote, rounded to nearest, ties to even).
* A call interrupted at a statement is a call in which that statement fails:
  the statements before it have taken effect, the later ones are not run.
* An `Op` is one call of a method of `authUsecase`; `runOps` runs a sequence
  of them.  Properties that must survive later activity are stated after an
  arbitrary `runOps`.
-/

namespace GoGinAuth

/-! ## Errors -/

/-- Go error values: `errors.New msg`, `fmt.Errorf "context: %w" cause`, and
two errors joined into one (its text is the two texts separated by a comma). -/
inductive Err where
  | new (msg : String)
  | wrap (context : String) (cause : Err)
  | join (first second : Err)
deriving DecidableEq, Repr

/-- The text returned by the `Error()` method. -/
def Err.Error : Err → String
  | .new msg => msg
  | .wrap context cause => context ++ ": " ++ cause.Error
  | .join first second => first.Error ++ ", " ++ second.Error

/-- Model of `errors.Is` along the `%w` chain and into joined errors. -/
def errorsIs : Err → Err → Bool
  | .new msg, target => decide (Err.new msg = target)
  | .wrap context cause, target =>
    decide (Err.wrap context cause = target) || errorsIs cause target
  | .join first second, target =>
    decide (Err.join first second = target) || errorsIs first target || errorsIs second target

/-! ## Time -/

abbrev Time := Int

abbrev Duration := Int

/-- One second, `time.Second`. -/
def Second : Duration := 1000000000

/-- One hour, `time.Hour`. -/
def Hour : Duration := 3600 * Second

/-- The zero `time.Time` (January 1, year 1, 00:00 UTC) on the Unix scale. -/
def zeroTime : Time := -62135596800 * Second

/-- Method `t.IsZero()`. -/
def Time.IsZero (t : Time) : Bool := decide (t = zeroTime)

/-- Method `t.Before(u)`. -/
def Time.Before (t u : Time) : Bool := decide (t < u)

/-- Method `t.Add(d)`. -/
def Time.Add (t : Time) (d : Duration) : Time := t + d

/-! ## Environment of one operation -/

/-- What one usecase call reads from outside the program. -/
structure Env where
  /-- Result of the k-th `time.Now()` of the call. -/
  now : Nat → Time
  /-- Driver error of the k-th database statement of the call, if it fails. -/
  dbErr : Nat → Option Err
  /-- Bytes drawn from the random source by the hasher. -/
  rand : Nat
  /-- Result of `uuid.New().String()`. -/
  uuid : String

/-! ## Domain (internal/domain) -/

/-- Row of table `users`, `domain.User`. -/
structure User where
  ID : Nat
  Email : String
  PasswordHash : String
  FullName : String
  Role : String
  Status : String
  EmailVerifiedAt : Option Time
  CreatedAt : Time
  UpdatedAt : Time
deriving DecidableEq, Repr

/-- Request body of registration, `domain.RegisterRequest`. -/
structure RegisterRequest where
  Email : String
  Password : String
  FullName : String
deriving DecidableEq, Repr

/-- Request body of login, `domain.LoginRequest`. -/
structure LoginRequest where
  Email : String
  Password : String
deriving DecidableEq, Repr

/-- Outward view of a user, `domain.UserResponse`. -/
structure UserResponse where
  ID : Nat
  Email : String
  FullName : String
  Role : String
  Status : String
  EmailVerifiedAt : Option Time
  CreatedAt : Time
deriving DecidableEq, Repr

/-- Method `(*User).ToResponse`. -/
def User.ToResponse (u : User) : UserResponse :=
  { ID := u.ID
    Email := u.Email
    FullName := u.FullName
    Role := u.Role
    Status := u.Status
    EmailVerifiedAt := u.EmailVerifiedAt
    CreatedAt := u.CreatedAt }

/-- Row of table `password_resets`, `domain.PasswordReset`. -/
structure PasswordReset where
  ID : Nat
  Email : String
  Token : String
  ExpiresAt : Time
  Used : Bool
  CreatedAt : Time
deriving DecidableEq, Repr

/-! ## HMAC key preparation (crypto/hmac, crypto/sha256, crypto/sha512) -/

/-- Bytes of the UTF-8 encoding of one code point. -/
def utf8EncodeNat (c : Nat) : List Nat :=
  if c < 128 then [c]
  else if c < 2048 then [192 + c / 64, 128 + c % 64]
  else if c < 65536 then [224 + c / 4096, 128 + c / 64 % 64, 128 + c % 64]
  else [240 + c / 262144, 128 + c / 4096 % 64, 128 + c / 64 % 64, 128 + c % 64]

/-- The bytes of a Go string, `[]byte(s)`. -/
def stringBytes (s : String) : List Nat := s.data.flatMap fun c => utf8EncodeNat c.toNat

/-- Rotation to the right of a `w`-bit word. -/
def rotr (w n x : Nat) : Nat := (x >>> n ||| x <<< (w - n)) % 2 ^ w

/-- The parameters in which SHA-256 and SHA-512 differ: word size, number of
rounds, rotation and shift amounts, round constants. -/
structure Sha2 where
  w : Nat
  rounds : Nat
  bigSigma0 : Nat × Nat × Nat
  bigSigma1 : Nat × Nat × Nat
  smallSigma0 : Nat × Nat × Nat
  smallSigma1 : Nat × Nat × Nat
  K : List Nat

/-- Big-endian value of a list of bytes. -/
def beValue (bytes : List Nat) : Nat := bytes.foldl (fun acc b => acc * 256 + b) 0

/-- Big-endian bytes of `x` on `n` bytes. -/
def beBytes (n x : Nat) : List Nat := (List.range n).map fun i => x / 256 ^ (n - 1 - i) % 256

/-- The message schedule of one block. -/
def Sha2.schedule (p : Sha2) (block : List Nat) : List Nat :=
  let wb := p.w / 8
  let first : List Nat := (List.range 16).map fun i => beValue ((block.drop (i * wb)).take wb)
  (List.range (p.rounds - 16)).foldl
    (fun ws i =>
      let t := i + 16
      let x15 := ws.getD (t - 15) 0
      let x2 := ws.getD (t - 2) 0
      let s0 := rotr p.w p.smallSigma0.1 x15 ^^^ rotr p.w p.smallSigma0.2.1 x15 ^^^
        x15 >>> p.smallSigma0.2.2
      let s1 := rotr p.w p.smallSigma1.1 x2 ^^^ rotr p.w p.smallSigma1.2.1 x2 ^^^
        x2 >>> p.smallSigma1.2.2
      ws ++ [(s1 + ws.getD (t - 7) 0 + s0 + ws.getD (t - 16) 0) % 2 ^ p.w])
    first

/-- One round of the compression function on the eight working variables. -/
def Sha2.round (p : Sha2) (v : List Nat) (k wt : Nat) : List Nat :=
  match v with
  | [a, b, c, d, e, f, g, h] =>
    let m := 2 ^ p.w
    let S1 := rotr p.w p.bigSigma1.1 e ^^^ rotr p.w p.bigSigma1.2.1 e ^^^
      rotr p.w p.bigSigma1.2.2 e
    let ch := (e &&& f) ^^^ ((m - 1 - e) &&& g)
    let t1 := (h + S1 + ch + k + wt) % m
    let S0 := rotr p.w p.bigSigma0.1 a ^^^ rotr p.w p.bigSigma0.2.1 a ^^^
      rotr p.w p.bigSigma0.2.2 a
    let maj := (a &&& b) ^^^ (a &&& c) ^^^ (b &&& c)
    let t2 := (S0 + maj) % m
    [(t1 + t2) % m, a, b, c, (d + t1) % m, e, f, g]
  | _ => v

/-- The compression function: the state after one block. -/
def Sha2.compress (p : Sha2) (state block : List Nat) : List Nat :=
  let v := (List.zip p.K (p.schedule block)).foldl (fun v kw => p.round v kw.1 kw.2) state
  List.zipWith (fun x y => (x + y) % 2 ^ p.w) state v

/-- The padded message: the byte 128, zero bytes and the bit length, up to a
whole number of blocks. -/
def Sha2.pad (p : Sha2) (msg : List Nat) : List Nat :=
  let blockBytes := p.w * 2
  let lenBytes := p.w / 4
  let used := (msg.length + 1 + lenBytes) % blockBytes
  let zeros := if used = 0 then 0 else blockBytes - used
  msg ++ 128 :: List.replicate zeros 0 ++ beBytes lenBytes (msg.length * 8)

/-- The state after all blocks of the padded message, written as bytes. -/
def Sha2.hash (p : Sha2) (init : List Nat) (outBytes : Nat) (msg : List Nat) : List Nat :=
  let blockBytes := p.w * 2
  let padded := p.pad msg
  let state := (List.range (padded.length / blockBytes)).foldl
    (fun st i => p.compress st ((padded.drop (i * blockBytes)).take blockBytes)) init
  (state.flatMap fun x => beBytes (p.w / 8) x).take outBytes

/-- Round constants of SHA-256. -/
def sha256K : List Nat :=
  [0x428a2f98, 0x71374491, 0xb5c0fbcf, 0xe9b5dba5, 0x3956c25b, 0x59f111f1,
   0x923f82a4, 0xab1c5ed5, 0xd807aa98, 0x12835b01, 0x243185be, 0x550c7dc3,
   0x72be5d74, 0x80deb1fe, 0x9bdc06a7, 0xc19bf174, 0xe49b69c1, 0xefbe4786,
   0xfc19dc6, 0x240ca1cc, 0x2de92c6f, 0x4a7484aa, 0x5cb0a9dc, 0x76f988da,
   0x983e5152, 0xa831c66d, 0xb00327c8, 0xbf597fc7, 0xc6e00bf3, 0xd5a79147,
   0x6ca6351, 0x14292967, 0x27b70a85, 0x2e1b2138, 0x4d2c6dfc, 0x53380d13,
   0x650a7354, 0x766a0abb, 0x81c2c92e, 0x92722c85, 0xa2bfe8a1, 0xa81a664b,
   0xc24b8b70, 0xc76c51a3, 0xd192e819, 0xd6990624, 0xf40e3585, 0x106aa070,
   0x19a4c116, 0x1e376c08, 0x2748774c, 0x34b0bcb5, 0x391c0cb3, 0x4ed8aa4a,
   0x5b9cca4f, 0x682e6ff3, 0x748f82ee, 0x78a5636f, 0x84c87814, 0x8cc70208,
   0x90befffa, 0xa4506ceb, 0xbef9a3f7, 0xc67178f2]

/-- Initial hash value of SHA-256. -/
def sha256Init : List Nat :=
  [0x6a09e667, 0xbb67ae85, 0x3c6ef372, 0xa54ff53a, 0x510e527f, 0x9b05688c,
   0x1f83d9ab, 0x5be0cd19]

/-- Round constants of SHA-512. -/
def sha512K : List Nat :=
  [0x428a2f98d728ae22, 0x7137449123ef65cd, 0xb5c0fbcfec4d3b2f, 0xe9b5dba58189dbbc,
   0x3956c25bf348b538, 0x59f111f1b605d019, 0x923f82a4af194f9b, 0xab1c5ed5da6d8118,
   0xd807aa98a3030242, 0x12835b0145706fbe, 0x243185be4ee4b28c, 0x550c7dc3d5ffb4e2,
   0x72be5d74f27b896f, 0x80deb1fe3b1696b1, 0x9bdc06a725c71235, 0xc19bf174cf692694,
   0xe49b69c19ef14ad2, 0xefbe4786384f25e3, 0xfc19dc68b8cd5b5, 0x240ca1cc77ac9c65,
   0x2de92c6f592b0275, 0x4a7484aa6ea6e483, 0x5cb0a9dcbd41fbd4, 0x76f988da831153b5,
   0x983e5152ee66dfab, 0xa831c66d2db43210, 0xb00327c898fb213f, 0xbf597fc7beef0ee4,
   0xc6e00bf33da88fc2, 0xd5a79147930aa725, 0x6ca6351e003826f, 0x142929670a0e6e70,
   0x27b70a8546d22ffc, 0x2e1b21385c26c926, 0x4d2c6dfc5ac42aed, 0x53380d139d95b3df,
   0x650a73548baf63de, 0x766a0abb3c77b2a8, 0x81c2c92e47edaee6, 0x92722c851482353b,
   0xa2bfe8a14cf10364, 0xa81a664bbc423001, 0xc24b8b70d0f89791, 0xc76c51a30654be30,
   0xd192e819d6ef5218, 0xd69906245565a910, 0xf40e35855771202a, 0x106aa07032bbd1b8,
   0x19a4c116b8d2d0c8, 0x1e376c085141ab53, 0x2748774cdf8eeb99, 0x34b0bcb5e19b48a8,
   0x391c0cb3c5c95a63, 0x4ed8aa4ae3418acb, 0x5b9cca4f7763e373, 0x682e6ff3d6b2b8a3,
   0x748f82ee5defb2fc, 0x78a5636f43172f60, 0x84c87814a1f0ab72, 0x8cc702081a6439ec,
   0x90befffa23631e28, 0xa4506cebde82bde9, 0xbef9a3f7b2c67915, 0xc67178f2e372532b,
   0xca273eceea26619c, 0xd186b8c721c0c207, 0xeada7dd6cde0eb1e, 0xf57d4f7fee6ed178,
   0x6f067aa72176fba, 0xa637dc5a2c898a6, 0x113f9804bef90dae, 0x1b710b35131c471b,
   0x28db77f523047d84, 0x32caab7b40c72493, 0x3c9ebe0a15c9bebc, 0x431d67c49c100d4c,
   0x4cc5d4becb3e42b6, 0x597f299cfc657e2a, 0x5fcb6fab3ad6faec, 0x6c44198c4a475817]

/-- Initial hash value of SHA-512. -/
def sha512Init : List Nat :=
  [0x6a09e667f3bcc908, 0xbb67ae8584caa73b, 0x3c6ef372fe94f82b, 0xa54ff53a5f1d36f1,
   0x510e527fade682d1, 0x9b05688c2b3e6c1f, 0x1f83d9abfb41bd6b, 0x5be0cd19137e2179]

/-- Initial hash value of SHA-384. -/
def sha384Init : List Nat :=
  [0xcbbb9d5dc1059ed8, 0x629a292a367cd507, 0x9159015a3070dd17, 0x152fecd8f70e5939,
   0x67332667ffc00b31, 0x8eb44a8768581511, 0xdb0c2e0d64f98fa7, 0x47b5481dbefa4fa4]

/-- The parameters of SHA-256. -/
def sha256Params : Sha2 :=
  { w := 32, rounds := 64, bigSigma0 := (2, 13, 22), bigSigma1 := (6, 11, 25),
    smallSigma0 := (7, 18, 3), smallSigma1 := (17, 19, 10), K := sha256K }

/-- The parameters of SHA-512 and SHA-384. -/
def sha512Params : Sha2 :=
  { w := 64, rounds := 80, bigSigma0 := (28, 34, 39), bigSigma1 := (14, 18, 41),
    smallSigma0 := (1, 8, 7), smallSigma1 := (19, 61, 6), K := sha512K }

/-- Function `sha256.Sum256`. -/
def sha256 (msg : List Nat) : List Nat := sha256Params.hash sha256Init 32 msg

/-- Function `sha512.Sum384`. -/
def sha384 (msg : List Nat) : List Nat := sha512Params.hash sha384Init 48 msg

/-- Function `sha512.Sum512`. -/
def sha512 (msg : List Nat) : List Nat := sha512Params.hash sha512Init 64 msg

/-- The key block of `hmac.New(h, key)`: a key longer than the block of the
hash is replaced by its digest, and the key is padded with zero bytes to the
block size.  The hash is SHA-256 for HS256 (block of 64 bytes), SHA-384 for
HS384 and SHA-512 for HS512 (block of 128 bytes); for another name, of a
method that computes no HMAC, the key bytes are kept as they are. -/
def hmacBlockKey (alg : String) (key : String) : List Nat :=
  let k := stringBytes key
  if alg = "HS256" then
    let k1 := if 64 < k.length then sha256 k else k
    k1 ++ List.replicate (64 - k1.length) 0
  else if alg = "HS384" then
    let k1 := if 128 < k.length then sha384 k else k
    k1 ++ List.replicate (128 - k1.length) 0
  else if alg = "HS512" then
    let k1 := if 128 < k.length then sha512 k else k
    k1 ++ List.replicate (128 - k1.length) 0
  else k

/-! ## Model of github.com/golang-jwt/jwt/v5 -/

/-- Decoded JSON payload of a token.  Numeric dates are whole seconds. -/
structure Payload where
  sub : Nat
  role : Option String
  exp : Option Int
  iat : Option Int
  nbf : Option Int
deriving DecidableEq, Repr

/-- Symbolic HMAC tag: the key block and the signing input it was computed
over.  Two tags are equal exactly when the key block, the algorithm and the
payload are. -/
structure Mac where
  key : List Nat
  alg : String
  payload : Payload
deriving DecidableEq, Repr

/-- A token string: either text that the parser cannot decode into header,
payload and signature, or the header algorithm, payload and signature encoded.
For text that has three dot-separated segments, `defect` is the parser's
description of the segment that does not decode. -/
inductive TokenString where
  | raw (text : String) (defect : String)
  | jws (alg : String) (payload : Payload) (sig : Mac)
deriving DecidableEq, Repr

/-- Families of signing methods registered by the library. -/
inductive SigningMethod where
  | HMAC (name : String)
  | RSA (name : String)
  | RSAPSS (name : String)
  | ECDSA (name : String)
  | Ed25519
  | None
deriving DecidableEq, Repr

/-- Function `jwt.GetSigningMethod`: the method registered under a header name. -/
def GetSigningMethod (alg : String) : Option SigningMethod :=
  if alg = "HS256" ∨ alg = "HS384" ∨ alg = "HS512" then some (.HMAC alg)
  else if alg = "RS256" ∨ alg = "RS384" ∨ alg = "RS512" then some (.RSA alg)
  else if alg = "PS256" ∨ alg = "PS384" ∨ alg = "PS512" then some (.RSAPSS alg)
  else if alg = "ES256" ∨ alg = "ES384" ∨ alg = "ES512" then some (.ECDSA alg)
  else if alg = "EdDSA" then some .Ed25519
  else if alg = "none" then some .None
  else none

/-- The type assertion `token.Method.(*jwt.SigningMethodHMAC)`. -/
def SigningMethod.isHMAC : SigningMethod → Bool
  | .HMAC _ => true
  | _ => false

/-- Parsed token handed to the key function, `jwt.Token`. -/
structure Token where
  Method : SigningMethod
  alg : String
  Claims : Payload
  Signature : Mac
  Valid : Bool
deriving DecidableEq, Repr

/-- Function `jwt.NewNumericDate`: the instant truncated to whole seconds. -/
def NewNumericDate (t : Time) : Int := t / Second

/-- The instant a numeric date stands for. -/
def NumericDate.Time (d : Int) : Time := d * Second

/-- Signing with `jwt.SigningMethodHS256` and a byte-slice key,
`NewWithClaims(SigningMethodHS256, claims).SignedString(key)`. -/
def SignedStringHS256 (payload : Payload) (key : String) : Except Err TokenString :=
  .ok (.jws "HS256" payload
    { key := hmacBlockKey "HS256" key, alg := "HS256", payload := payload })

/-- Method `Verify` of a signing method with a byte-slice key. -/
def SigningMethod.Verify (m : SigningMethod) (alg : String) (payload : Payload) (sig : Mac)
    (key : String) : Except Err Unit :=
  match m with
  | .HMAC _ =>
    if sig = { key := hmacBlockKey alg key, alg := alg, payload := payload } then .ok ()
    else .error (.new "signature is invalid")
  | .None => .error (.new "none signature type is not allowed")
  | _ => .error (.new "key is of invalid type")

/-- Function `joinErrors` of the library: the failures of one validation as
one error. -/
def joinErrors (first : Err) (rest : List Err) : Err := rest.foldl Err.join first

/-- The claims validator with default options: `exp` and `nbf` are checked
against the clock when present, `iat` is not checked; every failed check is
collected and the failures are returned joined. -/
def Validator.Validate (now : Time) (c : Payload) : Except Err Unit :=
  let expOk : Bool :=
    match c.exp with
    | some e => Time.Before now (NumericDate.Time e)
    | none => true
  let nbfOk : Bool :=
    match c.nbf with
    | some n => !(Time.Before now (NumericDate.Time n))
    | none => true
  let errs : List Err :=
    (if expOk then [] else [.new "token is expired"]) ++
      (if nbfOk then [] else [.new "token is not valid yet"])
  match errs with
  | [] => .ok ()
  | err :: rest => .error (.wrap "token has invalid claims" (joinErrors err rest))

/-- Function `jwt.ParseWithClaims` with default parser options. -/
def ParseWithClaims (now : Time) (tokenString : TokenString)
    (keyFunc : Token → Except Err String) : Except Err Token :=
  match tokenString with
  | .raw text defect =>
    if text.data.count '.' = 2 then .error (.wrap "token is malformed" (.new defect))
    else
      .error (.wrap "token is malformed" (.new "token contains an invalid number of segments"))
  | .jws alg payload sig =>
    match GetSigningMethod alg with
    | none =>
      .error (.wrap "token is unverifiable" (.new "signing method (alg) is unavailable"))
    | some method =>
      let token : Token :=
        { Method := method, alg := alg, Claims := payload, Signature := sig, Valid := false }
      match keyFunc token with
      | .error err => .error (.wrap "token is unverifiable: error while executing keyfunc" err)
      | .ok key =>
        match method.Verify alg payload sig key with
        | .error err => .error (.wrap "token signature is invalid" err)
        | .ok _ =>
          match Validator.Validate now payload with
          | .error err => .error err
          | .ok _ => .ok { token with Valid := true }

/-! ## pkg/jwt -/

/-- Struct `jwtService`. -/
structure jwtService where
  accessSecret : String
  refreshSecret : String
  accessTTL : Duration
  refreshTTL : Duration
deriving DecidableEq, Repr

/-- Struct `AccessClaims`; `sub` is the numeric `UserID`. -/
structure AccessClaims where
  UserID : Nat
  Role : String
  ExpiresAt : Option Int
  IssuedAt : Option Int
  NotBefore : Option Int
deriving DecidableEq, Repr

/-- Struct `RefreshClaims`. -/
structure RefreshClaims where
  UserID : Nat
  ExpiresAt : Option Int
  IssuedAt : Option Int
  NotBefore : Option Int
deriving DecidableEq, Repr

/-- JSON encoding of `AccessClaims`. -/
def AccessClaims.toPayload (c : AccessClaims) : Payload :=
  { sub := c.UserID, role := some c.Role, exp := c.ExpiresAt, iat := c.IssuedAt,
    nbf := c.NotBefore }

/-- JSON decoding into `AccessClaims`; an absent `role` decodes to the empty string. -/
def AccessClaims.ofPayload (p : Payload) : AccessClaims :=
  { UserID := p.sub, Role := p.role.getD "", ExpiresAt := p.exp, IssuedAt := p.iat,
    NotBefore := p.nbf }

/-- JSON encoding of `RefreshClaims`. -/
def RefreshClaims.toPayload (c : RefreshClaims) : Payload :=
  { sub := c.UserID, role := none, exp := c.ExpiresAt, iat := c.IssuedAt, nbf := c.NotBefore }

/-- JSON decoding into `RefreshClaims`; other members are ignored. -/
def RefreshClaims.ofPayload (p : Payload) : RefreshClaims :=
  { UserID := p.sub, ExpiresAt := p.exp, IssuedAt := p.iat, NotBefore := p.nbf }

/-- Function `NewJWTService`. -/
def NewJWTService (accessSecret refreshSecret : String) (accessTTL refreshTTL : Duration) :
    jwtService :=
  { accessSecret := accessSecret, refreshSecret := refreshSecret, accessTTL := accessTTL,
    refreshTTL := refreshTTL }

/-- Method `GenerateAccessToken`; `now` is its `time.Now()`. -/
def jwtService.GenerateAccessToken (s : jwtService) (now : Time) (userID : Nat)
    (role : String) : Except Err TokenString :=
  let claims : AccessClaims :=
    { UserID := userID
      Role := role
      ExpiresAt := some (NewNumericDate (now.Add s.accessTTL))
      IssuedAt := some (NewNumericDate now)
      NotBefore := some (NewNumericDate now) }
  SignedStringHS256 claims.toPayload s.accessSecret

/-- Method `GenerateRefreshToken`; `now` is its `time.Now()`. -/
def jwtService.GenerateRefreshToken (s : jwtService) (now : Time) (userID : Nat) :
    Except Err TokenString :=
  let claims : RefreshClaims :=
    { UserID := userID
      ExpiresAt := some (NewNumericDate (now.Add s.refreshTTL))
      IssuedAt := some (NewNumericDate now)
      NotBefore := some (NewNumericDate now) }
  SignedStringHS256 claims.toPayload s.refreshSecret

/-- The key function both validators pass to the parser. -/
def hmacKeyFunc (secret : String) (token : Token) : Except Err String :=
  if !token.Method.isHMAC then .error (.new "invalid signing method")
  else .ok secret

/-- Method `ValidateAccessToken`; `now` is the parser's clock reading. -/
def jwtService.ValidateAccessToken (s : jwtService) (now : Time) (tokenString : TokenString) :
    Except Err AccessClaims :=
  match ParseWithClaims now tokenString (hmacKeyFunc s.accessSecret) with
  | .error err => .error err
  | .ok token =>
    if token.Valid then .ok (AccessClaims.ofPayload token.Claims)
    else .error (.new "invalid token")

/-- Method `ValidateRefreshToken`; `now` is the parser's clock reading. -/
def jwtService.ValidateRefreshToken (s : jwtService) (now : Time) (tokenString : TokenString) :
    Except Err RefreshClaims :=
  match ParseWithClaims now tokenString (hmacKeyFunc s.refreshSecret) with
  | .error err => .error err
  | .ok token =>
    if token.Valid then .ok (RefreshClaims.ofPayload token.Claims)
    else .error (.new "invalid token")

/-! ## pkg/password -/

/-- The two functions of `golang.org/x/crypto/bcrypt` the service calls.
`GenerateFromPassword password cost rand` draws its salt from `rand`;
`CompareHashAndPassword hashedPassword password` returns `ok` for `nil`. -/
structure BcryptLib where
  GenerateFromPassword : String → Int → Nat → Except Err String
  CompareHashAndPassword : String → String → Except Err Unit

/-- Struct `passwordService` together with the library it calls. -/
structure passwordService where
  bcrypt : BcryptLib
  cost : Int

/-- Function `NewPasswordService`. -/
def NewPasswordService (bcrypt : BcryptLib) (cost : Int) : passwordService :=
  { bcrypt := bcrypt, cost := cost }

/-- Method `HashPassword`. -/
def passwordService.HashPassword (s : passwordService) (rand : Nat) (password : String) :
    Except Err String :=
  match s.bcrypt.GenerateFromPassword password s.cost rand with
  | .error err => .error err
  | .ok hashedPassword => .ok hashedPassword

/-- Method `CheckPassword`. -/
def passwordService.CheckPassword (s : passwordService) (password hashedPassword : String) :
    Bool :=
  match s.bcrypt.CompareHashAndPassword hashedPassword password with
  | .error _ => false
  | .ok _ => true

/-! ## Tables -/

/-- Row of table `refresh_tokens`, `domain.RefreshToken` (the `User`
association is not loaded by any query of the repository). -/
structure RefreshToken where
  ID : Nat
  UserID : Nat
  Token : TokenString
  ExpiresAt : Time
  Revoked : Bool
  CreatedAt : Time
deriving DecidableEq, Repr

/-- The database behind `*gorm.DB`: three tables, rows in primary-key order. -/
structure DB where
  users : List User
  tokens : List RefreshToken
  resets : List PasswordReset
deriving DecidableEq, Repr

/-- Sentinel `gorm.ErrRecordNotFound`. -/
def ErrRecordNotFound : Err := .new "record not found"

/-- Driver error of an insert or update that breaks a primary key or a unique index. -/
def ErrDuplicateEntry : Err := .new "Error 1062 (23000): Duplicate entry"

/-- The next value of an auto-increment key: one more than the largest key present. -/
def nextID (ids : List Nat) : Nat := ids.foldr max 0 + 1

/-- Statement `Where(cond).First(&row)`: the first matching row in primary-key
order, `ErrRecordNotFound` when there is none. -/
def gormFirst {α : Type} (fault : Option Err) (rows : List α) (cond : α → Bool) :
    Except Err α :=
  match fault with
  | some err => .error err
  | none =>
    match rows.find? cond with
    | some row => .ok row
    | none => .error ErrRecordNotFound

/-- Statement `Model(&row).Where(cond).Update(column, value)`: every matching
row is changed; matching no row is not an error. -/
def gormUpdate {α : Type} (fault : Option Err) (rows : List α) (cond : α → Bool)
    (set : α → α) : Except Err (List α) :=
  match fault with
  | some err => .error err
  | none => .ok (rows.map fun row => if cond row then set row else row)

/-- Insert of a row with explicit key `id` keeping primary-key order. -/
def insertByID {α : Type} (key : α → Nat) (row : α) (rows : List α) : List α :=
  rows.takeWhile (fun r => decide (key r < key row)) ++
    row :: rows.dropWhile (fun r => decide (key r < key row))

/-! ## internal/repository/user_repository.go -/

/-- Statement `db.Create(user)` on table `users`: the key is assigned when
zero, the timestamps are stamped when zero, and the insert fails on a key or
email already present.  Returns the row as written back into `user`. -/
def gormCreateUser (fault : Option Err) (now : Time) (db : DB) (user : User) :
    Except Err (User × DB) :=
  match fault with
  | some err => .error err
  | none =>
    let row : User :=
      { user with
        ID := if user.ID = 0 then nextID (db.users.map User.ID) else user.ID
        CreatedAt := if user.CreatedAt.IsZero then now else user.CreatedAt
        UpdatedAt := if user.UpdatedAt.IsZero then now else user.UpdatedAt }
    if db.users.any (fun r => decide (r.ID = row.ID) || decide (r.Email = row.Email)) then
      .error ErrDuplicateEntry
    else .ok (row, { db with users := insertByID User.ID row db.users })

/-- Statement `db.Save(user)` on table `users`: with a zero key it is a
create; otherwise all columns of the row with that key are written and
`UpdatedAt` is stamped, the row being inserted when the key is absent. -/
def gormSaveUser (fault : Option Err) (now : Time) (db : DB) (user : User) :
    Except Err (User × DB) :=
  if user.ID = 0 then gormCreateUser fault now db user
  else
    match fault with
    | some err => .error err
    | none =>
      let row : User := { user with UpdatedAt := now }
      if db.users.any (fun r => decide (r.ID ≠ row.ID) && decide (r.Email = row.Email)) then
        .error ErrDuplicateEntry
      else if db.users.any (fun r => decide (r.ID = row.ID)) then
        .ok (row, { db with users := db.users.map fun r => if r.ID = row.ID then row else r })
      else .ok (row, { db with users := insertByID User.ID row db.users })

/-- Method `userRepository.Create`. -/
def userRepository.Create (fault : Option Err) (now : Time) (db : DB) (user : User) :
    Except Err (User × DB) :=
  match gormCreateUser fault now db user with
  | .error err => .error (.wrap "failed to create user" err)
  | .ok res => .ok res

/-- Method `userRepository.GetByEmail`. -/
def userRepository.GetByEmail (fault : Option Err) (db : DB) (email : String) :
    Except Err (Option User) :=
  match gormFirst fault db.users (fun r => decide (r.Email = email)) with
  | .error err =>
    if errorsIs err ErrRecordNotFound then .ok none
    else .error (.wrap "failed to get user by email" err)
  | .ok user => .ok (some user)

/-- Method `userRepository.GetByID`. -/
def userRepository.GetByID (fault : Option Err) (db : DB) (id : Nat) :
    Except Err (Option User) :=
  match gormFirst fault db.users (fun r => decide (r.ID = id)) with
  | .error err =>
    if errorsIs err ErrRecordNotFound then .ok none
    else .error (.wrap "failed to get user by id" err)
  | .ok user => .ok (some user)

/-- Method `userRepository.Update`. -/
def userRepository.Update (fault : Option Err) (now : Time) (db : DB) (user : User) :
    Except Err (User × DB) :=
  match gormSaveUser fault now db user with
  | .error err => .error (.wrap "failed to update user" err)
  | .ok res => .ok res

/-! ## internal/repository/token_repository.go -/

/-- Statement `db.Create(token)` on table `refresh_tokens`; the index on
`token` is unique. -/
def gormCreateRefreshToken (fault : Option Err) (now : Time) (db : DB) (token : RefreshToken) :
    Except Err (RefreshToken × DB) :=
  match fault with
  | some err => .error err
  | none =>
    let row : RefreshToken :=
      { token with
        ID := if token.ID = 0 then nextID (db.tokens.map RefreshToken.ID) else token.ID
        CreatedAt := if token.CreatedAt.IsZero then now else token.CreatedAt }
    if db.tokens.any (fun r => decide (r.ID = row.ID) || decide (r.Token = row.Token)) then
      .error ErrDuplicateEntry
    else .ok (row, { db with tokens := insertByID RefreshToken.ID row db.tokens })

/-- Method `tokenRepository.CreateRefreshToken`. -/
def tokenRepository.CreateRefreshToken (fault : Option Err) (now : Time) (db : DB)
    (token : RefreshToken) : Except Err (RefreshToken × DB) :=
  match gormCreateRefreshToken fault now db token with
  | .error err => .error (.wrap "failed to create refresh token" err)
  | .ok res => .ok res

/-- Method `tokenRepository.GetRefreshToken`. -/
def tokenRepository.GetRefreshToken (fault : Option Err) (db : DB) (token : TokenString) :
    Except Err (Option RefreshToken) :=
  match gormFirst fault db.tokens (fun r => decide (r.Token = token)) with
  | .error err =>
    if errorsIs err ErrRecordNotFound then .ok none
    else .error (.wrap "failed to get refresh token" err)
  | .ok refreshToken => .ok (some refreshToken)

/-- Method `tokenRepository.RevokeRefreshToken`. -/
def tokenRepository.RevokeRefreshToken (fault : Option Err) (db : DB) (token : TokenString) :
    Except Err DB :=
  match gormUpdate fault db.tokens (fun r => decide (r.Token = token))
      (fun r => { r with Revoked := true }) with
  | .error err => .error (.wrap "failed to revoke refresh token" err)
  | .ok rows => .ok { db with tokens := rows }

/-- Method `tokenRepository.RevokeAllForUser`. -/
def tokenRepository.RevokeAllForUser (fault : Option Err) (db : DB) (userID : Nat) :
    Except Err DB :=
  match gormUpdate fault db.tokens (fun r => decide (r.UserID = userID))
      (fun r => { r with Revoked := true }) with
  | .error err => .error (.wrap "failed to revoke all tokens for user" err)
  | .ok rows => .ok { db with tokens := rows }

/-! ## internal/repository/password_reset_repository.go -/

/-- Statement `db.Create(reset)` on table `password_resets`; the index on
`token` is unique. -/
def gormCreatePasswordReset (fault : Option Err) (now : Time) (db : DB)
    (reset : PasswordReset) : Except Err (PasswordReset × DB) :=
  match fault with
  | some err => .error err
  | none =>
    let row : PasswordReset :=
      { reset with
        ID := if reset.ID = 0 then nextID (db.resets.map PasswordReset.ID) else reset.ID
        CreatedAt := if reset.CreatedAt.IsZero then now else reset.CreatedAt }
    if db.resets.any (fun r => decide (r.ID = row.ID) || decide (r.Token = row.Token)) then
      .error ErrDuplicateEntry
    else .ok (row, { db with resets := insertByID PasswordReset.ID row db.resets })

/-- Method `passwordResetRepository.Create`. -/
def passwordResetRepository.Create (fault : Option Err) (now : Time) (db : DB)
    (reset : PasswordReset) : Except Err (PasswordReset × DB) :=
  match gormCreatePasswordReset fault now db reset with
  | .error err => .error (.wrap "failed to create password reset" err)
  | .ok res => .ok res

/-- Method `passwordResetRepository.GetByToken`. -/
def passwordResetRepository.GetByToken (fault : Option Err) (db : DB) (token : String) :
    Except Err (Option PasswordReset) :=
  match gormFirst fault db.resets (fun r => decide (r.Token = token)) with
  | .error err =>
    if errorsIs err ErrRecordNotFound then .ok none
    else .error (.wrap "failed to get password reset by token" err)
  | .ok reset => .ok (some reset)

/-- Method `passwordResetRepository.MarkAsUsed`. -/
def passwordResetRepository.MarkAsUsed (fault : Option Err) (db : DB) (token : String) :
    Except Err DB :=
  match gormUpdate fault db.resets (fun r => decide (r.Token = token))
      (fun r => { r with Used := true }) with
  | .error err => .error (.wrap "failed to mark password reset as used" err)
  | .ok rows => .ok { db with resets := rows }

/-! ## internal/usecase/auth_usecase.go -/

/-- Struct `authUsecase`; the three repositories are the `DB` each method is
given. -/
structure authUsecase where
  jwtService : jwtService
  passwordService : passwordService
  accessTokenTTL : Duration
  refreshTokenTTL : Duration

/-- Function `NewAuthUsecase`. -/
def NewAuthUsecase (jwtSvc : jwtService) (passwordSvc : passwordService)
    (accessTokenTTL refreshTokenTTL : Duration) : authUsecase :=
  { jwtService := jwtSvc, passwordService := passwordSvc, accessTokenTTL := accessTokenTTL,
    refreshTokenTTL := refreshTokenTTL }

/-- Method `authUsecase.Register`.  Statements: 0 `GetByEmail`, 1 `Create`;
clock reading 0 is the one of `Create`. -/
def authUsecase.Register (u : authUsecase) (env : Env) (db : DB) (req : RegisterRequest) :
    Except Err UserResponse × DB :=
  match userRepository.GetByEmail (env.dbErr 0) db req.Email with
  | .error err => (.error (.wrap "failed to check existing user" err), db)
  | .ok (some _) => (.error (.new "user with this email already exists"), db)
  | .ok none =>
    match u.passwordService.HashPassword env.rand req.Password with
    | .error err => (.error (.wrap "failed to hash password" err), db)
    | .ok hashedPassword =>
      let user : User :=
        { ID := 0
          Email := req.Email
          PasswordHash := hashedPassword
          FullName := req.FullName
          Role := "user"
          Status := "active"
          EmailVerifiedAt := none
          CreatedAt := zeroTime
          UpdatedAt := zeroTime }
      match userRepository.Create (env.dbErr 1) (env.now 0) db user with
      | .error err => (.error (.wrap "failed to create user" err), db)
      | .ok (created, db1) => (.ok created.ToResponse, db1)

/-- Method `authUsecase.Login`.  Statements: 0 `GetByEmail`,
1 `CreateRefreshToken`; clock readings: 0 `GenerateAccessToken`,
1 `GenerateRefreshToken`, 2 the expiry of the record, 3 `CreateRefreshToken`. -/
def authUsecase.Login (u : authUsecase) (env : Env) (db : DB) (req : LoginRequest) :
    Except Err (TokenString × TokenString × UserResponse) × DB :=
  match userRepository.GetByEmail (env.dbErr 0) db req.Email with
  | .error err => (.error (.wrap "failed to get user" err), db)
  | .ok none => (.error (.new "invalid credentials"), db)
  | .ok (some user) =>
    if !u.passwordService.CheckPassword req.Password user.PasswordHash then
      (.error (.new "invalid credentials"), db)
    else if user.Status ≠ "active" then
      (.error (.new "user account is not active"), db)
    else
      match u.jwtService.GenerateAccessToken (env.now 0) user.ID user.Role with
      | .error err => (.error (.wrap "failed to generate access token" err), db)
      | .ok accessToken =>
        match u.jwtService.GenerateRefreshToken (env.now 1) user.ID with
        | .error err => (.error (.wrap "failed to generate refresh token" err), db)
        | .ok refreshToken =>
          let refreshTokenEntity : RefreshToken :=
            { ID := 0
              UserID := user.ID
              Token := refreshToken
              ExpiresAt := (env.now 2).Add u.refreshTokenTTL
              Revoked := false
              CreatedAt := zeroTime }
          match tokenRepository.CreateRefreshToken (env.dbErr 1) (env.now 3) db
              refreshTokenEntity with
          | .error err => (.error (.wrap "failed to save refresh token" err), db)
          | .ok (_, db1) => (.ok (accessToken, refreshToken, user.ToResponse), db1)

/-- Method `authUsecase.Logout`.  Statement 0 is `RevokeRefreshToken`. -/
def authUsecase.Logout (_u : authUsecase) (env : Env) (db : DB) (_userID : Nat)
    (refreshToken : TokenString) : Except Err Unit × DB :=
  match tokenRepository.RevokeRefreshToken (env.dbErr 0) db refreshToken with
  | .error err => (.error (.wrap "failed to revoke refresh token" err), db)
  | .ok db1 => (.ok (), db1)

/-- Method `authUsecase.RefreshToken`.  Statements: 0 `GetRefreshToken`,
1 `GetByID`, 2 `RevokeRefreshToken`, 3 `CreateRefreshToken`; clock readings:
0 `ValidateRefreshToken`, 1 the expiry check, 2 `GenerateAccessToken`,
3 `GenerateRefreshToken`, 4 the expiry of the new record,
5 `CreateRefreshToken`. -/
def authUsecase.RefreshToken (u : authUsecase) (env : Env) (db : DB)
    (refreshToken : TokenString) : Except Err (TokenString × TokenString) × DB :=
  match u.jwtService.ValidateRefreshToken (env.now 0) refreshToken with
  | .error err => (.error (.wrap "invalid refresh token" err), db)
  | .ok claims =>
    match tokenRepository.GetRefreshToken (env.dbErr 0) db refreshToken with
    | .error err => (.error (.wrap "failed to get refresh token" err), db)
    | .ok none => (.error (.new "refresh token not found"), db)
    | .ok (some tokenEntity) =>
      if tokenEntity.Revoked then (.error (.new "refresh token is revoked"), db)
      else if tokenEntity.ExpiresAt.Before (env.now 1) then
        (.error (.new "refresh token is expired"), db)
      else
        match userRepository.GetByID (env.dbErr 1) db claims.UserID with
        | .error err => (.error (.wrap "failed to get user" err), db)
        | .ok none => (.error (.new "user not found"), db)
        | .ok (some user) =>
          match tokenRepository.RevokeRefreshToken (env.dbErr 2) db refreshToken with
          | .error err => (.error (.wrap "failed to revoke old refresh token" err), db)
          | .ok db1 =>
            match u.jwtService.GenerateAccessToken (env.now 2) user.ID user.Role with
            | .error err => (.error (.wrap "failed to generate new access token" err), db1)
            | .ok newAccessToken =>
              match u.jwtService.GenerateRefreshToken (env.now 3) user.ID with
              | .error err => (.error (.wrap "failed to generate new refresh token" err), db1)
              | .ok newRefreshToken =>
                let newTokenEntity : GoGinAuth.RefreshToken :=
                  { ID := 0
                    UserID := user.ID
                    Token := newRefreshToken
                    ExpiresAt := (env.now 4).Add u.refreshTokenTTL
                    Revoked := false
                    CreatedAt := zeroTime }
                match tokenRepository.CreateRefreshToken (env.dbErr 3) (env.now 5) db1
                    newTokenEntity with
                | .error err => (.error (.wrap "failed to save new refresh token" err), db1)
                | .ok (_, db2) => (.ok (newAccessToken, newRefreshToken), db2)

/-- Method `authUsecase.ForgotPassword`.  Statements: 0 `GetByEmail`,
1 `Create`; clock readings: 0 the expiry of the record, 1 `Create`. -/
def authUsecase.ForgotPassword (_u : authUsecase) (env : Env) (db : DB) (email : String) :
    Except Err Unit × DB :=
  match userRepository.GetByEmail (env.dbErr 0) db email with
  | .error err => (.error (.wrap "failed to get user" err), db)
  | .ok none => (.ok (), db)
  | .ok (some _) =>
    let resetToken := env.uuid
    let passwordReset : PasswordReset :=
      { ID := 0
        Email := email
        Token := resetToken
        ExpiresAt := (env.now 0).Add (1 * Hour)
        Used := false
        CreatedAt := zeroTime }
    match passwordResetRepository.Create (env.dbErr 1) (env.now 1) db passwordReset with
    | .error err => (.error (.wrap "failed to create password reset" err), db)
    | .ok (_, db1) => (.ok (), db1)

/-- Method `authUsecase.ResetPassword`.  Statements: 0 `GetByToken`,
1 `GetByEmail`, 2 `Update`, 3 `MarkAsUsed`, 4 `RevokeAllForUser`; clock
readings: 0 the expiry check, 1 `Update`. -/
def authUsecase.ResetPassword (u : authUsecase) (env : Env) (db : DB) (token : String)
    (newPassword : String) : Except Err Unit × DB :=
  match passwordResetRepository.GetByToken (env.dbErr 0) db token with
  | .error err => (.error (.wrap "failed to get password reset" err), db)
  | .ok none => (.error (.new "invalid reset token"), db)
  | .ok (some passwordReset) =>
    if passwordReset.ExpiresAt.Before (env.now 0) then
      (.error (.new "reset token is expired"), db)
    else if passwordReset.Used then (.error (.new "reset token is already used"), db)
    else
      match userRepository.GetByEmail (env.dbErr 1) db passwordReset.Email with
      | .error err => (.error (.wrap "failed to get user" err), db)
      | .ok none => (.error (.new "user not found"), db)
      | .ok (some user) =>
        match u.passwordService.HashPassword env.rand newPassword with
        | .error err => (.error (.wrap "failed to hash password" err), db)
        | .ok hashedPassword =>
          match userRepository.Update (env.dbErr 2) (env.now 1) db
              { user with PasswordHash := hashedPassword } with
          | .error err => (.error (.wrap "failed to update user password" err), db)
          | .ok (saved, db1) =>
            match passwordResetRepository.MarkAsUsed (env.dbErr 3) db1 token with
            | .error err => (.error (.wrap "failed to mark reset token as used" err), db1)
            | .ok db2 =>
              match tokenRepository.RevokeAllForUser (env.dbErr 4) db2 saved.ID with
              | .error err => (.error (.wrap "failed to revoke user tokens" err), db2)
              | .ok db3 => (.ok (), db3)

/-! ## Concrete instances used by the examples -/

/-- A stand-in for the hashing library: the digest is the password behind a
fixed marker, and comparison recomputes it. -/
def exampleBcrypt : BcryptLib :=
  { GenerateFromPassword := fun password _ _ => .ok ("$2a$" ++ password)
    CompareHashAndPassword := fun hashedPassword password =>
      if hashedPassword = "$2a$" ++ password then .ok ()
      else .error (.new "crypto/bcrypt: hashedPassword is not the hash of the given password") }

/-- An engine with a 15 minute access TTL and a 7 day refresh TTL. -/
def exampleUsecase : authUsecase :=
  NewAuthUsecase (NewJWTService "access-secret" "refresh-secret" (900 * Second) (168 * Hour))
    (NewPasswordService exampleBcrypt 12) (900 * Second) (168 * Hour)

/-- An environment whose clock stands at `t` and whose statements all work. -/
def quietEnv (t : Time) : Env :=
  { now := fun _ => t, dbErr := fun _ => none, rand := 0, uuid := "3f2c9a1e-reset" }

/-- The empty database. -/
def emptyDB : DB := { users := [], tokens := [], resets := [] }

/-- A database with the single identity `a@x.com`, password `secret1`. -/
def aliceDB : DB :=
  { users :=
      [{ ID := 1, Email := "a@x.com", PasswordHash := "$2a$secret1", FullName := "A",
         Role := "user", Status := "active", EmailVerifiedAt := none,
         CreatedAt := 5 * Second, UpdatedAt := 5 * Second }]
    tokens := []
    resets := [] }

/-- An environment whose clock stands at `t` and whose every database
statement fails with a connection error. -/
def downEnv (t : Time) : Env :=
  { now := fun _ => t, dbErr := fun _ => some (.new "driver: bad connection"), rand := 0,
    uuid := "3f2c9a1e-reset" }

/-- The refresh token issued to identity 1 by `exampleUsecase` at 6 s. -/
def aliceRefresh : TokenString :=
  .jws "HS256" { sub := 1, role := none, exp := some 604806, iat := some 6, nbf := some 6 }
    { key := hmacBlockKey "HS256" "refresh-secret", alg := "HS256",
      payload := { sub := 1, role := none, exp := some 604806, iat := some 6, nbf := some 6 } }

/-- The access token issued to identity 1 by `exampleUsecase` at 6 s. -/
def aliceAccess : TokenString :=
  .jws "HS256" { sub := 1, role := some "user", exp := some 906, iat := some 6, nbf := some 6 }
    { key := hmacBlockKey "HS256" "access-secret", alg := "HS256",
      payload :=
        { sub := 1, role := some "user", exp := some 906, iat := some 6, nbf := some 6 } }

/-- The database after `a@x.com` logged in at 6 s. -/
def sessionDB : DB :=
  { aliceDB with
    tokens :=
      [{ ID := 1, UserID := 1, Token := aliceRefresh, ExpiresAt := 604806 * Second,
         Revoked := false, CreatedAt := 6 * Second }] }

/-- The token pair returned by rotating `aliceRefresh` at 7 s. -/
def rotatedPair : TokenString × TokenString :=
  (.jws "HS256" { sub := 1, role := some "user", exp := some 907, iat := some 7, nbf := some 7 }
      { key := hmacBlockKey "HS256" "access-secret", alg := "HS256",
        payload :=
          { sub := 1, role := some "user", exp := some 907, iat := some 7, nbf := some 7 } },
   .jws "HS256" { sub := 1, role := none, exp := some 604807, iat := some 7, nbf := some 7 }
      { key := hmacBlockKey "HS256" "refresh-secret", alg := "HS256",
        payload := { sub := 1, role := none, exp := some 604807, iat := some 7, nbf := some 7 } })

/-- The database after rotating `aliceRefresh` at 7 s. -/
def rotatedDB : DB :=
  { aliceDB with
    tokens :=
      [{ ID := 1, UserID := 1, Token := aliceRefresh, ExpiresAt := 604806 * Second,
         Revoked := true, CreatedAt := 6 * Second },
       { ID := 2, UserID := 1, Token := rotatedPair.2, ExpiresAt := 604807 * Second,
         Revoked := false, CreatedAt := 7 * Second }] }

/-- The database `sessionDB` after `a@x.com` asked for a password reset at 9 s. -/
def resetPendingDB : DB :=
  { sessionDB with
    resets :=
      [{ ID := 1, Email := "a@x.com", Token := "3f2c9a1e-reset", ExpiresAt := 3609 * Second,
         Used := false, CreatedAt := 9 * Second }] }

/-- The database `resetPendingDB` after the password was reset to `newpass` at 10 s. -/
def afterResetDB : DB :=
  { users :=
      [{ ID := 1, Email := "a@x.com", PasswordHash := "$2a$newpass", FullName := "A",
         Role := "user", Status := "active", EmailVerifiedAt := none,
         CreatedAt := 5 * Second, UpdatedAt := 10 * Second }]
    tokens :=
      [{ ID := 1, UserID := 1, Token := aliceRefresh, ExpiresAt := 604806 * Second,
         Revoked := true, CreatedAt := 6 * Second }]
    resets :=
      [{ ID := 1, Email := "a@x.com", Token := "3f2c9a1e-reset", ExpiresAt := 3609 * Second,
         Used := true, CreatedAt := 9 * Second }] }

/-- An engine whose access tokens live half a second. -/
def halfSecondUsecase : authUsecase :=
  NewAuthUsecase (NewJWTService "access-secret" "refresh-secret" 500000000 (168 * Hour))
    (NewPasswordService exampleBcrypt 12) 500000000 (168 * Hour)

/-- The access token `halfSecondUsecase` issues to identity 1 at 6.2 s. -/
def staleAccess : TokenString :=
  .jws "HS256" { sub := 1, role := some "user", exp := some 6, iat := some 6, nbf := some 6 }
    { key := hmacBlockKey "HS256" "access-secret", alg := "HS256",
      payload := { sub := 1, role := some "user", exp := some 6, iat := some 6, nbf := some 6 } }

/-- The sanitized view of the identity in `aliceDB`. -/
def aliceResponse : UserResponse :=
  { ID := 1, Email := "a@x.com", FullName := "A", Role := "user", Status := "active",
    EmailVerifiedAt := none, CreatedAt := 5 * Second }

/-! ## Store invariant -/

/-- The `sub` claim a token string carries, when it is a well-formed token. -/
def TokenString.subject? : TokenString → Option Nat
  | .raw _ _ => none
  | .jws _ payload _ => some payload.sub

/-- Every record of the Session Store whose token string is a well-formed
token names the id of an existing identity as its subject. -/
def SessionsOwned (db : DB) : Bool :=
  db.tokens.all fun r =>
    match r.Token.subject? with
    | none => true
    | some id => db.users.any fun usr => decide (usr.ID = id)

/-- Relation between the database before and after an operation: no identity
id disappears; every session token is an old one or names an identity of the
new database as its subject; no session token string disappears; and every
session record either continues an old record with the same token string
without losing its revoked flag, or carries a token string the old table did
not hold. -/
def Extends (db db1 : DB) : Prop :=
  (∀ usr ∈ db.users, ∃ usr1 ∈ db1.users, usr1.ID = usr.ID) ∧
    (∀ r1 ∈ db1.tokens,
      (∃ r ∈ db.tokens, r.Token = r1.Token) ∨
        ∃ usr1 ∈ db1.users, r1.Token.subject? = some usr1.ID) ∧
    (∀ r ∈ db.tokens, ∃ r1 ∈ db1.tokens, r1.Token = r.Token) ∧
    ∀ r1 ∈ db1.tokens,
      (∃ r ∈ db.tokens, r.Token = r1.Token ∧ (r.Revoked = true → r1.Revoked = true)) ∨
        ∀ r ∈ db.tokens, r.Token ≠ r1.Token

/-- One call of a method of `authUsecase`, with the environment it runs in. -/
inductive Op where
  | register (env : Env) (req : RegisterRequest)
  | login (env : Env) (req : LoginRequest)
  | logout (env : Env) (userID : Nat) (refreshToken : TokenString)
  | refresh (env : Env) (refreshToken : TokenString)
  | forgot (env : Env) (email : String)
  | reset (env : Env) (token : String) (newPassword : String)

/-- The database an operation leaves behind, whatever its result. -/
def Op.run (u : authUsecase) (db : DB) : Op → DB
  | .register env req => (u.Register env db req).2
  | .login env req => (u.Login env db req).2
  | .logout env userID refreshToken => (u.Logout env db userID refreshToken).2
  | .refresh env refreshToken => (u.RefreshToken env db refreshToken).2
  | .forgot env email => (u.ForgotPassword env db email).2
  | .reset env token newPassword => (u.ResetPassword env db token newPassword).2

/-- The database after a sequence of operations, run in order. -/
def runOps (u : authUsecase) (db : DB) (ops : List Op) : DB :=
  ops.foldl (Op.run u) db

/-- The Session Store holds token string `t`, and every record that carries
it is revoked. -/
def SessionRevoked (db : DB) (t : TokenString) : Prop :=
  (∃ r ∈ db.tokens, r.Token = t) ∧ ∀ r ∈ db.tokens, r.Token = t → r.Revoked = true

/-! ## internal/domain: profile and listing requests -/

/-- Request body of a profile update, `domain.UpdateProfileRequest`. -/
structure UpdateProfileRequest where
  FullName : String
deriving DecidableEq, Repr

/-- Request body of a password change, `domain.ChangePasswordRequest`. -/
structure ChangePasswordRequest where
  OldPassword : String
  NewPassword : String
deriving DecidableEq, Repr

/-- Query of the user listing, `domain.ListUsersRequest`; `Page` and `Limit`
are Go `int` values. -/
structure ListUsersRequest where
  Page : Int
  Limit : Int
  Search : String
  Role : String
  Status : String
deriving DecidableEq, Repr

/-- Paging data of a listing, `domain.Pagination`. -/
structure Pagination where
  Page : Int
  Limit : Int
  Total : Int
  TotalPages : Int
deriving DecidableEq, Repr

/-- Result of the user listing, `domain.PaginatedUsersResponse`. -/
structure PaginatedUsersResponse where
  Users : List UserResponse
  Pagination : Pagination
deriving DecidableEq, Repr

/-- Arithmetic of the 64-bit Go `int`: the value wrapped into the signed range. -/
def wrapInt64 (x : Int) : Int :=
  (x + 9223372036854775808) % 18446744073709551616 - 9223372036854775808

/-- Rows of table `users` returned by a query. -/
abbrev Users := List User

/-- Method `userRepository.List`.  `like value pattern` is the `LIKE` operator
of the database; the first fault is the one of `Count`, the second the one of
`Find`.  A negative limit means no limit and only a positive offset skips
rows. -/
def userRepository.List (like : String → String → Bool) (faultCount faultFind : Option Err)
    (db : DB) (limit offset : Int) (search role status : String) :
    Except Err (Users × Int) :=
  let query : Users := db.users.filter fun r =>
    (decide (search = "") || like r.FullName ("%" ++ search ++ "%") ||
        like r.Email ("%" ++ search ++ "%")) &&
      (decide (role = "") || decide (r.Role = role)) &&
      (decide (status = "") || decide (r.Status = status))
  match faultCount with
  | some err => .error (.wrap "failed to count users" err)
  | none =>
    let total : Int := query.length
    match faultFind with
    | some err => .error (.wrap "failed to list users" err)
    | none =>
      let skipped : Users := if 0 < offset then query.drop offset.toNat else query
      let users : Users := if 0 ≤ limit then skipped.take limit.toNat else skipped
      .ok (users, total)

/-! ## internal/usecase/user_usecase.go -/

/-- Struct `userUsecase`; the user repository is the `DB` each method is given. -/
structure userUsecase where
  passwordService : passwordService

/-- Function `NewUserUsecase`. -/
def NewUserUsecase (passwordSvc : passwordService) : userUsecase :=
  { passwordService := passwordSvc }

/-- Method `userUsecase.GetProfile`.  Statement 0 is `GetByID`. -/
def userUsecase.GetProfile (_u : userUsecase) (env : Env) (db : DB) (userID : Nat) :
    Except Err UserResponse × DB :=
  match userRepository.GetByID (env.dbErr 0) db userID with
  | .error err => (.error (.wrap "failed to get user" err), db)
  | .ok none => (.error (.new "user not found"), db)
  | .ok (some user) => (.ok user.ToResponse, db)

/-- Method `userUsecase.UpdateProfile`.  Statements: 0 `GetByID`, 1 `Update`;
clock reading 0 is the one of `Update`. -/
def userUsecase.UpdateProfile (_u : userUsecase) (env : Env) (db : DB) (userID : Nat)
    (req : UpdateProfileRequest) : Except Err UserResponse × DB :=
  match userRepository.GetByID (env.dbErr 0) db userID with
  | .error err => (.error (.wrap "failed to get user" err), db)
  | .ok none => (.error (.new "user not found"), db)
  | .ok (some user) =>
    match userRepository.Update (env.dbErr 1) (env.now 0) db
        { user with FullName := req.FullName } with
    | .error err => (.error (.wrap "failed to update user" err), db)
    | .ok (saved, db1) => (.ok saved.ToResponse, db1)

/-- Method `userUsecase.ChangePassword`.  Statements: 0 `GetByID`, 1 `Update`;
clock reading 0 is the one of `Update`. -/
def userUsecase.ChangePassword (u : userUsecase) (env : Env) (db : DB) (userID : Nat)
    (req : ChangePasswordRequest) : Except Err Unit × DB :=
  match userRepository.GetByID (env.dbErr 0) db userID with
  | .error err => (.error (.wrap "failed to get user" err), db)
  | .ok none => (.error (.new "user not found"), db)
  | .ok (some user) =>
    if !u.passwordService.CheckPassword req.OldPassword user.PasswordHash then
      (.error (.new "invalid old password"), db)
    else
      match u.passwordService.HashPassword env.rand req.NewPassword with
      | .error err => (.error (.wrap "failed to hash password" err), db)
      | .ok hashedPassword =>
        match userRepository.Update (env.dbErr 1) (env.now 0) db
            { user with PasswordHash := hashedPassword } with
        | .error err => (.error (.wrap "failed to update user" err), db)
        | .ok (_, db1) => (.ok (), db1)

/-- Method `userUsecase.ListUsers`.  Statements: 0 `Count`, 1 `Find`.
`ceilQuotient total limit` stands for
`int(math.Ceil(float64(total) / float64(limit)))`. -/
def userUsecase.ListUsers (_u : userUsecase) (like : String → String → Bool)
    (ceilQuotient : Int → Int → Int) (env : Env) (db : DB) (req : ListUsersRequest) :
    Except Err PaginatedUsersResponse × DB :=
  let page : Int := if req.Page ≤ 0 then 1 else req.Page
  let limit : Int := if req.Limit ≤ 0 then 10 else req.Limit
  let offset : Int := wrapInt64 (wrapInt64 (page - 1) * limit)
  match userRepository.List like (env.dbErr 0) (env.dbErr 1) db limit offset req.Search
      req.Role req.Status with
  | .error err => (.error (.wrap "failed to list users" err), db)
  | .ok (users, total) =>
    let userResponses : List UserResponse := users.map User.ToResponse
    let totalPages : Int := ceilQuotient total limit
    (.ok { Users := userResponses
           Pagination :=
             { Page := page, Limit := limit, Total := total, TotalPages := totalPages } },
     db)

/-- A database whose single identity `s@x.com` is suspended. -/
def suspendedDB : DB :=
  { users :=
      [{ ID := 1, Email := "s@x.com", PasswordHash := "$2a$secret1", FullName := "S",
         Role := "user", Status := "suspended", EmailVerifiedAt := none,
         CreatedAt := 5 * Second, UpdatedAt := 5 * Second }]
    tokens := []
    resets := [] }

/-- The database `sessionDB` with the record of `aliceRefresh` expiring at 10 s. -/
def shortSessionDB : DB :=
  { aliceDB with
    tokens :=
      [{ ID := 1, UserID := 1, Token := aliceRefresh, ExpiresAt := 10 * Second,
         Revoked := false, CreatedAt := 6 * Second }] }

/-- The sessions of `sessionDB` without any identity. -/
def orphanDB : DB := { sessionDB with users := [] }

/-- A codec whose two secrets are the same string. -/
def sharedSecretService : jwtService :=
  NewJWTService "shared-secret" "shared-secret" (900 * Second) (168 * Hour)

/-- The access token `sharedSecretService` issues to identity 1 at 6 s. -/
def sharedAccess : TokenString :=
  .jws "HS256" { sub := 1, role := some "user", exp := some 906, iat := some 6, nbf := some 6 }
    { key := hmacBlockKey "HS256" "shared-secret", alg := "HS256",
      payload :=
        { sub := 1, role := some "user", exp := some 906, iat := some 6, nbf := some 6 } }

/-- The refresh token `sharedSecretService` issues to identity 1 at 6 s. -/
def sharedRefresh : TokenString :=
  .jws "HS256" { sub := 1, role := none, exp := some 604806, iat := some 6, nbf := some 6 }
    { key := hmacBlockKey "HS256" "shared-secret", alg := "HS256",
      payload := { sub := 1, role := none, exp := some 604806, iat := some 6, nbf := some 6 } }

/-- A stand-in for the `LIKE` operator of the database: nothing matches. -/
def exampleLike : String → String → Bool := fun _ _ => false

/-- A stand-in for the float computation of the page count: the exact
ceiling of the quotient for a positive limit. -/
def exampleCeilQuotient : Int → Int → Int := fun total limit => (total + limit - 1) / limit

/-- The user use case with the example hasher. -/
def exampleUserUsecase : userUsecase := NewUserUsecase (NewPasswordService exampleBcrypt 12)

/-- The identity of `aliceDB`. -/
def aliceUser : User :=
  { ID := 1, Email := "a@x.com", PasswordHash := "$2a$secret1", FullName := "A",
    Role := "user", Status := "active", EmailVerifiedAt := none,
    CreatedAt := 5 * Second, UpdatedAt := 5 * Second }

/-- The database `aliceDB` after the profile name was changed to `A2` at 7 s. -/
def renamedDB : DB :=
  { users := [{ aliceUser with FullName := "A2", UpdatedAt := 7 * Second }]
    tokens := []
    resets := [] }

/-- The database `sessionDB` with its identity suspended after the login: the
identity `s@x.com` holds the unrevoked session of `aliceRefresh`. -/
def suspendedSessionDB : DB := { suspendedDB with tokens := sessionDB.tokens }

/-- A codec whose refresh tokens live one and a half seconds. -/
def fractionalService : jwtService :=
  NewJWTService "access-secret" "refresh-secret" (900 * Second) 1500000000

/-- Relation between the Reset Store before and after an operation: every old
record keeps its position and its fields, except that its `used` flag may have
been set; the new records follow the old ones and carry token strings the old
table did not hold. -/
def ResetsExtend (db db1 : DB) : Prop :=
  ∃ (mark : PasswordReset → Bool) (rest : List PasswordReset),
    db1.resets =
        (db.resets.map fun r => if mark r then { r with Used := true } else r) ++ rest ∧
      ∀ r1 ∈ rest, ∀ r ∈ db.resets, r.Token ≠ r1.Token

/-- The Reset Store holds token string `token`, and every record that carries
it is used. -/
def ResetSpent (db : DB) (token : String) : Prop :=
  (∃ r ∈ db.resets, r.Token = token) ∧ ∀ r ∈ db.resets, r.Token = token → r.Used = true

/-- The database `resetPendingDB` after `a@x.com` asked for a second password
reset at 11 s: two outstanding reset tokens for one email. -/
def twoResetsDB : DB :=
  { resetPendingDB with
    resets :=
      [{ ID := 1, Email := "a@x.com", Token := "3f2c9a1e-reset", ExpiresAt := 3609 * Second,
         Used := false, CreatedAt := 9 * Second },
       { ID := 2, Email := "a@x.com", Token := "77aa0b42-reset", ExpiresAt := 3611 * Second,
         Used := false, CreatedAt := 11 * Second }] }

/-- An environment whose clock stands at `t` and in which statement `k` of the
call fails with a connection error, the other statements working: the call is
interrupted after the statements before `k`. -/
def faultAt (k : Nat) (t : Time) : Env :=
  { now := fun _ => t
    dbErr := fun i => if i = k then some (.new "driver: bad connection") else none
    rand := 0
    uuid := "3f2c9a1e-reset" }

/-- The `exp` claim a token string carries, when it is a well-formed token
with that claim. -/
def TokenString.exp? : TokenString → Option Int
  | .raw _ _ => none
  | .jws _ payload _ => payload.exp

/-- Every record of the Session Store carries a token string with an `exp`
claim, and the record's `expires_at` is not earlier than that instant. -/
def ExpiryCovered (db : DB) : Prop :=
  ∀ r ∈ db.tokens, ∃ e, r.Token.exp? = some e ∧ NumericDate.Time e ≤ r.ExpiresAt

/-- The environment an operation runs in. -/
def Op.env : Op → Env
  | .register env _ => env
  | .login env _ => env
  | .logout env _ _ => env
  | .refresh env _ => env
  | .forgot env _ => env
  | .reset env _ _ => env

/-- The clock of one call does not go backwards between its readings. -/
def ClockMonotone (env : Env) : Prop := ∀ i j : Nat, i ≤ j → env.now i ≤ env.now j

/-- An environment with working statements in which the codec reads the clock
one nanosecond before 604806 s and every later reading is one nanosecond
after it. -/
def lateCheckEnv : Env :=
  { now := fun k => if k = 0 then 604806 * Second - 1 else 604806 * Second + 1
    dbErr := fun _ => none
    rand := 0
    uuid := "3f2c9a1e-reset" }

/-! ## Binary64 arithmetic of the page count -/

/-- Rounding of a rational to the nearest integer, ties to the even one. -/
def roundHalfEven (q : ℚ) : ℤ :=
  let f : ℤ := ⌊q⌋
  let d : ℚ := q - f
  if d < 1 / 2 then f
  else if 1 / 2 < d then f + 1
  else if f % 2 = 0 then f
  else f + 1

/-- Rounding of a real value to the nearest `float64` (53-bit significand,
ties to even).  The values met here are quotients of 64-bit integers, which
lie in the normal range, so no overflow or subnormal case arises. -/
def float64Round (q : ℚ) : ℚ :=
  if q = 0 then 0
  else
    let e : ℤ := Int.log 2 |q|
    let ulp : ℚ := 2 ^ (e - 52)
    (roundHalfEven (q / ulp) : ℚ) * ulp

/-- Conversion `float64(n)` of an integer. -/
def float64OfInt (n : Int) : ℚ := float64Round n

/-- Division of two `float64` values with a nonzero divisor. -/
def float64Div (x y : ℚ) : ℚ := float64Round (x / y)

/-- Function `math.Ceil` on a finite `float64`. -/
def mathCeil (x : ℚ) : ℚ := (⌈x⌉ : ℤ)

/-- Conversion `int(x)` of a finite `float64`: truncation toward zero; outside
the 64-bit range the result is the one of the amd64 conversion instruction. -/
def intOfFloat64 (x : ℚ) : Int :=
  let t : ℤ := if 0 ≤ x then ⌊x⌋ else ⌈x⌉
  if -9223372036854775808 ≤ t ∧ t < 9223372036854775808 then t else -9223372036854775808

/-- The expression `int(math.Ceil(float64(total) / float64(limit)))` of
`ListUsers`, for a nonzero `limit`. -/
def ceilFloat64 (total limit : Int) : Int :=
  intOfFloat64 (mathCeil (float64Div (float64OfInt total) (float64OfInt limit)))

/-- The database `aliceDB` with a second identity `b@x.com`. -/
def twoUsersDB : DB :=
  { aliceDB with
    users :=
      [aliceUser,
       { ID := 2, Email := "b@x.com", PasswordHash := "$2a$secret2", FullName := "B",
         Role := "user", Status := "active", EmailVerifiedAt := none,
         CreatedAt := 6 * Second, UpdatedAt := 6 * Second }] }

/-- The sanitized view of the second identity of `twoUsersDB`. -/
def bobResponse : UserResponse :=
  { ID := 2, Email := "b@x.com", FullName := "B", Role := "user", Status := "active",
    EmailVerifiedAt := none, CreatedAt := 6 * Second }

/-- A codec whose refresh secret is the access secret followed by a NUL byte. -/
def nulPaddedService : jwtService :=
  NewJWTService "access-secret" "access-secret\x00" (900 * Second) (168 * Hour)

/-! ## Model of golang.org/x/crypto/bcrypt

The repository pins no version of the library.  The definitions follow its
current release, in which `GenerateFromPassword` refuses a password of more
than 72 bytes. -/

/-- The two primitives under the library that the model does not compute: the
entropy source and the Blowfish computation.  `readSalt rand` is
`io.ReadFull(rand.Reader, unencodedSalt)`, the 16 salt bytes or the reader's
error; `blowfish password cost salt` is the 24 cipher bytes function `bcrypt`
computes from the password bytes, the cost and the encoded salt before it
encodes them, or the error of decoding the salt.  Both results are lists of
bytes. -/
structure BcryptPrimitives where
  readSalt : Nat → Except Err { salt : List Nat // salt.length = 16 ∧ ∀ b ∈ salt, b < 256 }
  blowfish : List Nat → Int → List Nat →
    Except Err { out : List Nat // out.length = 24 ∧ ∀ b ∈ out, b < 256 }

/-- The alphabet of the library's base64 encoding. -/
def bcryptAlphabet : List Nat :=
  stringBytes "./ABCDEFGHIJKLMNOPQRSTUVWXYZabcdefghijklmnopqrstuvwxyz0123456789"

/-- Function `base64Encode`: unpadded base64 in the library's alphabet. -/
def base64Encode : List Nat → List Nat
  | [] => []
  | [a] => [bcryptAlphabet.getD (a / 4 % 64) 0, bcryptAlphabet.getD (a % 4 * 16) 0]
  | [a, b] =>
    [bcryptAlphabet.getD (a / 4 % 64) 0, bcryptAlphabet.getD (a % 4 * 16 + b / 16 % 16) 0,
     bcryptAlphabet.getD (b % 16 * 4) 0]
  | a :: b :: c :: rest =>
    bcryptAlphabet.getD (a / 4 % 64) 0 :: bcryptAlphabet.getD (a % 4 * 16 + b / 16 % 16) 0 ::
      bcryptAlphabet.getD (b % 16 * 4 + c / 64 % 4) 0 :: bcryptAlphabet.getD (c % 64) 0 ::
      base64Encode rest

/-- The string made of ASCII bytes, `string(bytes)`. -/
def bytesToString (bytes : List Nat) : String := String.mk (bytes.map Char.ofNat)

/-- Sentinel `bcrypt.ErrMismatchedHashAndPassword`. -/
def ErrMismatchedHashAndPassword : Err :=
  .new "crypto/bcrypt: hashedPassword is not the hash of the given password"

/-- Sentinel `bcrypt.ErrHashTooShort`. -/
def ErrHashTooShort : Err :=
  .new "crypto/bcrypt: hashedSecret too short to be a bcrypted password"

/-- Sentinel `bcrypt.ErrPasswordTooLong`. -/
def ErrPasswordTooLong : Err := .new "bcrypt: password length exceeds 72 bytes"

/-- Error `bcrypt.InvalidCostError`. -/
def InvalidCostError (cost : Int) : Err :=
  .new ("crypto/bcrypt: cost " ++ toString cost ++ " is outside allowed inclusive range 4..31")

/-- Error `bcrypt.InvalidHashPrefixError`. -/
def InvalidHashPrefixError (c : Nat) : Err :=
  .new ("crypto/bcrypt: bcrypt hashes must start with '$', but hashedSecret started with '" ++
    String.singleton (Char.ofNat c) ++ "'")

/-- Error `bcrypt.HashVersionTooNewError`. -/
def HashVersionTooNewError (c : Nat) : Err :=
  .new ("crypto/bcrypt: bcrypt algorithm version '" ++ String.singleton (Char.ofNat c) ++
    "' requested is newer than current version '2'")

/-- Function `checkCost`. -/
def checkCost (cost : Int) : Except Err Unit :=
  if cost < 4 ∨ 31 < cost then .error (InvalidCostError cost) else .ok ()

/-- Struct `hashed`. -/
structure hashed where
  hash : List Nat
  salt : List Nat
  cost : Int
  major : Nat
  minor : Nat
deriving DecidableEq, Repr

/-- The two characters `fmt.Sprintf("%02d", cost)` gives for a cost from 0 to 99. -/
def sprintf02d (cost : Int) : List Nat := [48 + (cost / 10 % 10).toNat, 48 + (cost % 10).toNat]

/-- Method `Hash`: the 60 byte buffer filled with the version, the cost, the
salt and the first 31 bytes of the hash, cut after them.  Both constructors of
`hashed` give a salt of 22 bytes. -/
def hashed.Hash (p : hashed) : List Nat :=
  let head : List Nat :=
    [36, p.major] ++ (if p.minor ≠ 0 then [p.minor] else []) ++ [36] ++ sprintf02d p.cost ++ [36]
  let copied : List Nat := p.hash.take 31
  head ++ p.salt ++ copied ++ List.replicate (31 - copied.length) 0

/-- Function `strconv.Atoi` on the two bytes of the cost field: two digits, or
a sign and one digit.  The text of the syntax error writes the two bytes as
they are. -/
def atoi2 (c0 c1 : Nat) : Except Err Int :=
  let isDigit : Nat → Bool := fun c => decide (48 ≤ c ∧ c ≤ 57)
  let syntaxErr : Err :=
    .new ("strconv.Atoi: parsing \"" ++ String.mk [Char.ofNat c0, Char.ofNat c1] ++
      "\": invalid syntax")
  if c0 = 43 then (if isDigit c1 then .ok (c1 - 48 : Nat) else .error syntaxErr)
  else if c0 = 45 then (if isDigit c1 then .ok (-((c1 - 48 : Nat) : Int)) else .error syntaxErr)
  else if isDigit c0 && isDigit c1 then .ok (((c0 - 48) * 10 + (c1 - 48) : Nat) : Int)
  else .error syntaxErr

/-- Function `newFromHash` with `decodeVersion` and `decodeCost`. -/
def newFromHash (hashedSecret : List Nat) : Except Err hashed :=
  if hashedSecret.length < 59 then .error ErrHashTooShort
  else if hashedSecret.getD 0 0 ≠ 36 then .error (InvalidHashPrefixError (hashedSecret.getD 0 0))
  else if 50 < hashedSecret.getD 1 0 then
    .error (HashVersionTooNewError (hashedSecret.getD 1 0))
  else
    let major := hashedSecret.getD 1 0
    let minor := if hashedSecret.getD 2 0 ≠ 36 then hashedSecret.getD 2 0 else 0
    let n := if hashedSecret.getD 2 0 ≠ 36 then 4 else 3
    let rest := hashedSecret.drop n
    match atoi2 (rest.getD 0 0) (rest.getD 1 0) with
    | .error err => .error err
    | .ok cost =>
      match checkCost cost with
      | .error err => .error err
      | .ok _ =>
        let rest1 := rest.drop 3
        .ok { hash := rest1.drop 22, salt := rest1.take 22, cost := cost, major := major,
              minor := minor }

/-- Function `bcrypt`: the encoded hash of a password under a cost and an
encoded salt. -/
def bcryptHash (prim : BcryptPrimitives) (password : List Nat) (cost : Int) (salt : List Nat) :
    Except Err (List Nat) :=
  match prim.blowfish password cost salt with
  | .error err => .error err
  | .ok cipherData => .ok (base64Encode (cipherData.val.take 23))

/-- Function `newFromPassword`. -/
def newFromPassword (prim : BcryptPrimitives) (rand : Nat) (password : List Nat) (cost : Int) :
    Except Err hashed :=
  let cost1 : Int := if cost < 4 then 10 else cost
  match checkCost cost1 with
  | .error err => .error err
  | .ok _ =>
    match prim.readSalt rand with
    | .error err => .error err
    | .ok unencodedSalt =>
      let salt := base64Encode unencodedSalt.val
      match bcryptHash prim password cost1 salt with
      | .error err => .error err
      | .ok hash => .ok { hash := hash, salt := salt, cost := cost1, major := 50, minor := 97 }

/-- Function `bcrypt.GenerateFromPassword`. -/
def GenerateFromPassword (prim : BcryptPrimitives) (password : String) (cost : Int)
    (rand : Nat) : Except Err String :=
  if 72 < (stringBytes password).length then .error ErrPasswordTooLong
  else
    match newFromPassword prim rand (stringBytes password) cost with
    | .error err => .error err
    | .ok p => .ok (bytesToString p.Hash)

/-- Function `bcrypt.CompareHashAndPassword`. -/
def CompareHashAndPassword (prim : BcryptPrimitives) (hashedPassword password : String) :
    Except Err Unit :=
  match newFromHash (stringBytes hashedPassword) with
  | .error err => .error err
  | .ok p =>
    match bcryptHash prim (stringBytes password) p.cost p.salt with
    | .error err => .error err
    | .ok otherHash =>
      let otherP : hashed :=
        { hash := otherHash, salt := p.salt, cost := p.cost, major := p.major, minor := p.minor }
      if p.Hash = otherP.Hash then .ok () else .error ErrMismatchedHashAndPassword

/-- The library over given primitives. -/
def goBcrypt (prim : BcryptPrimitives) : BcryptLib :=
  { GenerateFromPassword := GenerateFromPassword prim
    CompareHashAndPassword := CompareHashAndPassword prim }

/-- Stand-in primitives: the salt bytes count up from `rand`, and the cipher
bytes are the first 24 bytes of the password, the cost and the salt. -/
def examplePrimitives : BcryptPrimitives :=
  { readSalt := fun rand =>
      .ok ⟨(List.range 16).map fun i => (rand + i) % 256, by
        refine ⟨by simp, fun b hb => ?_⟩
        obtain ⟨i, _, rfl⟩ := List.mem_map.mp hb
        exact Nat.mod_lt _ (by decide)⟩
    blowfish := fun password cost salt =>
      .ok ⟨((password ++ cost.toNat :: salt ++ List.replicate 24 0).take 24).map (· % 256), by
        refine ⟨by simp; omega, fun b hb => ?_⟩
        obtain ⟨i, _, rfl⟩ := List.mem_map.mp hb
        exact Nat.mod_lt _ (by decide)⟩ }

/-- The digest `GenerateFromPassword` returns under a cost for the salt bytes
read and the cipher bytes computed. -/
def generatedDigest (cost : Int) (salt cipherData : List Nat) : String :=
  bytesToString
    (hashed.Hash
      { hash := base64Encode (cipherData.take 23), salt := base64Encode salt,
        cost := if cost < 4 then 10 else cost, major := 50, minor := 97 })

/-- A plaintext of 73 bytes. -/
def longPlaintext : String := String.mk (List.replicate 73 'a')

/-! ## Tables: auxiliary facts -/

theorem lt_nextID (ids : List Nat) : ∀ i ∈ ids, i < nextID ids := by
  induction ids with
  | nil => intro i hi; cases hi
  | cons a rest ih =>
    intro i hi
    have hstep : nextID (a :: rest) = max a (rest.foldr max 0) + 1 := rfl
    rw [hstep]
    rcases List.mem_cons.mp hi with h | h
    · subst h; omega
    · have := ih i h
      unfold nextID at this
      omega

theorem key_lt_nextID {α : Type} (key : α → Nat) (rows : List α) :
    ∀ r ∈ rows, key r < nextID (rows.map key) := fun r hr =>
  lt_nextID (rows.map key) (key r) (List.mem_map_of_mem key hr)

theorem mem_insertByID {α : Type} (key : α → Nat) (row : α) (rows : List α) (x : α) :
    x ∈ insertByID key row rows ↔ x = row ∨ x ∈ rows := by
  unfold insertByID
  constructor
  · intro h
    rcases List.mem_append.mp h with h | h
    · exact Or.inr ((List.takeWhile_sublist _).subset h)
    · rcases List.mem_cons.mp h with h | h
      · exact Or.inl h
      · exact Or.inr ((List.dropWhile_sublist _).subset h)
  · intro h
    rcases h with h | h
    · subst h
      exact List.mem_append.mpr (Or.inr (List.mem_cons_self _ _))
    · have hsplit := List.takeWhile_append_dropWhile (fun r => decide (key r < key row)) rows
      rw [← hsplit] at h
      rcases List.mem_append.mp h with h | h
      · exact List.mem_append.mpr (Or.inl h)
      · exact List.mem_append.mpr (Or.inr (List.mem_cons_of_mem _ h))

theorem insertByID_of_lt {α : Type} (key : α → Nat) (row : α) (rows : List α)
    (h : ∀ r ∈ rows, key r < key row) : insertByID key row rows = rows ++ [row] := by
  unfold insertByID
  have htake : rows.takeWhile (fun r => decide (key r < key row)) = rows := by
    apply List.takeWhile_eq_self_iff.mpr
    intro r hr
    simpa using h r hr
  have hdrop : rows.dropWhile (fun r => decide (key r < key row)) = [] := by
    apply List.dropWhile_eq_nil_iff.mpr
    intro r hr
    simpa using h r hr
  rw [htake, hdrop]

/-! ## Repositories: lookups -/

theorem GetByEmail_absent (db : DB) (email : String)
    (h : ∀ r ∈ db.users, r.Email ≠ email) :
    userRepository.GetByEmail none db email = .ok none := by
  have hfind : db.users.find? (fun r => decide (r.Email = email)) = none := by
    apply List.find?_eq_none.mpr
    intro r hr
    simpa using h r hr
  simp [userRepository.GetByEmail, gormFirst, hfind, errorsIs, ErrRecordNotFound]

theorem GetByEmail_found (db : DB) (email : String) (user : User)
    (h : db.users.find? (fun r => decide (r.Email = email)) = some user) :
    userRepository.GetByEmail none db email = .ok (some user) := by
  simp [userRepository.GetByEmail, gormFirst, h]

theorem findEmail_cases (db : DB) (email : String) :
    (∀ r ∈ db.users, r.Email ≠ email) ∨
      ∃ user, db.users.find? (fun r => decide (r.Email = email)) = some user := by
  cases hfind : db.users.find? (fun r => decide (r.Email = email)) with
  | none =>
    left
    intro r hr
    simpa using List.find?_eq_none.mp hfind r hr
  | some user => exact Or.inr ⟨user, rfl⟩

/-! ## The example databases are reached from the empty one -/

/-- The databases used in the examples are the ones the engine produces, step
by step, from the empty database. -/
theorem example_states_reached :
    exampleUsecase.Register (quietEnv (5 * Second)) emptyDB
        { Email := "a@x.com", Password := "secret1", FullName := "A" } =
        (.ok aliceResponse, aliceDB) ∧
      exampleUsecase.Login (quietEnv (6 * Second)) aliceDB
        { Email := "a@x.com", Password := "secret1" } =
        (.ok (aliceAccess, aliceRefresh, aliceResponse), sessionDB) ∧
      exampleUsecase.RefreshToken (quietEnv (7 * Second)) sessionDB aliceRefresh =
        (.ok rotatedPair, rotatedDB) ∧
      exampleUsecase.ForgotPassword (quietEnv (9 * Second)) sessionDB "a@x.com" =
        (.ok (), resetPendingDB) ∧
      exampleUsecase.ResetPassword (quietEnv (10 * Second)) resetPendingDB "3f2c9a1e-reset"
        "newpass" = (.ok (), afterResetDB) :=
  ⟨rfl, rfl, rfl, rfl, rfl⟩

/-! ## Login -/

/-- C2: Login with an email that matches no identity and Login with an
existing email whose password does not verify against the stored hash return
the same error value, `invalid credentials`, carry no token and leave the
database as it was. -/
theorem C2_login_same_error (u : authUsecase) (env1 env2 : Env) (db : DB)
    (req1 req2 : LoginRequest) (user : User)
    (hq1 : env1.dbErr 0 = none) (hq2 : env2.dbErr 0 = none)
    (habsent : ∀ r ∈ db.users, r.Email ≠ req1.Email)
    (hfound : db.users.find? (fun r => decide (r.Email = req2.Email)) = some user)
    (hbad : u.passwordService.CheckPassword req2.Password user.PasswordHash = false) :
    u.Login env1 db req1 = (.error (.new "invalid credentials"), db) ∧
      u.Login env2 db req2 = (.error (.new "invalid credentials"), db) := by
  constructor
  · simp [authUsecase.Login, hq1, GetByEmail_absent db req1.Email habsent]
  · simp [authUsecase.Login, hq2, GetByEmail_found db req2.Email user hfound, hbad]

theorem C2_login_same_error_witness :
    exampleUsecase.Login (quietEnv (6 * Second)) aliceDB
        { Email := "nobody@x.com", Password := "secret1" } =
        (.error (.new "invalid credentials"), aliceDB) ∧
      exampleUsecase.Login (quietEnv (6 * Second)) aliceDB
        { Email := "a@x.com", Password := "secret2" } =
        (.error (.new "invalid credentials"), aliceDB) :=
  C2_login_same_error exampleUsecase (quietEnv (6 * Second)) (quietEnv (6 * Second)) aliceDB
    { Email := "nobody@x.com", Password := "secret1" }
    { Email := "a@x.com", Password := "secret2" }
    { ID := 1, Email := "a@x.com", PasswordHash := "$2a$secret1", FullName := "A",
      Role := "user", Status := "active", EmailVerifiedAt := none,
      CreatedAt := 5 * Second, UpdatedAt := 5 * Second }
    rfl rfl (by decide) (by decide) (by decide)

/-! ## ForgotPassword -/

/-- C6: For an email that matches no identity, ForgotPassword returns success
and has no side effect: the database it leaves (identities, sessions, reset
records) is the one it was given, so no Reset Token Record is created. -/
theorem C6_forgot_unknown_email_no_effect (u : authUsecase) (env : Env) (db : DB)
    (email : String) (hq : env.dbErr 0 = none)
    (habsent : ∀ r ∈ db.users, r.Email ≠ email) :
    u.ForgotPassword env db email = (.ok (), db) := by
  simp [authUsecase.ForgotPassword, hq, GetByEmail_absent db email habsent]

theorem C6_forgot_unknown_email_no_effect_witness :
    exampleUsecase.ForgotPassword (quietEnv (9 * Second)) aliceDB "unknown@x.com" =
      (.ok (), aliceDB) :=
  C6_forgot_unknown_email_no_effect exampleUsecase (quietEnv (9 * Second)) aliceDB
    "unknown@x.com" rfl (by decide)

/-! ## Register -/

/-- C9: When the email of a registration request matches an existing
identity, Register fails with `user with this email already exists` and
leaves the database as it was: no identity is created or modified and no hash
of the password is stored.  The outcome is the same for every hasher, random
input and password. -/
theorem C9_register_existing_email (u : authUsecase) (env : Env) (db : DB)
    (req : RegisterRequest) (user : User) (hq : env.dbErr 0 = none)
    (hmem : user ∈ db.users) (hemail : user.Email = req.Email) :
    u.Register env db req = (.error (.new "user with this email already exists"), db) := by
  rcases findEmail_cases db req.Email with habsent | ⟨found, hfound⟩
  · exact absurd hemail (habsent user hmem)
  · simp [authUsecase.Register, hq, GetByEmail_found db req.Email found hfound]

theorem C9_register_existing_email_witness :
    exampleUsecase.Register (quietEnv (6 * Second)) aliceDB
        { Email := "a@x.com", Password := "another", FullName := "A2" } =
      (.error (.new "user with this email already exists"), aliceDB) :=
  C9_register_existing_email exampleUsecase (quietEnv (6 * Second)) aliceDB
    { Email := "a@x.com", Password := "another", FullName := "A2" }
    { ID := 1, Email := "a@x.com", PasswordHash := "$2a$secret1", FullName := "A",
      Role := "user", Status := "active", EmailVerifiedAt := none,
      CreatedAt := 5 * Second, UpdatedAt := 5 * Second }
    rfl (by decide) rfl

/-! ## Repositories: inserts -/

theorem createUser_fresh (now : Time) (db : DB) (user : User) (hid : user.ID = 0)
    (hemail : ∀ r ∈ db.users, r.Email ≠ user.Email) :
    userRepository.Create none now db user =
      .ok ({ user with
              ID := nextID (db.users.map User.ID)
              CreatedAt := if user.CreatedAt.IsZero then now else user.CreatedAt
              UpdatedAt := if user.UpdatedAt.IsZero then now else user.UpdatedAt },
           { db with users := db.users ++
              [{ user with
                  ID := nextID (db.users.map User.ID)
                  CreatedAt := if user.CreatedAt.IsZero then now else user.CreatedAt
                  UpdatedAt := if user.UpdatedAt.IsZero then now else user.UpdatedAt }] }) := by
  have hany : ∀ r ∈ db.users,
      ¬ (r.ID = nextID (db.users.map User.ID) ∨ r.Email = user.Email) := by
    intro r hr hor
    rcases hor with h | h
    · have := key_lt_nextID User.ID db.users r hr
      omega
    · exact hemail r hr h
  have hins : insertByID User.ID
      { user with
        ID := nextID (db.users.map User.ID)
        CreatedAt := if user.CreatedAt.IsZero then now else user.CreatedAt
        UpdatedAt := if user.UpdatedAt.IsZero then now else user.UpdatedAt } db.users =
      db.users ++
        [{ user with
            ID := nextID (db.users.map User.ID)
            CreatedAt := if user.CreatedAt.IsZero then now else user.CreatedAt
            UpdatedAt := if user.UpdatedAt.IsZero then now else user.UpdatedAt }] :=
    insertByID_of_lt User.ID _ db.users (key_lt_nextID User.ID db.users)
  simp only [userRepository.Create, gormCreateUser, hid, if_true]
  rw [if_neg (by simpa using hany), hins]

theorem createRefreshToken_fresh (now : Time) (db : DB) (token : RefreshToken)
    (hid : token.ID = 0) (htoken : ∀ r ∈ db.tokens, r.Token ≠ token.Token) :
    tokenRepository.CreateRefreshToken none now db token =
      .ok ({ token with
              ID := nextID (db.tokens.map RefreshToken.ID)
              CreatedAt := if token.CreatedAt.IsZero then now else token.CreatedAt },
           { db with tokens := db.tokens ++
              [{ token with
                  ID := nextID (db.tokens.map RefreshToken.ID)
                  CreatedAt := if token.CreatedAt.IsZero then now else token.CreatedAt }] }) := by
  have hany : ∀ r ∈ db.tokens,
      ¬ (r.ID = nextID (db.tokens.map RefreshToken.ID) ∨ r.Token = token.Token) := by
    intro r hr hor
    rcases hor with h | h
    · have := key_lt_nextID RefreshToken.ID db.tokens r hr
      omega
    · exact htoken r hr h
  have hins : insertByID RefreshToken.ID
      { token with
        ID := nextID (db.tokens.map RefreshToken.ID)
        CreatedAt := if token.CreatedAt.IsZero then now else token.CreatedAt } db.tokens =
      db.tokens ++
        [{ token with
            ID := nextID (db.tokens.map RefreshToken.ID)
            CreatedAt := if token.CreatedAt.IsZero then now else token.CreatedAt }] :=
    insertByID_of_lt RefreshToken.ID _ db.tokens (key_lt_nextID RefreshToken.ID db.tokens)
  simp only [tokenRepository.CreateRefreshToken, gormCreateRefreshToken, hid, if_true]
  rw [if_neg (by simpa using hany), hins]

theorem createPasswordReset_fresh (now : Time) (db : DB) (reset : PasswordReset)
    (hid : reset.ID = 0) (htoken : ∀ r ∈ db.resets, r.Token ≠ reset.Token) :
    passwordResetRepository.Create none now db reset =
      .ok ({ reset with
              ID := nextID (db.resets.map PasswordReset.ID)
              CreatedAt := if reset.CreatedAt.IsZero then now else reset.CreatedAt },
           { db with resets := db.resets ++
              [{ reset with
                  ID := nextID (db.resets.map PasswordReset.ID)
                  CreatedAt := if reset.CreatedAt.IsZero then now else reset.CreatedAt }] }) := by
  have hany : ∀ r ∈ db.resets,
      ¬ (r.ID = nextID (db.resets.map PasswordReset.ID) ∨ r.Token = reset.Token) := by
    intro r hr hor
    rcases hor with h | h
    · have := key_lt_nextID PasswordReset.ID db.resets r hr
      omega
    · exact htoken r hr h
  have hins : insertByID PasswordReset.ID
      { reset with
        ID := nextID (db.resets.map PasswordReset.ID)
        CreatedAt := if reset.CreatedAt.IsZero then now else reset.CreatedAt } db.resets =
      db.resets ++
        [{ reset with
            ID := nextID (db.resets.map PasswordReset.ID)
            CreatedAt := if reset.CreatedAt.IsZero then now else reset.CreatedAt }] :=
    insertByID_of_lt PasswordReset.ID _ db.resets (key_lt_nextID PasswordReset.ID db.resets)
  simp only [passwordResetRepository.Create, gormCreatePasswordReset, hid, if_true]
  rw [if_neg (by simpa using hany), hins]

theorem isZero_zeroTime : Time.IsZero zeroTime = true := by
  simp [Time.IsZero]

/-! ## ForgotPassword and Register: the success paths -/

/-- C8: For an email that matches an existing identity, with both statements
working and a reset-token string not yet in the Reset Store, ForgotPassword
returns success and appends exactly one Reset Token Record, with the requested
email, `used = false` and `expires_at = now + 1 hour`; identities and sessions
are unchanged. -/
theorem C8_forgot_known_email_creates_record (u : authUsecase) (env : Env) (db : DB)
    (email : String) (user : User) (hq0 : env.dbErr 0 = none) (hq1 : env.dbErr 1 = none)
    (hmem : user ∈ db.users) (hemail : user.Email = email)
    (hfresh : ∀ r ∈ db.resets, r.Token ≠ env.uuid) :
    u.ForgotPassword env db email =
      (.ok (),
       { users := db.users
         tokens := db.tokens
         resets := db.resets ++
           [{ ID := nextID (db.resets.map PasswordReset.ID)
              Email := email
              Token := env.uuid
              ExpiresAt := env.now 0 + 1 * Hour
              Used := false
              CreatedAt := env.now 1 }] }) := by
  rcases findEmail_cases db email with habsent | ⟨found, hfound⟩
  · exact absurd hemail (habsent user hmem)
  · simp only [authUsecase.ForgotPassword, hq0, hq1, GetByEmail_found db email found hfound]
    rw [createPasswordReset_fresh (env.now 1) db _ rfl hfresh]
    simp [isZero_zeroTime, Time.Add]

theorem C8_forgot_known_email_creates_record_witness :
    exampleUsecase.ForgotPassword (quietEnv (9 * Second)) aliceDB "a@x.com" =
      (.ok (),
       { users := aliceDB.users
         tokens := aliceDB.tokens
         resets := aliceDB.resets ++
           [{ ID := nextID (aliceDB.resets.map PasswordReset.ID)
              Email := "a@x.com"
              Token := (quietEnv (9 * Second)).uuid
              ExpiresAt := (quietEnv (9 * Second)).now 0 + 1 * Hour
              Used := false
              CreatedAt := (quietEnv (9 * Second)).now 1 }] }) :=
  C8_forgot_known_email_creates_record exampleUsecase (quietEnv (9 * Second)) aliceDB "a@x.com"
    { ID := 1, Email := "a@x.com", PasswordHash := "$2a$secret1", FullName := "A",
      Role := "user", Status := "active", EmailVerifiedAt := none,
      CreatedAt := 5 * Second, UpdatedAt := 5 * Second }
    rfl rfl (by decide) rfl (by decide)

/-- C7 (as amended): ForgotPassword returns success, for registered and
unregistered emails alike, whenever the statements it issues do not fail and
the generated reset-token string is not already in the Reset Store.  When the
identity lookup fails (with an error other than record-not-found) it returns
that error wrapped as `failed to get user`; when the insert of the reset record
fails, by a driver error or on the unique token column, it returns that error
wrapped as `failed to create password reset`; in each failure the database is
left as it was.  A lookup that reports record-not-found is the unregistered
case. -/
theorem C7_forgot_success_when_store_works (u : authUsecase) (env : Env) (db : DB)
    (email : String) :
    (env.dbErr 0 = none → env.dbErr 1 = none → (∀ r ∈ db.resets, r.Token ≠ env.uuid) →
        (u.ForgotPassword env db email).1 = .ok ()) ∧
      (∀ err, env.dbErr 0 = some err → errorsIs err ErrRecordNotFound = false →
        u.ForgotPassword env db email =
          (.error (.wrap "failed to get user" (.wrap "failed to get user by email" err)), db)) ∧
      (∀ err, env.dbErr 0 = some err → errorsIs err ErrRecordNotFound = true →
        u.ForgotPassword env db email = (.ok (), db)) ∧
      (∀ user err, env.dbErr 0 = none →
        db.users.find? (fun r => decide (r.Email = email)) = some user →
        env.dbErr 1 = some err →
        u.ForgotPassword env db email =
          (.error (.wrap "failed to create password reset"
            (.wrap "failed to create password reset" err)), db)) ∧
      ∀ user, env.dbErr 0 = none →
        db.users.find? (fun r => decide (r.Email = email)) = some user →
        env.dbErr 1 = none → (∃ r ∈ db.resets, r.Token = env.uuid) →
        u.ForgotPassword env db email =
          (.error (.wrap "failed to create password reset"
            (.wrap "failed to create password reset" ErrDuplicateEntry)), db) := by
  refine ⟨?_, ?_, ?_, ?_, ?_⟩
  · intro hq0 hq1 hfresh
    rcases findEmail_cases db email with habsent | ⟨user, hfound⟩
    · simp [authUsecase.ForgotPassword, hq0, GetByEmail_absent db email habsent]
    · simp only [authUsecase.ForgotPassword, hq0, hq1, GetByEmail_found db email user hfound]
      rw [createPasswordReset_fresh (env.now 1) db _ rfl hfresh]
  · intro err hq0 hnot
    simp [authUsecase.ForgotPassword, userRepository.GetByEmail, gormFirst, hq0, hnot]
  · intro err hq0 his
    simp [authUsecase.ForgotPassword, userRepository.GetByEmail, gormFirst, hq0, his]
  · intro user err hq0 hfound hq1
    simp [authUsecase.ForgotPassword, hq0, hq1, GetByEmail_found db email user hfound,
      passwordResetRepository.Create, gormCreatePasswordReset]
  · intro user hq0 hfound hq1 hdup
    obtain ⟨r, hr, ht⟩ := hdup
    have hany : (db.resets.any fun x =>
        decide (x.ID = nextID (db.resets.map PasswordReset.ID)) ||
          decide (x.Token = env.uuid)) = true := by
      apply List.any_eq_true.mpr
      exact ⟨r, hr, by simp [ht]⟩
    simp only [authUsecase.ForgotPassword, hq0, hq1, GetByEmail_found db email user hfound,
      passwordResetRepository.Create, gormCreatePasswordReset, if_true]
    rw [if_pos hany]

theorem C7_forgot_success_when_store_works_witness :
    (exampleUsecase.ForgotPassword (quietEnv (9 * Second)) aliceDB "a@x.com").1 = .ok () ∧
      exampleUsecase.ForgotPassword (downEnv (9 * Second)) sessionDB "a@x.com" =
        (.error (.wrap "failed to get user"
          (.wrap "failed to get user by email" (.new "driver: bad connection"))), sessionDB) ∧
      exampleUsecase.ForgotPassword (faultAt 1 (9 * Second)) aliceDB "a@x.com" =
        (.error (.wrap "failed to create password reset"
          (.wrap "failed to create password reset" (.new "driver: bad connection"))),
         aliceDB) ∧
      exampleUsecase.ForgotPassword (quietEnv (12 * Second)) resetPendingDB "a@x.com" =
        (.error (.wrap "failed to create password reset"
          (.wrap "failed to create password reset" ErrDuplicateEntry)), resetPendingDB) :=
  ⟨(C7_forgot_success_when_store_works exampleUsecase (quietEnv (9 * Second)) aliceDB
      "a@x.com").1 rfl rfl (by decide),
   (C7_forgot_success_when_store_works exampleUsecase (downEnv (9 * Second)) sessionDB
      "a@x.com").2.1 (.new "driver: bad connection") rfl (by decide),
   (C7_forgot_success_when_store_works exampleUsecase (faultAt 1 (9 * Second)) aliceDB
      "a@x.com").2.2.2.1 aliceUser (.new "driver: bad connection") rfl (by decide) rfl,
   (C7_forgot_success_when_store_works exampleUsecase (quietEnv (12 * Second)) resetPendingDB
      "a@x.com").2.2.2.2 aliceUser rfl (by decide) rfl
      ⟨{ ID := 1, Email := "a@x.com", Token := "3f2c9a1e-reset", ExpiresAt := 3609 * Second,
         Used := false, CreatedAt := 9 * Second }, by decide, rfl⟩⟩

/-- C7 fails as stated: with the identity lookup failing, ForgotPassword
returns the wrapped persistence error instead of success. -/
theorem C7_forgot_propagates_store_error :
    exampleUsecase.ForgotPassword (downEnv (9 * Second)) aliceDB "a@x.com" =
      (.error (.wrap "failed to get user"
        (.wrap "failed to get user by email" (.new "driver: bad connection"))), aliceDB) := by
  rfl

/-- Register on a fresh email with working statements and hasher. -/
theorem Register_success (u : authUsecase) (env : Env) (db : DB)
    (req : RegisterRequest) (h : String) (hq0 : env.dbErr 0 = none) (hq1 : env.dbErr 1 = none)
    (habsent : ∀ r ∈ db.users, r.Email ≠ req.Email)
    (hhash : u.passwordService.HashPassword env.rand req.Password = .ok h) :
    u.Register env db req =
      (.ok { ID := nextID (db.users.map User.ID)
             Email := req.Email
             FullName := req.FullName
             Role := "user"
             Status := "active"
             EmailVerifiedAt := none
             CreatedAt := env.now 0 },
       { users := db.users ++
           [{ ID := nextID (db.users.map User.ID)
              Email := req.Email
              PasswordHash := h
              FullName := req.FullName
              Role := "user"
              Status := "active"
              EmailVerifiedAt := none
              CreatedAt := env.now 0
              UpdatedAt := env.now 0 }]
         tokens := db.tokens
         resets := db.resets }) := by
  simp only [authUsecase.Register, hq0, hq1, GetByEmail_absent db req.Email habsent, hhash]
  rw [createUser_fresh (env.now 0) db _ rfl habsent]
  simp [isZero_zeroTime, User.ToResponse]

/-- C10: For a request whose email is not yet registered, with working
statements and a hasher that returns digest `h` for the request password,
Register appends exactly one identity (request email and name, role `user`,
status `active`, `password_hash = h`), changes nothing else, and returns the
sanitized view of that identity. -/
theorem C10_register_creates_identity (u : authUsecase) (env : Env) (db : DB)
    (req : RegisterRequest) (h : String) (hq0 : env.dbErr 0 = none) (hq1 : env.dbErr 1 = none)
    (habsent : ∀ r ∈ db.users, r.Email ≠ req.Email)
    (hhash : u.passwordService.HashPassword env.rand req.Password = .ok h) :
    u.Register env db req =
      (.ok { ID := nextID (db.users.map User.ID)
             Email := req.Email
             FullName := req.FullName
             Role := "user"
             Status := "active"
             EmailVerifiedAt := none
             CreatedAt := env.now 0 },
       { users := db.users ++
           [{ ID := nextID (db.users.map User.ID)
              Email := req.Email
              PasswordHash := h
              FullName := req.FullName
              Role := "user"
              Status := "active"
              EmailVerifiedAt := none
              CreatedAt := env.now 0
              UpdatedAt := env.now 0 }]
         tokens := db.tokens
         resets := db.resets }) :=
  Register_success u env db req h hq0 hq1 habsent hhash

theorem C10_register_creates_identity_witness :
    exampleUsecase.Register (quietEnv (5 * Second)) emptyDB
        { Email := "a@x.com", Password := "secret1", FullName := "A" } =
      (.ok { ID := nextID (emptyDB.users.map User.ID)
             Email := "a@x.com"
             FullName := "A"
             Role := "user"
             Status := "active"
             EmailVerifiedAt := none
             CreatedAt := (quietEnv (5 * Second)).now 0 },
       { users := emptyDB.users ++
           [{ ID := nextID (emptyDB.users.map User.ID)
              Email := "a@x.com"
              PasswordHash := "$2a$secret1"
              FullName := "A"
              Role := "user"
              Status := "active"
              EmailVerifiedAt := none
              CreatedAt := (quietEnv (5 * Second)).now 0
              UpdatedAt := (quietEnv (5 * Second)).now 0 }]
         tokens := emptyDB.tokens
         resets := emptyDB.resets }) :=
  C10_register_creates_identity exampleUsecase (quietEnv (5 * Second)) emptyDB
    { Email := "a@x.com", Password := "secret1", FullName := "A" } "$2a$secret1"
    rfl rfl (by decide) rfl

/-! ## ResetPassword: rejected tokens -/

theorem GetByToken_found (db : DB) (token : String) (reset : PasswordReset)
    (h : db.resets.find? (fun r => decide (r.Token = token)) = some reset) :
    passwordResetRepository.GetByToken none db token = .ok (some reset) := by
  simp [passwordResetRepository.GetByToken, gormFirst, h]

/-- C5 (as amended): For the Reset Token Record found by token string,
ResetPassword fails with `reset token is expired` when `expires_at` has
passed (whatever the used flag), and with `reset token is already used` when
the record is used and `expires_at` has not passed; in both cases the
database, and so every password hash, is unchanged. -/
theorem C5_reset_rejects_expired_then_used (u : authUsecase) (env : Env) (db : DB)
    (token newPassword : String) (reset : PasswordReset) (hq : env.dbErr 0 = none)
    (hfound : db.resets.find? (fun r => decide (r.Token = token)) = some reset) :
    (reset.ExpiresAt < env.now 0 →
        u.ResetPassword env db token newPassword =
          (.error (.new "reset token is expired"), db)) ∧
      (¬ reset.ExpiresAt < env.now 0 → reset.Used = true →
        u.ResetPassword env db token newPassword =
          (.error (.new "reset token is already used"), db)) := by
  constructor
  · intro hexp
    simp [authUsecase.ResetPassword, hq, GetByToken_found db token reset hfound, Time.Before,
      hexp]
  · intro hexp hused
    simp [authUsecase.ResetPassword, hq, GetByToken_found db token reset hfound, Time.Before,
      hexp, hused]

theorem C5_reset_rejects_expired_then_used_witness :
    exampleUsecase.ResetPassword (quietEnv (2 * Hour)) afterResetDB "3f2c9a1e-reset" "other" =
        (.error (.new "reset token is expired"), afterResetDB) ∧
      exampleUsecase.ResetPassword (quietEnv (11 * Second)) afterResetDB "3f2c9a1e-reset"
          "other" =
        (.error (.new "reset token is already used"), afterResetDB) :=
  ⟨(C5_reset_rejects_expired_then_used exampleUsecase (quietEnv (2 * Hour)) afterResetDB
      "3f2c9a1e-reset" "other"
      { ID := 1, Email := "a@x.com", Token := "3f2c9a1e-reset", ExpiresAt := 3609 * Second,
        Used := true, CreatedAt := 9 * Second } rfl (by decide)).1 (by decide),
   (C5_reset_rejects_expired_then_used exampleUsecase (quietEnv (11 * Second)) afterResetDB
      "3f2c9a1e-reset" "other"
      { ID := 1, Email := "a@x.com", Token := "3f2c9a1e-reset", ExpiresAt := 3609 * Second,
        Used := true, CreatedAt := 9 * Second } rfl (by decide)).2 (by decide) rfl⟩

/-- C5 fails as stated: the reset record of `afterResetDB` was used by the
successful ResetPassword at 10 s and expired at 3609 s; presenting it again at
7200 s is rejected with `reset token is expired`, not with
`reset token is already used`. -/
theorem C5_used_expired_record_reports_expired :
    exampleUsecase.ResetPassword (quietEnv (10 * Second)) resetPendingDB "3f2c9a1e-reset"
        "newpass" = (.ok (), afterResetDB) ∧
      afterResetDB.resets.find? (fun r => decide (r.Token = "3f2c9a1e-reset")) =
        some { ID := 1, Email := "a@x.com", Token := "3f2c9a1e-reset",
               ExpiresAt := 3609 * Second, Used := true, CreatedAt := 9 * Second } ∧
      exampleUsecase.ResetPassword (quietEnv (2 * Hour)) afterResetDB "3f2c9a1e-reset"
          "other" =
        (.error (.new "reset token is expired"), afterResetDB) ∧
      (exampleUsecase.ResetPassword (quietEnv (2 * Hour)) afterResetDB "3f2c9a1e-reset"
          "other").1 ≠
        .error (.new "reset token is already used") := by
  refine ⟨rfl, by decide, rfl, ?_⟩
  intro h
  have h2 : (exampleUsecase.ResetPassword (quietEnv (2 * Hour)) afterResetDB "3f2c9a1e-reset"
      "other").1 = .error (.new "reset token is expired") := rfl
  rw [h2] at h
  exact absurd (Err.new.inj (Except.error.inj h)) (by decide)

/-! ## Session store: lookups, revocation, inserts -/

theorem GetRefreshToken_found (db : DB) (t : TokenString) (row : RefreshToken)
    (h : db.tokens.find? (fun r => decide (r.Token = t)) = some row) :
    tokenRepository.GetRefreshToken none db t = .ok (some row) := by
  simp [tokenRepository.GetRefreshToken, gormFirst, h]

theorem GetRefreshToken_some_inv (fault : Option Err) (db : DB) (t : TokenString)
    (row : RefreshToken) (h : tokenRepository.GetRefreshToken fault db t = .ok (some row)) :
    db.tokens.find? (fun r => decide (r.Token = t)) = some row := by
  unfold tokenRepository.GetRefreshToken gormFirst at h
  cases fault with
  | some err =>
    simp only at h
    split at h <;> simp at h
  | none =>
    cases hfind : db.tokens.find? (fun r => decide (r.Token = t)) with
    | none =>
      rw [hfind] at h
      simp only at h
      split at h <;> simp at h
    | some r =>
      rw [hfind] at h
      simp only [Except.ok.injEq, Option.some.injEq] at h
      rw [h]

theorem RevokeRefreshToken_inv (fault : Option Err) (db db1 : DB) (t : TokenString)
    (h : tokenRepository.RevokeRefreshToken fault db t = .ok db1) :
    db1 = { db with tokens := db.tokens.map fun r =>
              if decide (r.Token = t) then { r with Revoked := true } else r } := by
  unfold tokenRepository.RevokeRefreshToken gormUpdate at h
  cases fault with
  | some err => simp at h
  | none =>
    simp only [Except.ok.injEq] at h
    exact h.symm

theorem gormCreateRefreshToken_inv (fault : Option Err) (now : Time) (db db1 : DB)
    (token row : RefreshToken)
    (h : gormCreateRefreshToken fault now db token = .ok (row, db1)) :
    (∀ r ∈ db.tokens, r.Token ≠ token.Token) ∧ row.Token = token.Token ∧
      row.UserID = token.UserID ∧ row.Revoked = token.Revoked ∧
      row.ExpiresAt = token.ExpiresAt ∧
      db1 = { db with tokens := insertByID RefreshToken.ID row db.tokens } := by
  unfold gormCreateRefreshToken at h
  cases fault with
  | some err => simp at h
  | none =>
    simp only at h
    by_cases hany : (db.tokens.any fun r =>
        decide (r.ID = if token.ID = 0 then nextID (db.tokens.map RefreshToken.ID)
          else token.ID) || decide (r.Token = token.Token)) = true
    · rw [if_pos hany] at h
      simp at h
    · rw [if_neg hany] at h
      simp only [Except.ok.injEq, Prod.mk.injEq] at h
      obtain ⟨hrow, hdb⟩ := h
      subst hrow
      refine ⟨?_, rfl, rfl, rfl, rfl, hdb.symm⟩
      intro r hr heq
      apply hany
      apply List.any_eq_true.mpr
      exact ⟨r, hr, by simp [heq]⟩

theorem CreateRefreshToken_inv (fault : Option Err) (now : Time) (db db1 : DB)
    (token row : RefreshToken)
    (h : tokenRepository.CreateRefreshToken fault now db token = .ok (row, db1)) :
    (∀ r ∈ db.tokens, r.Token ≠ token.Token) ∧ row.Token = token.Token ∧
      row.UserID = token.UserID ∧ row.Revoked = token.Revoked ∧
      row.ExpiresAt = token.ExpiresAt ∧
      db1 = { db with tokens := insertByID RefreshToken.ID row db.tokens } := by
  unfold tokenRepository.CreateRefreshToken at h
  cases hg : gormCreateRefreshToken fault now db token with
  | error err => simp [hg] at h
  | ok res =>
    simp only [hg, Except.ok.injEq] at h
    subst h
    exact gormCreateRefreshToken_inv fault now db db1 token row hg

/-! ## RefreshToken: what a successful call did -/

/-- A successful RefreshToken passed every check of the method, revoked the
presented token and inserted the record of the new one. -/
theorem RefreshToken_ok_inv (u : authUsecase) (env : Env) (db db2 : DB) (t : TokenString)
    (res : TokenString × TokenString) (h : u.RefreshToken env db t = (.ok res, db2)) :
    ∃ claims tokenEntity user row,
      u.jwtService.ValidateRefreshToken (env.now 0) t = .ok claims ∧
      db.tokens.find? (fun r => decide (r.Token = t)) = some tokenEntity ∧
      tokenEntity.Revoked = false ∧
      ¬ tokenEntity.ExpiresAt < env.now 1 ∧
      userRepository.GetByID (env.dbErr 1) db claims.UserID = .ok (some user) ∧
      u.jwtService.GenerateAccessToken (env.now 2) user.ID user.Role = .ok res.1 ∧
      u.jwtService.GenerateRefreshToken (env.now 3) user.ID = .ok res.2 ∧
      tokenRepository.CreateRefreshToken (env.dbErr 3) (env.now 5)
          { db with tokens := db.tokens.map fun r =>
              if decide (r.Token = t) then { r with Revoked := true } else r }
          { ID := 0, UserID := user.ID, Token := res.2,
            ExpiresAt := (env.now 4).Add u.refreshTokenTTL, Revoked := false,
            CreatedAt := zeroTime } = .ok (row, db2) := by
  unfold authUsecase.RefreshToken at h
  cases hv : u.jwtService.ValidateRefreshToken (env.now 0) t with
  | error err => simp [hv] at h
  | ok claims =>
    simp only [hv] at h
    cases hg : tokenRepository.GetRefreshToken (env.dbErr 0) db t with
    | error err => simp [hg] at h
    | ok found =>
      cases found with
      | none => simp [hg] at h
      | some tokenEntity =>
        simp only [hg] at h
        by_cases hrev : tokenEntity.Revoked = true
        · simp [hrev] at h
        · by_cases hexp : tokenEntity.ExpiresAt < env.now 1
          · simp [hrev, Time.Before, hexp] at h
          · simp only [hrev, Time.Before, hexp, decide_False, Bool.false_eq_true,
              if_false] at h
            cases hu : userRepository.GetByID (env.dbErr 1) db claims.UserID with
            | error err => simp [hu] at h
            | ok ufound =>
              cases ufound with
              | none => simp [hu] at h
              | some user =>
                simp only [hu] at h
                cases hr : tokenRepository.RevokeRefreshToken (env.dbErr 2) db t with
                | error err => simp [hr] at h
                | ok db1 =>
                  simp only [hr] at h
                  have hdb1 := RevokeRefreshToken_inv (env.dbErr 2) db db1 t hr
                  cases ha : u.jwtService.GenerateAccessToken (env.now 2) user.ID user.Role with
                  | error err => simp [ha] at h
                  | ok newAccessToken =>
                    simp only [ha] at h
                    cases hn : u.jwtService.GenerateRefreshToken (env.now 3) user.ID with
                    | error err => simp [hn] at h
                    | ok newRefreshToken =>
                      simp only [hn] at h
                      cases hc : tokenRepository.CreateRefreshToken (env.dbErr 3) (env.now 5) db1
                          { ID := 0, UserID := user.ID, Token := newRefreshToken,
                            ExpiresAt := (env.now 4).Add u.refreshTokenTTL, Revoked := false,
                            CreatedAt := zeroTime } with
                      | error err => simp [hc] at h
                      | ok created =>
                        obtain ⟨row, dbc⟩ := created
                        simp only [hc, Prod.mk.injEq, Except.ok.injEq] at h
                        obtain ⟨hres, hdb⟩ := h
                        subst hres hdb hdb1
                        exact ⟨claims, tokenEntity, user, row, rfl,
                          GetRefreshToken_some_inv _ db t tokenEntity hg,
                          by simpa using hrev, hexp, hu, ha, hn, hc⟩

theorem find_all_revoked (rows : List RefreshToken) (t : TokenString)
    (hall : ∀ r ∈ rows, r.Token = t → r.Revoked = true)
    (hex : ∃ r ∈ rows, r.Token = t) :
    ∃ r, rows.find? (fun r => decide (r.Token = t)) = some r ∧ r.Revoked = true := by
  cases hfind : rows.find? (fun r => decide (r.Token = t)) with
  | none =>
    obtain ⟨r, hr, ht⟩ := hex
    have := List.find?_eq_none.mp hfind r hr
    simp [ht] at this
  | some r =>
    refine ⟨r, rfl, hall r (List.mem_of_find?_eq_some hfind) ?_⟩
    simpa using List.find?_some hfind

theorem RefreshToken_revoked_row (u : authUsecase) (env : Env) (db : DB) (t : TokenString)
    (claims : RefreshClaims) (r : RefreshToken)
    (hv : u.jwtService.ValidateRefreshToken (env.now 0) t = .ok claims)
    (hq : env.dbErr 0 = none)
    (hfind : db.tokens.find? (fun r => decide (r.Token = t)) = some r)
    (hrev : r.Revoked = true) :
    u.RefreshToken env db t = (.error (.new "refresh token is revoked"), db) := by
  simp [authUsecase.RefreshToken, hv, hq, GetRefreshToken_found db t r hfind, hrev]

theorem RefreshToken_fails_on_revoked_row (u : authUsecase) (env : Env) (db : DB)
    (t : TokenString) (r : RefreshToken)
    (hfind : db.tokens.find? (fun r => decide (r.Token = t)) = some r)
    (hrev : r.Revoked = true) :
    ∃ err, u.RefreshToken env db t = (.error err, db) := by
  unfold authUsecase.RefreshToken
  cases hv : u.jwtService.ValidateRefreshToken (env.now 0) t with
  | error err => exact ⟨_, rfl⟩
  | ok claims =>
    simp only
    cases hg : tokenRepository.GetRefreshToken (env.dbErr 0) db t with
    | error err => exact ⟨_, rfl⟩
    | ok found =>
      cases found with
      | none => exact ⟨_, rfl⟩
      | some tokenEntity =>
        have := GetRefreshToken_some_inv _ db t tokenEntity hg
        rw [hfind] at this
        cases this
        simp only [hrev, if_true]
        exact ⟨_, rfl⟩

/-! ## ResetPassword: what a successful call did -/

theorem GetByToken_some_inv (fault : Option Err) (db : DB) (token : String)
    (reset : PasswordReset)
    (h : passwordResetRepository.GetByToken fault db token = .ok (some reset)) :
    db.resets.find? (fun r => decide (r.Token = token)) = some reset := by
  unfold passwordResetRepository.GetByToken gormFirst at h
  cases fault with
  | some err =>
    simp only at h
    split at h <;> simp at h
  | none =>
    cases hfind : db.resets.find? (fun r => decide (r.Token = token)) with
    | none =>
      rw [hfind] at h
      simp only at h
      split at h <;> simp at h
    | some r =>
      rw [hfind] at h
      simp only [Except.ok.injEq, Option.some.injEq] at h
      rw [h]

theorem GetByEmail_some_inv (fault : Option Err) (db : DB) (email : String) (user : User)
    (h : userRepository.GetByEmail fault db email = .ok (some user)) :
    db.users.find? (fun r => decide (r.Email = email)) = some user := by
  unfold userRepository.GetByEmail gormFirst at h
  cases fault with
  | some err =>
    simp only at h
    split at h <;> simp at h
  | none =>
    cases hfind : db.users.find? (fun r => decide (r.Email = email)) with
    | none =>
      rw [hfind] at h
      simp only at h
      split at h <;> simp at h
    | some r =>
      rw [hfind] at h
      simp only [Except.ok.injEq, Option.some.injEq] at h
      rw [h]

theorem gormSaveUser_inv (fault : Option Err) (now : Time) (db db1 : DB) (user saved : User)
    (hex : ∃ r ∈ db.users, r.Email = user.Email ∧ r.ID = user.ID)
    (h : gormSaveUser fault now db user = .ok (saved, db1)) :
    user.ID ≠ 0 ∧ saved = { user with UpdatedAt := now } ∧
      db1 = { db with users := db.users.map fun r =>
                if r.ID = user.ID then { user with UpdatedAt := now } else r } := by
  obtain ⟨r0, hr0, hemail, hkey⟩ := hex
  unfold gormSaveUser at h
  by_cases hid : user.ID = 0
  · rw [if_pos hid] at h
    unfold gormCreateUser at h
    cases fault with
    | some err => simp at h
    | none =>
      simp only at h
      rw [if_pos] at h
      · simp at h
      · apply List.any_eq_true.mpr
        exact ⟨r0, hr0, by simp [hemail]⟩
  · rw [if_neg hid] at h
    cases fault with
    | some err => simp at h
    | none =>
      simp only at h
      by_cases hdup : (db.users.any fun r =>
          decide (r.ID ≠ user.ID) && decide (r.Email = user.Email)) = true
      · rw [if_pos hdup] at h
        simp at h
      · rw [if_neg hdup, if_pos] at h
        · simp only [Except.ok.injEq, Prod.mk.injEq] at h
          exact ⟨hid, h.1.symm, h.2.symm⟩
        · apply List.any_eq_true.mpr
          exact ⟨r0, hr0, by simp [hkey]⟩

theorem Update_inv (fault : Option Err) (now : Time) (db db1 : DB) (user saved : User)
    (hex : ∃ r ∈ db.users, r.Email = user.Email ∧ r.ID = user.ID)
    (h : userRepository.Update fault now db user = .ok (saved, db1)) :
    user.ID ≠ 0 ∧ saved = { user with UpdatedAt := now } ∧
      db1 = { db with users := db.users.map fun r =>
                if r.ID = user.ID then { user with UpdatedAt := now } else r } := by
  unfold userRepository.Update at h
  cases hg : gormSaveUser fault now db user with
  | error err => simp [hg] at h
  | ok res =>
    simp only [hg, Except.ok.injEq] at h
    subst h
    exact gormSaveUser_inv fault now db db1 user saved hex hg

theorem MarkAsUsed_inv (fault : Option Err) (db db1 : DB) (token : String)
    (h : passwordResetRepository.MarkAsUsed fault db token = .ok db1) :
    db1 = { db with resets := db.resets.map fun r =>
              if decide (r.Token = token) then { r with Used := true } else r } := by
  unfold passwordResetRepository.MarkAsUsed gormUpdate at h
  cases fault with
  | some err => simp at h
  | none =>
    simp only [Except.ok.injEq] at h
    exact h.symm

theorem RevokeAllForUser_inv (fault : Option Err) (db db1 : DB) (userID : Nat)
    (h : tokenRepository.RevokeAllForUser fault db userID = .ok db1) :
    db1 = { db with tokens := db.tokens.map fun r =>
              if decide (r.UserID = userID) then { r with Revoked := true } else r } := by
  unfold tokenRepository.RevokeAllForUser gormUpdate at h
  cases fault with
  | some err => simp at h
  | none =>
    simp only [Except.ok.injEq] at h
    exact h.symm

/-- A successful ResetPassword found an unused, unexpired record and its
identity, and wrote the new hash, the used flag and the revocations. -/
theorem ResetPassword_ok_inv (u : authUsecase) (env : Env) (db db3 : DB)
    (token newPassword : String) (h : u.ResetPassword env db token newPassword = (.ok (), db3)) :
    ∃ reset user hashedPassword,
      db.resets.find? (fun r => decide (r.Token = token)) = some reset ∧
      ¬ reset.ExpiresAt < env.now 0 ∧ reset.Used = false ∧
      db.users.find? (fun r => decide (r.Email = reset.Email)) = some user ∧
      u.passwordService.HashPassword env.rand newPassword = .ok hashedPassword ∧
      user.ID ≠ 0 ∧
      db3 =
        { users := db.users.map fun r =>
            if r.ID = user.ID then
              { user with PasswordHash := hashedPassword, UpdatedAt := env.now 1 }
            else r
          tokens := db.tokens.map fun r =>
            if decide (r.UserID = user.ID) then { r with Revoked := true } else r
          resets := db.resets.map fun r =>
            if decide (r.Token = token) then { r with Used := true } else r } := by
  unfold authUsecase.ResetPassword at h
  cases hg : passwordResetRepository.GetByToken (env.dbErr 0) db token with
  | error err => simp [hg] at h
  | ok found =>
    cases found with
    | none => simp [hg] at h
    | some reset =>
      simp only [hg] at h
      by_cases hexp : reset.ExpiresAt < env.now 0
      · simp [Time.Before, hexp] at h
      · by_cases hused : reset.Used = true
        · simp [Time.Before, hexp, hused] at h
        · simp only [Time.Before, hexp, hused, decide_False, Bool.false_eq_true, if_false] at h
          cases hu : userRepository.GetByEmail (env.dbErr 1) db reset.Email with
          | error err => simp [hu] at h
          | ok ufound =>
            cases ufound with
            | none => simp [hu] at h
            | some user =>
              simp only [hu] at h
              cases hh : u.passwordService.HashPassword env.rand newPassword with
              | error err => simp [hh] at h
              | ok hashedPassword =>
                simp only [hh] at h
                have hfindU := GetByEmail_some_inv _ db reset.Email user hu
                have hmemU : user ∈ db.users := List.mem_of_find?_eq_some hfindU
                cases hs : userRepository.Update (env.dbErr 2) (env.now 1) db
                    { user with PasswordHash := hashedPassword } with
                | error err => simp [hs] at h
                | ok savedRes =>
                  obtain ⟨saved, db1⟩ := savedRes
                  simp only [hs] at h
                  obtain ⟨hid, hsaved, hdb1⟩ := Update_inv _ _ db db1
                    { user with PasswordHash := hashedPassword } saved
                    ⟨user, hmemU, rfl, rfl⟩ hs
                  cases hm : passwordResetRepository.MarkAsUsed (env.dbErr 3) db1 token with
                  | error err => simp [hm] at h
                  | ok db2 =>
                    simp only [hm] at h
                    have hdb2 := MarkAsUsed_inv _ db1 db2 token hm
                    cases hr : tokenRepository.RevokeAllForUser (env.dbErr 4) db2 saved.ID with
                    | error err => simp [hr] at h
                    | ok dbr =>
                      simp only [hr, Prod.mk.injEq, true_and] at h
                      have hdbr := RevokeAllForUser_inv _ db2 dbr saved.ID hr
                      subst h hdbr hdb2 hdb1 hsaved
                      exact ⟨reset, user, hashedPassword,
                        GetByToken_some_inv _ db token reset hg, hexp, by simpa using hused,
                        hfindU, rfl, hid, rfl⟩

/-! ## Token codec: a generated access token verifies inside its window -/

theorem getSigningMethod_HS256 : GetSigningMethod "HS256" = some (.HMAC "HS256") := by
  decide

theorem floor_second_le (a b : Int) (h : a ≤ b) : ¬ b < a / 1000000000 * 1000000000 := by
  omega

theorem lt_floor_second_add (a d : Int) (h : 1000000000 ≤ d) :
    a < (a + d) / 1000000000 * 1000000000 := by
  omega

/-- An access token generated at `now` verifies at every instant from `now`
up to its `exp`, and decodes to the subject and role it was generated for. -/
theorem validateAccess_generated (s : jwtService) (now tv : Time) (userID : Nat)
    (role : String) (access : TokenString)
    (hgen : s.GenerateAccessToken now userID role = .ok access)
    (hafter : now ≤ tv)
    (hfresh : tv < NumericDate.Time (NewNumericDate (now.Add s.accessTTL))) :
    s.ValidateAccessToken tv access =
      .ok { UserID := userID
            Role := role
            ExpiresAt := some (NewNumericDate (now.Add s.accessTTL))
            IssuedAt := some (NewNumericDate now)
            NotBefore := some (NewNumericDate now) } := by
  have hnbf : ¬ tv < NumericDate.Time (NewNumericDate now) := floor_second_le now tv hafter
  simp only [jwtService.GenerateAccessToken, SignedStringHS256, AccessClaims.toPayload,
    Except.ok.injEq] at hgen
  subst hgen
  simp [jwtService.ValidateAccessToken, ParseWithClaims, getSigningMethod_HS256, hmacKeyFunc,
    SigningMethod.isHMAC, SigningMethod.Verify, Validator.Validate, Time.Before, hfresh, hnbf,
    AccessClaims.ofPayload]

theorem issued_before_exp (now : Time) (ttl : Duration) (httl : Second ≤ ttl) :
    now < NumericDate.Time (NewNumericDate (now.Add ttl)) :=
  lt_floor_second_add now ttl httl

/-! ## Login: the success path -/

theorem generateAccess_eq (s : jwtService) (now : Time) (userID : Nat) (role : String) :
    s.GenerateAccessToken now userID role =
      .ok (.jws "HS256"
        { sub := userID, role := some role, exp := some (NewNumericDate (now.Add s.accessTTL)),
          iat := some (NewNumericDate now), nbf := some (NewNumericDate now) }
        { key := hmacBlockKey "HS256" s.accessSecret, alg := "HS256",
          payload :=
            { sub := userID, role := some role,
              exp := some (NewNumericDate (now.Add s.accessTTL)),
              iat := some (NewNumericDate now), nbf := some (NewNumericDate now) } }) := rfl

theorem generateRefresh_eq (s : jwtService) (now : Time) (userID : Nat) :
    s.GenerateRefreshToken now userID =
      .ok (.jws "HS256"
        { sub := userID, role := none, exp := some (NewNumericDate (now.Add s.refreshTTL)),
          iat := some (NewNumericDate now), nbf := some (NewNumericDate now) }
        { key := hmacBlockKey "HS256" s.refreshSecret, alg := "HS256",
          payload :=
            { sub := userID, role := none,
              exp := some (NewNumericDate (now.Add s.refreshTTL)),
              iat := some (NewNumericDate now), nbf := some (NewNumericDate now) } }) := rfl

/-- Login of an active identity with the right password, working statements
and a refresh-token string not yet in the Session Store. -/
theorem Login_success (u : authUsecase) (env : Env) (db : DB) (req : LoginRequest)
    (user : User) (access refresh : TokenString)
    (hq0 : env.dbErr 0 = none) (hq1 : env.dbErr 1 = none)
    (hfound : db.users.find? (fun r => decide (r.Email = req.Email)) = some user)
    (hpw : u.passwordService.CheckPassword req.Password user.PasswordHash = true)
    (hactive : user.Status = "active")
    (hgenA : u.jwtService.GenerateAccessToken (env.now 0) user.ID user.Role = .ok access)
    (hgenR : u.jwtService.GenerateRefreshToken (env.now 1) user.ID = .ok refresh)
    (hfresh : ∀ r ∈ db.tokens, r.Token ≠ refresh) :
    u.Login env db req =
      (.ok (access, refresh, user.ToResponse),
       { users := db.users
         tokens := db.tokens ++
           [{ ID := nextID (db.tokens.map RefreshToken.ID)
              UserID := user.ID
              Token := refresh
              ExpiresAt := env.now 2 + u.refreshTokenTTL
              Revoked := false
              CreatedAt := env.now 3 }]
         resets := db.resets }) := by
  simp only [authUsecase.Login, hq0, hq1, GetByEmail_found db req.Email user hfound, hpw,
    hactive, hgenA, hgenR]
  rw [createRefreshToken_fresh (env.now 3) db _ rfl hfresh]
  simp [isZero_zeroTime, Time.Add]

theorem find_append_new (rows : List User) (row : User) (email : String)
    (habsent : ∀ r ∈ rows, r.Email ≠ email) (hrow : row.Email = email) :
    (rows ++ [row]).find? (fun r => decide (r.Email = email)) = some row := by
  have hnone : rows.find? (fun r => decide (r.Email = email)) = none := by
    apply List.find?_eq_none.mpr
    intro r hr
    simpa using habsent r hr
  rw [List.find?_append, hnone]
  simp [hrow]

/-! ## The session-ownership invariant is kept by every operation -/

theorem sessionsOwned_iff (db : DB) :
    SessionsOwned db = true ↔
      ∀ r ∈ db.tokens, ∀ id, r.Token.subject? = some id → ∃ usr ∈ db.users, usr.ID = id := by
  unfold SessionsOwned
  rw [List.all_eq_true]
  constructor
  · intro h r hr id hid
    have := h r hr
    rw [hid] at this
    simpa using this
  · intro h r hr
    cases hs : r.Token.subject? with
    | none => rfl
    | some id => simpa using h r hr id hs

theorem extends_of_tokens_eq (db db1 : DB)
    (husers : ∀ usr ∈ db.users, ∃ usr1 ∈ db1.users, usr1.ID = usr.ID)
    (htok : db1.tokens = db.tokens) : Extends db db1 := by
  refine ⟨husers, ?_, ?_, ?_⟩
  · intro r1 hr1
    rw [htok] at hr1
    exact Or.inl ⟨r1, hr1, rfl⟩
  · intro r hr
    rw [← htok] at hr
    exact ⟨r, hr, rfl⟩
  · intro r1 hr1
    rw [htok] at hr1
    exact Or.inl ⟨r1, hr1, rfl, id⟩

theorem extends_refl (db : DB) : Extends db db :=
  extends_of_tokens_eq db db (fun usr husr => ⟨usr, husr, rfl⟩) rfl

theorem sessionsOwned_of_extends (db db1 : DB) (h : SessionsOwned db = true)
    (hext : Extends db db1) : SessionsOwned db1 = true := by
  rw [sessionsOwned_iff] at h ⊢
  intro r1 hr1 id hid
  rcases hext.2.1 r1 hr1 with ⟨r, hr, htok⟩ | ⟨usr1, husr1, hsub⟩
  · rw [← htok] at hid
    obtain ⟨usr, husr, hu⟩ := h r hr id hid
    obtain ⟨usr1, husr1, hu1⟩ := hext.1 usr husr
    exact ⟨usr1, husr1, hu1.trans hu⟩
  · rw [hsub] at hid
    cases hid
    exact ⟨usr1, husr1, rfl⟩

theorem extends_of_tokens_map (db : DB) (c : RefreshToken → Bool) :
    Extends db
      { db with
        tokens := db.tokens.map fun r => if c r then { r with Revoked := true } else r } := by
  refine ⟨fun usr husr => ⟨usr, husr, rfl⟩, ?_, ?_, ?_⟩
  · intro r1 hr1
    obtain ⟨r, hr, hmap⟩ := List.mem_map.mp hr1
    left
    refine ⟨r, hr, ?_⟩
    rw [← hmap]
    split <;> rfl
  · intro r hr
    refine ⟨_, List.mem_map_of_mem _ hr, ?_⟩
    split <;> rfl
  · intro r1 hr1
    obtain ⟨r, hr, hmap⟩ := List.mem_map.mp hr1
    left
    refine ⟨r, hr, ?_, ?_⟩
    · rw [← hmap]
      split <;> rfl
    · intro hrev
      rw [← hmap]
      split
      · rfl
      · exact hrev

/-- The relation `Extends` composes. -/
theorem extends_trans (a b c : DB) (hab : Extends a b) (hbc : Extends b c) : Extends a c := by
  refine ⟨?_, ?_, ?_, ?_⟩
  · intro usr husr
    obtain ⟨u1, hu1, h1⟩ := hab.1 usr husr
    obtain ⟨u2, hu2, h2⟩ := hbc.1 u1 hu1
    exact ⟨u2, hu2, h2.trans h1⟩
  · intro r2 hr2
    rcases hbc.2.1 r2 hr2 with ⟨r1, hr1, ht⟩ | hnew
    · rcases hab.2.1 r1 hr1 with ⟨r, hr, ht0⟩ | ⟨u1, hu1, hsub⟩
      · exact Or.inl ⟨r, hr, ht0.trans ht⟩
      · obtain ⟨u2, hu2, h2⟩ := hbc.1 u1 hu1
        right
        refine ⟨u2, hu2, ?_⟩
        rw [← ht, hsub, h2]
    · exact Or.inr hnew
  · intro r hr
    obtain ⟨r1, hr1, h1⟩ := hab.2.2.1 r hr
    obtain ⟨r2, hr2, h2⟩ := hbc.2.2.1 r1 hr1
    exact ⟨r2, hr2, h2.trans h1⟩
  · intro r2 hr2
    rcases hbc.2.2.2 r2 hr2 with ⟨r1, hr1, ht, hrev⟩ | hnew
    · rcases hab.2.2.2 r1 hr1 with ⟨r, hr, ht0, hrev0⟩ | hnew0
      · exact Or.inl ⟨r, hr, ht0.trans ht, fun h => hrev (hrev0 h)⟩
      · right
        intro r hr heq
        exact hnew0 r hr (heq.trans ht.symm)
    · right
      intro r hr heq
      obtain ⟨r1, hr1, h1⟩ := hab.2.2.1 r hr
      exact hnew r1 hr1 (h1.trans heq)

theorem GetByID_some_inv (fault : Option Err) (db : DB) (id : Nat) (user : User)
    (h : userRepository.GetByID fault db id = .ok (some user)) :
    db.users.find? (fun r => decide (r.ID = id)) = some user := by
  unfold userRepository.GetByID gormFirst at h
  cases fault with
  | some err =>
    simp only at h
    split at h <;> simp at h
  | none =>
    cases hfind : db.users.find? (fun r => decide (r.ID = id)) with
    | none =>
      rw [hfind] at h
      simp only at h
      split at h <;> simp at h
    | some r =>
      rw [hfind] at h
      simp only [Except.ok.injEq, Option.some.injEq] at h
      rw [h]

theorem extends_of_createRefreshToken (fault : Option Err) (now : Time) (db db1 : DB)
    (token row : RefreshToken) (user : User) (hmem : user ∈ db.users)
    (hsub : token.Token.subject? = some user.ID)
    (h : tokenRepository.CreateRefreshToken fault now db token = .ok (row, db1)) :
    Extends db db1 := by
  obtain ⟨hfresh, hrowTok, _, _, _, hdb1⟩ :=
    CreateRefreshToken_inv fault now db db1 token row h
  subst hdb1
  refine ⟨fun usr husr => ⟨usr, husr, rfl⟩, ?_, ?_, ?_⟩
  · intro r1 hr1
    rcases (mem_insertByID RefreshToken.ID row db.tokens r1).mp hr1 with hnew | hold
    · right
      refine ⟨user, hmem, ?_⟩
      rw [hnew, hrowTok, hsub]
    · exact Or.inl ⟨r1, hold, rfl⟩
  · intro r hr
    exact ⟨r, (mem_insertByID RefreshToken.ID row db.tokens r).mpr (Or.inr hr), rfl⟩
  · intro r1 hr1
    rcases (mem_insertByID RefreshToken.ID row db.tokens r1).mp hr1 with hnew | hold
    · right
      intro r hr heq
      rw [hnew, hrowTok] at heq
      exact hfresh r hr heq
    · exact Or.inl ⟨r1, hold, rfl, id⟩

theorem gormCreateUser_extends (fault : Option Err) (now : Time) (db db1 : DB)
    (user row : User) (h : gormCreateUser fault now db user = .ok (row, db1)) :
    Extends db db1 := by
  unfold gormCreateUser at h
  cases fault with
  | some err => simp at h
  | none =>
    simp only at h
    by_cases hany : (db.users.any fun r =>
        decide (r.ID = if user.ID = 0 then nextID (db.users.map User.ID) else user.ID) ||
          decide (r.Email = user.Email)) = true
    · rw [if_pos hany] at h
      simp at h
    · rw [if_neg hany] at h
      simp only [Except.ok.injEq, Prod.mk.injEq] at h
      obtain ⟨_, hdb⟩ := h
      subst hdb
      refine extends_of_tokens_eq _ _ ?_ rfl
      intro usr husr
      exact ⟨usr, (mem_insertByID User.ID _ db.users usr).mpr (Or.inr husr), rfl⟩

theorem gormSaveUser_extends (fault : Option Err) (now : Time) (db db1 : DB)
    (user saved : User) (h : gormSaveUser fault now db user = .ok (saved, db1)) :
    Extends db db1 := by
  unfold gormSaveUser at h
  by_cases hid : user.ID = 0
  · rw [if_pos hid] at h
    exact gormCreateUser_extends fault now db db1 user saved h
  · rw [if_neg hid] at h
    cases fault with
    | some err => simp at h
    | none =>
      simp only at h
      by_cases hdup : (db.users.any fun r =>
          decide (r.ID ≠ user.ID) && decide (r.Email = user.Email)) = true
      · rw [if_pos hdup] at h
        simp at h
      · rw [if_neg hdup] at h
        by_cases hex : (db.users.any fun r => decide (r.ID = user.ID)) = true
        · rw [if_pos hex] at h
          simp only [Except.ok.injEq, Prod.mk.injEq] at h
          obtain ⟨_, hdb⟩ := h
          subst hdb
          refine extends_of_tokens_eq _ _ ?_ rfl
          intro usr husr
          refine ⟨_, List.mem_map_of_mem _ husr, ?_⟩
          by_cases hk : usr.ID = user.ID
          · simp [hk]
          · simp [hk]
        · rw [if_neg hex] at h
          simp only [Except.ok.injEq, Prod.mk.injEq] at h
          obtain ⟨_, hdb⟩ := h
          subst hdb
          refine extends_of_tokens_eq _ _ ?_ rfl
          intro usr husr
          exact ⟨usr, (mem_insertByID User.ID _ db.users usr).mpr (Or.inr husr), rfl⟩

theorem Create_extends (fault : Option Err) (now : Time) (db db1 : DB) (user row : User)
    (h : userRepository.Create fault now db user = .ok (row, db1)) : Extends db db1 := by
  unfold userRepository.Create at h
  cases hg : gormCreateUser fault now db user with
  | error err => simp [hg] at h
  | ok res =>
    simp only [hg, Except.ok.injEq] at h
    subst h
    exact gormCreateUser_extends fault now db db1 user row hg

theorem Update_extends (fault : Option Err) (now : Time) (db db1 : DB) (user saved : User)
    (h : userRepository.Update fault now db user = .ok (saved, db1)) : Extends db db1 := by
  unfold userRepository.Update at h
  cases hg : gormSaveUser fault now db user with
  | error err => simp [hg] at h
  | ok res =>
    simp only [hg, Except.ok.injEq] at h
    subst h
    exact gormSaveUser_extends fault now db db1 user saved hg

theorem createPasswordReset_extends (fault : Option Err) (now : Time) (db db1 : DB)
    (reset row : PasswordReset)
    (h : passwordResetRepository.Create fault now db reset = .ok (row, db1)) :
    Extends db db1 := by
  unfold passwordResetRepository.Create at h
  cases hg : gormCreatePasswordReset fault now db reset with
  | error err => simp [hg] at h
  | ok res =>
    simp only [hg, Except.ok.injEq] at h
    subst h
    unfold gormCreatePasswordReset at hg
    cases fault with
    | some err => simp at hg
    | none =>
      simp only at hg
      by_cases hany : (db.resets.any fun r =>
          decide (r.ID = if reset.ID = 0 then nextID (db.resets.map PasswordReset.ID)
            else reset.ID) || decide (r.Token = reset.Token)) = true
      · rw [if_pos hany] at hg
        simp at hg
      · rw [if_neg hany] at hg
        simp only [Except.ok.injEq, Prod.mk.injEq] at hg
        obtain ⟨_, hdb⟩ := hg
        subst hdb
        exact extends_refl db

theorem Register_extends (u : authUsecase) (env : Env) (db : DB) (req : RegisterRequest) :
    Extends db (u.Register env db req).2 := by
  unfold authUsecase.Register
  cases hg : userRepository.GetByEmail (env.dbErr 0) db req.Email with
  | error err => exact extends_refl db
  | ok found =>
    cases found with
    | some user => exact extends_refl db
    | none =>
      simp only
      cases hh : u.passwordService.HashPassword env.rand req.Password with
      | error err => exact extends_refl db
      | ok hashedPassword =>
        simp only
        cases hc : userRepository.Create (env.dbErr 1) (env.now 0) db
            { ID := 0, Email := req.Email, PasswordHash := hashedPassword,
              FullName := req.FullName, Role := "user", Status := "active",
              EmailVerifiedAt := none, CreatedAt := zeroTime, UpdatedAt := zeroTime } with
        | error err => exact extends_refl db
        | ok res =>
          obtain ⟨created, db1⟩ := res
          exact Create_extends _ _ db db1 _ created hc

theorem Login_extends (u : authUsecase) (env : Env) (db : DB) (req : LoginRequest) :
    Extends db (u.Login env db req).2 := by
  unfold authUsecase.Login
  cases hg : userRepository.GetByEmail (env.dbErr 0) db req.Email with
  | error err => exact extends_refl db
  | ok found =>
    cases found with
    | none => exact extends_refl db
    | some user =>
      simp only
      have hmem : user ∈ db.users :=
        List.mem_of_find?_eq_some (GetByEmail_some_inv _ db req.Email user hg)
      by_cases hpw : u.passwordService.CheckPassword req.Password user.PasswordHash = true
      · by_cases hst : user.Status = "active"
        · simp only [hpw, hst, generateAccess_eq, generateRefresh_eq, Bool.not_true,
            Bool.false_eq_true, if_false, ne_eq, not_true_eq_false]
          cases hc : tokenRepository.CreateRefreshToken (env.dbErr 1) (env.now 3) db
              { ID := 0, UserID := user.ID,
                Token := .jws "HS256"
                  { sub := user.ID, role := none,
                    exp := some (NewNumericDate ((env.now 1).Add u.jwtService.refreshTTL)),
                    iat := some (NewNumericDate (env.now 1)),
                    nbf := some (NewNumericDate (env.now 1)) }
                  { key := hmacBlockKey "HS256" u.jwtService.refreshSecret, alg := "HS256",
                    payload :=
                      { sub := user.ID, role := none,
                        exp := some (NewNumericDate ((env.now 1).Add u.jwtService.refreshTTL)),
                        iat := some (NewNumericDate (env.now 1)),
                        nbf := some (NewNumericDate (env.now 1)) } },
                ExpiresAt := (env.now 2).Add u.refreshTokenTTL, Revoked := false,
                CreatedAt := zeroTime } with
          | error err => exact extends_refl db
          | ok res =>
            obtain ⟨row, db1⟩ := res
            exact extends_of_createRefreshToken _ _ db db1 _ row user hmem (by rfl) hc
        · simp only [hpw, hst, Bool.not_true, Bool.false_eq_true, if_false, ne_eq,
            not_false_eq_true, if_true]
          exact extends_refl db
      · simp only [hpw, Bool.not_false, if_true]
        exact extends_refl db

theorem Logout_extends (u : authUsecase) (env : Env) (db : DB) (userID : Nat)
    (refreshToken : TokenString) : Extends db (u.Logout env db userID refreshToken).2 := by
  unfold authUsecase.Logout
  cases hr : tokenRepository.RevokeRefreshToken (env.dbErr 0) db refreshToken with
  | error err => exact extends_refl db
  | ok db1 =>
    have := RevokeRefreshToken_inv _ db db1 refreshToken hr
    subst this
    exact extends_of_tokens_map db _

theorem RefreshToken_extends (u : authUsecase) (env : Env) (db : DB) (t : TokenString) :
    Extends db (u.RefreshToken env db t).2 := by
  unfold authUsecase.RefreshToken
  cases hv : u.jwtService.ValidateRefreshToken (env.now 0) t with
  | error err => exact extends_refl db
  | ok claims =>
    simp only
    cases hg : tokenRepository.GetRefreshToken (env.dbErr 0) db t with
    | error err => exact extends_refl db
    | ok found =>
      cases found with
      | none => exact extends_refl db
      | some tokenEntity =>
        simp only
        by_cases hrev : tokenEntity.Revoked = true
        · simp only [hrev, if_true]
          exact extends_refl db
        · by_cases hexp : tokenEntity.ExpiresAt.Before (env.now 1) = true
          · simp only [hrev, hexp, Bool.false_eq_true, if_false, if_true]
            exact extends_refl db
          · simp only [hrev, hexp, Bool.false_eq_true, if_false]
            cases hu : userRepository.GetByID (env.dbErr 1) db claims.UserID with
            | error err => exact extends_refl db
            | ok ufound =>
              cases ufound with
              | none => exact extends_refl db
              | some user =>
                simp only
                have hmem : user ∈ db.users :=
                  List.mem_of_find?_eq_some (GetByID_some_inv _ db claims.UserID user hu)
                cases hr : tokenRepository.RevokeRefreshToken (env.dbErr 2) db t with
                | error err => exact extends_refl db
                | ok db1 =>
                  have hdb1 := RevokeRefreshToken_inv _ db db1 t hr
                  have hstep : Extends db db1 := by
                    rw [hdb1]
                    exact extends_of_tokens_map db _
                  have hmem1 : user ∈ db1.users := by
                    rw [hdb1]
                    exact hmem
                  simp only [generateAccess_eq, generateRefresh_eq]
                  cases hc : tokenRepository.CreateRefreshToken (env.dbErr 3) (env.now 5) db1
                      { ID := 0, UserID := user.ID,
                        Token := .jws "HS256"
                          { sub := user.ID, role := none,
                            exp := some
                              (NewNumericDate ((env.now 3).Add u.jwtService.refreshTTL)),
                            iat := some (NewNumericDate (env.now 3)),
                            nbf := some (NewNumericDate (env.now 3)) }
                          { key := hmacBlockKey "HS256" u.jwtService.refreshSecret, alg := "HS256",
                            payload :=
                              { sub := user.ID, role := none,
                                exp := some
                                  (NewNumericDate ((env.now 3).Add u.jwtService.refreshTTL)),
                                iat := some (NewNumericDate (env.now 3)),
                                nbf := some (NewNumericDate (env.now 3)) } },
                        ExpiresAt := (env.now 4).Add u.refreshTokenTTL, Revoked := false,
                        CreatedAt := zeroTime } with
                  | error err => exact hstep
                  | ok res =>
                    obtain ⟨row, db2⟩ := res
                    exact extends_trans db db1 db2 hstep
                      (extends_of_createRefreshToken _ _ db1 db2 _ row user hmem1 (by rfl) hc)

theorem ForgotPassword_extends (u : authUsecase) (env : Env) (db : DB) (email : String) :
    Extends db (u.ForgotPassword env db email).2 := by
  unfold authUsecase.ForgotPassword
  cases hg : userRepository.GetByEmail (env.dbErr 0) db email with
  | error err => exact extends_refl db
  | ok found =>
    cases found with
    | none => exact extends_refl db
    | some user =>
      simp only
      cases hc : passwordResetRepository.Create (env.dbErr 1) (env.now 1) db
          { ID := 0, Email := email, Token := env.uuid,
            ExpiresAt := (env.now 0).Add (1 * Hour), Used := false,
            CreatedAt := zeroTime } with
      | error err => exact extends_refl db
      | ok res =>
        obtain ⟨row, db1⟩ := res
        exact createPasswordReset_extends _ _ db db1 _ row hc

theorem ResetPassword_extends (u : authUsecase) (env : Env) (db : DB)
    (token newPassword : String) : Extends db (u.ResetPassword env db token newPassword).2 := by
  unfold authUsecase.ResetPassword
  cases hg : passwordResetRepository.GetByToken (env.dbErr 0) db token with
  | error err => exact extends_refl db
  | ok found =>
    cases found with
    | none => exact extends_refl db
    | some reset =>
      simp only
      by_cases hexp : reset.ExpiresAt.Before (env.now 0) = true
      · simp only [hexp, if_true]
        exact extends_refl db
      · by_cases hused : reset.Used = true
        · simp only [hexp, hused, Bool.false_eq_true, if_false, if_true]
          exact extends_refl db
        · simp only [hexp, hused, Bool.false_eq_true, if_false]
          cases hu : userRepository.GetByEmail (env.dbErr 1) db reset.Email with
          | error err => exact extends_refl db
          | ok ufound =>
            cases ufound with
            | none => exact extends_refl db
            | some user =>
              simp only
              cases hh : u.passwordService.HashPassword env.rand newPassword with
              | error err => exact extends_refl db
              | ok hashedPassword =>
                simp only
                cases hs : userRepository.Update (env.dbErr 2) (env.now 1) db
                    { user with PasswordHash := hashedPassword } with
                | error err => exact extends_refl db
                | ok savedRes =>
                  obtain ⟨saved, db1⟩ := savedRes
                  have h1 : Extends db db1 := Update_extends _ _ db db1 _ saved hs
                  simp only
                  cases hm : passwordResetRepository.MarkAsUsed (env.dbErr 3) db1 token with
                  | error err => exact h1
                  | ok db2 =>
                    have hdb2 := MarkAsUsed_inv _ db1 db2 token hm
                    have h2 : Extends db db2 := by
                      rw [hdb2]
                      exact h1
                    simp only
                    cases hr : tokenRepository.RevokeAllForUser (env.dbErr 4) db2 saved.ID with
                    | error err => exact h2
                    | ok db3 =>
                      have hdb3 := RevokeAllForUser_inv _ db2 db3 saved.ID hr
                      rw [hdb3]
                      exact extends_trans db db2 _ h2 (extends_of_tokens_map db2 _)

/-! ## Sequences of operations; revoked sessions stay revoked -/

/-- Every operation of the engine, whatever its outcome, extends the database
it was given. -/
theorem Op_run_extends (u : authUsecase) (db : DB) (op : Op) : Extends db (op.run u db) := by
  cases op with
  | register env req => exact Register_extends u env db req
  | login env req => exact Login_extends u env db req
  | logout env userID refreshToken => exact Logout_extends u env db userID refreshToken
  | refresh env refreshToken => exact RefreshToken_extends u env db refreshToken
  | forgot env email => exact ForgotPassword_extends u env db email
  | reset env token newPassword => exact ResetPassword_extends u env db token newPassword

theorem runOps_extends (u : authUsecase) (ops : List Op) :
    ∀ db, Extends db (runOps u db ops) := by
  induction ops with
  | nil => exact fun db => extends_refl db
  | cons op rest ih =>
    intro db
    exact extends_trans db (op.run u db) _ (Op_run_extends u db op) (ih (op.run u db))

/-- The session-ownership invariant holds of the empty database and is kept by
every sequence of operations of the engine, whatever their environments and
outcomes. -/
theorem sessionsOwned_invariant (u : authUsecase) (db : DB) (ops : List Op)
    (h : SessionsOwned db = true) :
    SessionsOwned emptyDB = true ∧ SessionsOwned (runOps u db ops) = true :=
  ⟨rfl, sessionsOwned_of_extends db _ h (runOps_extends u ops db)⟩

/-- A token string that is held and revoked stays held and revoked. -/
theorem sessionRevoked_of_extends (db db1 : DB) (t : TokenString)
    (h : SessionRevoked db t) (hext : Extends db db1) : SessionRevoked db1 t := by
  obtain ⟨⟨r, hr, ht⟩, hall⟩ := h
  constructor
  · obtain ⟨r1, hr1, h1⟩ := hext.2.2.1 r hr
    exact ⟨r1, hr1, h1.trans ht⟩
  · intro r1 hr1 ht1
    rcases hext.2.2.2 r1 hr1 with ⟨r0, hr0, ht0, hrev⟩ | hnew
    · exact hrev (hall r0 hr0 (ht0.trans ht1))
    · exact absurd (ht.trans ht1.symm) (hnew r hr)

/-- RefreshToken on a token string that is held and revoked. -/
theorem RefreshToken_on_revoked (u : authUsecase) (env : Env) (db : DB) (t : TokenString)
    (h : SessionRevoked db t) :
    (∃ err, u.RefreshToken env db t = (.error err, db)) ∧
      (∀ claims, u.jwtService.ValidateRefreshToken (env.now 0) t = .ok claims →
        env.dbErr 0 = none →
        u.RefreshToken env db t = (.error (.new "refresh token is revoked"), db)) := by
  obtain ⟨r, hfind, hrev⟩ := find_all_revoked db.tokens t h.2 h.1
  exact ⟨RefreshToken_fails_on_revoked_row u env db t r hfind hrev,
    fun claims hv hq => RefreshToken_revoked_row u env db t claims r hv hq hfind hrev⟩

/-- After a successful RefreshToken the presented string is held and revoked. -/
theorem revoked_after_rotation (u : authUsecase) (env : Env) (db db2 : DB) (t : TokenString)
    (res : TokenString × TokenString) (h : u.RefreshToken env db t = (.ok res, db2)) :
    SessionRevoked db2 t := by
  obtain ⟨claims, tokenEntity, user, row, _, hfind, _, _, _, _, _, hc⟩ :=
    RefreshToken_ok_inv u env db db2 t res h
  obtain ⟨hfresh, hrowTok, _, _, _, hdb2⟩ := CreateRefreshToken_inv _ _ _ _ _ _ hc
  have hmem : tokenEntity ∈ db.tokens := List.mem_of_find?_eq_some hfind
  have htok : tokenEntity.Token = t := by simpa using List.find?_some hfind
  have hne : row.Token ≠ t := by
    intro heq
    have hm : ({ tokenEntity with Revoked := true } : RefreshToken) ∈
        db.tokens.map (fun r => if decide (r.Token = t) then { r with Revoked := true } else r) := by
      apply List.mem_map.mpr
      exact ⟨tokenEntity, hmem, by simp [htok]⟩
    have := hfresh _ hm
    simp only at hrowTok
    rw [← hrowTok, heq] at this
    exact this htok
  subst hdb2
  constructor
  · refine ⟨{ tokenEntity with Revoked := true }, ?_, htok⟩
    apply (mem_insertByID RefreshToken.ID row _ _).mpr
    right
    apply List.mem_map.mpr
    exact ⟨tokenEntity, hmem, by simp [htok]⟩
  · intro r hr hrt
    rcases (mem_insertByID RefreshToken.ID row _ r).mp hr with hrow | hold
    · subst hrow
      exact absurd hrt hne
    · obtain ⟨r0, _, hr0⟩ := List.mem_map.mp hold
      by_cases h0 : r0.Token = t
      · simp [h0] at hr0
        rw [← hr0]
      · simp [h0] at hr0
        rw [← hr0] at hrt
        exact absurd hrt h0

/-- After a successful ResetPassword the token strings of the identity are
held and revoked. -/
theorem revoked_after_reset (u : authUsecase) (env : Env) (db db3 : DB)
    (token newPassword : String) (reset : PasswordReset) (user : User)
    (hreset : u.ResetPassword env db token newPassword = (.ok (), db3))
    (hrec : db.resets.find? (fun r => decide (r.Token = token)) = some reset)
    (huser : db.users.find? (fun r => decide (r.Email = reset.Email)) = some user)
    (t : TokenString) (hex : ∃ row ∈ db.tokens, row.Token = t)
    (hown : ∀ row ∈ db.tokens, row.Token = t → row.UserID = user.ID) :
    SessionRevoked db3 t := by
  obtain ⟨reset1, user1, hashedPassword, hrec1, _, _, huser1, _, _, hdb3⟩ :=
    ResetPassword_ok_inv u env db db3 token newPassword hreset
  rw [hrec] at hrec1
  cases hrec1
  rw [huser] at huser1
  cases huser1
  subst hdb3
  obtain ⟨row, hrow, hrt⟩ := hex
  constructor
  · refine ⟨{ row with Revoked := true }, ?_, hrt⟩
    apply List.mem_map.mpr
    exact ⟨row, hrow, by simp [hown row hrow hrt]⟩
  · intro r hr hrtok
    obtain ⟨r0, hr0, hmap⟩ := List.mem_map.mp hr
    by_cases h0 : r0.UserID = user.ID
    · simp [h0] at hmap
      rw [← hmap]
    · simp [h0] at hmap
      rw [← hmap] at hrtok
      exact absurd (hown r0 hr0 hrtok) h0

/-- C1 (as amended): After a successful RefreshToken on token string `t`, and
after any further operations of the engine, a RefreshToken on the same string
never succeeds and changes nothing; whenever `t` still passes
ValidateRefreshToken at the time of that call and the record lookup itself
does not fail, the error is `refresh token is revoked`. -/
theorem C1_refresh_rotates_once (u : authUsecase) (env1 env2 : Env) (db db2 : DB)
    (t : TokenString) (res : TokenString × TokenString) (ops : List Op)
    (hfirst : u.RefreshToken env1 db t = (.ok res, db2)) :
    (∃ err, u.RefreshToken env2 (runOps u db2 ops) t = (.error err, runOps u db2 ops)) ∧
      (∀ claims, u.jwtService.ValidateRefreshToken (env2.now 0) t = .ok claims →
        env2.dbErr 0 = none →
        u.RefreshToken env2 (runOps u db2 ops) t =
          (.error (.new "refresh token is revoked"), runOps u db2 ops)) :=
  RefreshToken_on_revoked u env2 (runOps u db2 ops) t
    (sessionRevoked_of_extends db2 _ t (revoked_after_rotation u env1 db db2 t res hfirst)
      (runOps_extends u ops db2))

theorem C1_refresh_rotates_once_witness :
    (∃ err, exampleUsecase.RefreshToken (quietEnv (9 * Second))
        (runOps exampleUsecase rotatedDB
          [.login (quietEnv (8 * Second)) { Email := "a@x.com", Password := "secret1" }])
        aliceRefresh =
        (.error err, runOps exampleUsecase rotatedDB
          [.login (quietEnv (8 * Second)) { Email := "a@x.com", Password := "secret1" }])) ∧
      exampleUsecase.RefreshToken (quietEnv (9 * Second))
        (runOps exampleUsecase rotatedDB
          [.login (quietEnv (8 * Second)) { Email := "a@x.com", Password := "secret1" }])
        aliceRefresh =
        (.error (.new "refresh token is revoked"), runOps exampleUsecase rotatedDB
          [.login (quietEnv (8 * Second)) { Email := "a@x.com", Password := "secret1" }]) :=
  ⟨(C1_refresh_rotates_once exampleUsecase (quietEnv (7 * Second)) (quietEnv (9 * Second))
      sessionDB rotatedDB aliceRefresh rotatedPair
      [.login (quietEnv (8 * Second)) { Email := "a@x.com", Password := "secret1" }] rfl).1,
   (C1_refresh_rotates_once exampleUsecase (quietEnv (7 * Second)) (quietEnv (9 * Second))
      sessionDB rotatedDB aliceRefresh rotatedPair
      [.login (quietEnv (8 * Second)) { Email := "a@x.com", Password := "secret1" }] rfl).2
      { UserID := 1, ExpiresAt := some 604806, IssuedAt := some 6, NotBefore := some 6 }
      rfl rfl⟩

/-- C1 fails as stated: the first RefreshToken on `aliceRefresh` succeeds at
7 s; a second call on the same string after the token's `exp` (604806 s) is
rejected by the codec with `invalid refresh token: ... token is expired`, not
with `refresh token is revoked`. -/
theorem C1_second_call_after_expiry_is_invalid_token :
    exampleUsecase.RefreshToken (quietEnv (7 * Second)) sessionDB aliceRefresh =
        (.ok rotatedPair, rotatedDB) ∧
      exampleUsecase.RefreshToken (quietEnv (604807 * Second)) rotatedDB aliceRefresh =
        (.error (.wrap "invalid refresh token"
          (.wrap "token has invalid claims" (.new "token is expired"))), rotatedDB) ∧
      (exampleUsecase.RefreshToken (quietEnv (604807 * Second)) rotatedDB aliceRefresh).1 ≠
        .error (.new "refresh token is revoked") := by
  refine ⟨rfl, rfl, ?_⟩
  intro h
  have h2 : (exampleUsecase.RefreshToken (quietEnv (604807 * Second)) rotatedDB aliceRefresh).1 =
      .error (.wrap "invalid refresh token"
        (.wrap "token has invalid claims" (.new "token is expired"))) := rfl
  rw [h2] at h
  cases h

/-- C4 (as amended): After a successful ResetPassword for the identity found
for the reset record, and after any further operations of the engine, a
RefreshToken on a token string whose session records belong to that identity
never succeeds and changes nothing; whenever the token still passes
ValidateRefreshToken at the time of that call and the record lookup itself
does not fail, the error is `refresh token is revoked`. -/
theorem C4_reset_revokes_sessions (u : authUsecase) (env envR : Env) (db db3 : DB)
    (token newPassword : String) (reset : PasswordReset) (user : User) (ops : List Op)
    (hreset : u.ResetPassword env db token newPassword = (.ok (), db3))
    (hrec : db.resets.find? (fun r => decide (r.Token = token)) = some reset)
    (huser : db.users.find? (fun r => decide (r.Email = reset.Email)) = some user)
    (t : TokenString) (hex : ∃ row ∈ db.tokens, row.Token = t)
    (hown : ∀ row ∈ db.tokens, row.Token = t → row.UserID = user.ID) :
    (∃ err, u.RefreshToken envR (runOps u db3 ops) t = (.error err, runOps u db3 ops)) ∧
      (∀ claims, u.jwtService.ValidateRefreshToken (envR.now 0) t = .ok claims →
        envR.dbErr 0 = none →
        u.RefreshToken envR (runOps u db3 ops) t =
          (.error (.new "refresh token is revoked"), runOps u db3 ops)) :=
  RefreshToken_on_revoked u envR (runOps u db3 ops) t
    (sessionRevoked_of_extends db3 _ t
      (revoked_after_reset u env db db3 token newPassword reset user hreset hrec huser t hex
        hown)
      (runOps_extends u ops db3))

theorem C4_reset_revokes_sessions_witness :
    (∃ err, exampleUsecase.RefreshToken (quietEnv (12 * Second))
        (runOps exampleUsecase afterResetDB
          [.login (quietEnv (11 * Second)) { Email := "a@x.com", Password := "newpass" }])
        aliceRefresh =
        (.error err, runOps exampleUsecase afterResetDB
          [.login (quietEnv (11 * Second)) { Email := "a@x.com", Password := "newpass" }])) ∧
      exampleUsecase.RefreshToken (quietEnv (12 * Second))
        (runOps exampleUsecase afterResetDB
          [.login (quietEnv (11 * Second)) { Email := "a@x.com", Password := "newpass" }])
        aliceRefresh =
        (.error (.new "refresh token is revoked"), runOps exampleUsecase afterResetDB
          [.login (quietEnv (11 * Second)) { Email := "a@x.com", Password := "newpass" }]) :=
  ⟨(C4_reset_revokes_sessions exampleUsecase (quietEnv (10 * Second)) (quietEnv (12 * Second))
      resetPendingDB afterResetDB "3f2c9a1e-reset" "newpass"
      { ID := 1, Email := "a@x.com", Token := "3f2c9a1e-reset", ExpiresAt := 3609 * Second,
        Used := false, CreatedAt := 9 * Second }
      { ID := 1, Email := "a@x.com", PasswordHash := "$2a$secret1", FullName := "A",
        Role := "user", Status := "active", EmailVerifiedAt := none,
        CreatedAt := 5 * Second, UpdatedAt := 5 * Second }
      [.login (quietEnv (11 * Second)) { Email := "a@x.com", Password := "newpass" }]
      rfl (by decide) (by decide) aliceRefresh (by decide) (by decide)).1,
   (C4_reset_revokes_sessions exampleUsecase (quietEnv (10 * Second)) (quietEnv (12 * Second))
      resetPendingDB afterResetDB "3f2c9a1e-reset" "newpass"
      { ID := 1, Email := "a@x.com", Token := "3f2c9a1e-reset", ExpiresAt := 3609 * Second,
        Used := false, CreatedAt := 9 * Second }
      { ID := 1, Email := "a@x.com", PasswordHash := "$2a$secret1", FullName := "A",
        Role := "user", Status := "active", EmailVerifiedAt := none,
        CreatedAt := 5 * Second, UpdatedAt := 5 * Second }
      [.login (quietEnv (11 * Second)) { Email := "a@x.com", Password := "newpass" }]
      rfl (by decide) (by decide) aliceRefresh (by decide) (by decide)).2
      { UserID := 1, ExpiresAt := some 604806, IssuedAt := some 6, NotBefore := some 6 }
      rfl rfl⟩

/-- C4 fails as stated: ResetPassword succeeds at 10 s for the identity that
owns `aliceRefresh`; a RefreshToken on that token after its `exp` (604806 s)
is rejected by the codec with `invalid refresh token: ... token is expired`,
not with `refresh token is revoked`. -/
theorem C4_revoked_token_after_expiry_is_invalid_token :
    exampleUsecase.ResetPassword (quietEnv (10 * Second)) resetPendingDB "3f2c9a1e-reset"
        "newpass" = (.ok (), afterResetDB) ∧
      exampleUsecase.RefreshToken (quietEnv (604807 * Second)) afterResetDB aliceRefresh =
        (.error (.wrap "invalid refresh token"
          (.wrap "token has invalid claims" (.new "token is expired"))), afterResetDB) ∧
      (exampleUsecase.RefreshToken (quietEnv (604807 * Second)) afterResetDB aliceRefresh).1 ≠
        .error (.new "refresh token is revoked") := by
  refine ⟨rfl, rfl, ?_⟩
  intro h
  have h2 : (exampleUsecase.RefreshToken (quietEnv (604807 * Second)) afterResetDB
      aliceRefresh).1 =
      .error (.wrap "invalid refresh token"
        (.wrap "token has invalid claims" (.new "token is expired"))) := rfl
  rw [h2] at h
  cases h

/-! ## Register, then Login -/

/-- C3 (as amended): With working statements and hasher, an access TTL of at
least one second and a store that satisfies `SessionsOwned` (every session
token names an existing identity as its subject), Register of an email not yet registered followed by
Login with the same credentials succeeds; the access token is not expired
when issued, and at every instant from its issue up to its `exp` it passes
ValidateAccessToken with subject equal to the new identity's id and role
`user`. -/
theorem C3_register_then_login (u : authUsecase) (envR envL : Env) (db : DB)
    (req : RegisterRequest) (h : String)
    (hqR0 : envR.dbErr 0 = none) (hqR1 : envR.dbErr 1 = none)
    (hqL0 : envL.dbErr 0 = none) (hqL1 : envL.dbErr 1 = none)
    (habsent : ∀ r ∈ db.users, r.Email ≠ req.Email)
    (hhash : u.passwordService.HashPassword envR.rand req.Password = .ok h)
    (hcheck : u.passwordService.CheckPassword req.Password h = true)
    (hsess : SessionsOwned db = true)
    (httl : Second ≤ u.jwtService.accessTTL) :
    ∃ resp db1 access refresh db2,
      u.Register envR db req = (.ok resp, db1) ∧
      u.Login envL db1 { Email := req.Email, Password := req.Password } =
        (.ok (access, refresh, resp), db2) ∧
      envL.now 0 <
        NumericDate.Time (NewNumericDate ((envL.now 0).Add u.jwtService.accessTTL)) ∧
      ∀ tv, envL.now 0 ≤ tv →
        tv < NumericDate.Time (NewNumericDate ((envL.now 0).Add u.jwtService.accessTTL)) →
        ∃ claims, u.jwtService.ValidateAccessToken tv access = .ok claims ∧
          claims.UserID = resp.ID ∧ claims.Role = "user" := by
  have hreg := Register_success u envR db req h hqR0 hqR1 habsent hhash
  have hlogin := Login_success u envL
    { users := db.users ++
        [{ ID := nextID (db.users.map User.ID), Email := req.Email, PasswordHash := h,
           FullName := req.FullName, Role := "user", Status := "active",
           EmailVerifiedAt := none, CreatedAt := envR.now 0, UpdatedAt := envR.now 0 }]
      tokens := db.tokens
      resets := db.resets }
    { Email := req.Email, Password := req.Password }
    { ID := nextID (db.users.map User.ID), Email := req.Email, PasswordHash := h,
      FullName := req.FullName, Role := "user", Status := "active",
      EmailVerifiedAt := none, CreatedAt := envR.now 0, UpdatedAt := envR.now 0 }
    _ _ hqL0 hqL1 (find_append_new db.users _ req.Email habsent rfl) hcheck rfl
    (generateAccess_eq _ _ _ _) (generateRefresh_eq _ _ _)
    (by
      intro r hr heq
      obtain ⟨usr, husr, hid⟩ :=
        (sessionsOwned_iff db).mp hsess r hr (nextID (db.users.map User.ID))
          (by rw [heq]; rfl)
      have := key_lt_nextID User.ID db.users usr husr
      omega)
  refine ⟨_, _, _, _, _, hreg, hlogin, issued_before_exp _ _ httl, ?_⟩
  intro tv hafter hfresh
  exact ⟨_, validateAccess_generated u.jwtService (envL.now 0) tv _ _ _
    (generateAccess_eq _ _ _ _) hafter hfresh, rfl, rfl⟩

theorem C3_register_then_login_witness :
    ∃ resp db1 access refresh db2,
      exampleUsecase.Register (quietEnv (7 * Second)) sessionDB
          { Email := "b@x.com", Password := "hunter22", FullName := "B" } = (.ok resp, db1) ∧
      exampleUsecase.Login (quietEnv (8 * Second)) db1
          { Email := "b@x.com", Password := "hunter22" } = (.ok (access, refresh, resp), db2) ∧
      (quietEnv (8 * Second)).now 0 <
        NumericDate.Time (NewNumericDate
          (((quietEnv (8 * Second)).now 0).Add exampleUsecase.jwtService.accessTTL)) ∧
      ∀ tv, (quietEnv (8 * Second)).now 0 ≤ tv →
        tv < NumericDate.Time (NewNumericDate
          (((quietEnv (8 * Second)).now 0).Add exampleUsecase.jwtService.accessTTL)) →
        ∃ claims, exampleUsecase.jwtService.ValidateAccessToken tv access = .ok claims ∧
          claims.UserID = resp.ID ∧ claims.Role = "user" :=
  C3_register_then_login exampleUsecase (quietEnv (7 * Second)) (quietEnv (8 * Second)) sessionDB
    { Email := "b@x.com", Password := "hunter22", FullName := "B" } "$2a$hunter22"
    rfl rfl rfl rfl (by decide) rfl (by decide) (by decide) (by decide)

/-- C3 fails as stated: with a (positive) access TTL of half a second,
Register at 5 s and Login at 6.2 s both succeed, yet the returned access token
carries `exp = 6` and is rejected as expired by ValidateAccessToken at the
very instant it was issued. -/
theorem C3_half_second_ttl_token_is_expired_at_issue :
    halfSecondUsecase.Register (quietEnv (5 * Second)) emptyDB
        { Email := "a@x.com", Password := "secret1", FullName := "A" } =
        (.ok aliceResponse, aliceDB) ∧
      (halfSecondUsecase.Login (quietEnv 6200000000) aliceDB
          { Email := "a@x.com", Password := "secret1" }).1 =
        .ok (staleAccess,
          .jws "HS256"
            { sub := 1, role := none, exp := some 604806, iat := some 6, nbf := some 6 }
            { key := hmacBlockKey "HS256" "refresh-secret", alg := "HS256",
              payload :=
                { sub := 1, role := none, exp := some 604806, iat := some 6, nbf := some 6 } },
          aliceResponse) ∧
      halfSecondUsecase.jwtService.ValidateAccessToken 6200000000 staleAccess =
        .error (.wrap "token has invalid claims" (.new "token is expired")) :=
  ⟨rfl, rfl, rfl⟩

/-! ## Login: inactive accounts -/

/-- C12: For the identity found for the email, when its status is not
`active`, Login with a password that verifies fails with
`user account is not active`, and Login with a password that does not verify
fails with `invalid credentials`; in both cases no token is returned and the
database, and so the Session Store, is unchanged. -/
theorem C12_login_inactive_account (u : authUsecase) (env : Env) (db : DB)
    (req : LoginRequest) (user : User) (hq : env.dbErr 0 = none)
    (hfound : db.users.find? (fun r => decide (r.Email = req.Email)) = some user)
    (hstatus : user.Status ≠ "active") :
    (u.passwordService.CheckPassword req.Password user.PasswordHash = true →
        u.Login env db req = (.error (.new "user account is not active"), db)) ∧
      (u.passwordService.CheckPassword req.Password user.PasswordHash = false →
        u.Login env db req = (.error (.new "invalid credentials"), db)) := by
  constructor
  · intro hpw
    simp [authUsecase.Login, hq, GetByEmail_found db req.Email user hfound, hpw, hstatus]
  · intro hpw
    simp [authUsecase.Login, hq, GetByEmail_found db req.Email user hfound, hpw]

theorem C12_login_inactive_account_witness :
    exampleUsecase.Login (quietEnv (6 * Second)) suspendedDB
        { Email := "s@x.com", Password := "secret1" } =
        (.error (.new "user account is not active"), suspendedDB) ∧
      exampleUsecase.Login (quietEnv (6 * Second)) suspendedDB
        { Email := "s@x.com", Password := "secret2" } =
        (.error (.new "invalid credentials"), suspendedDB) :=
  ⟨(C12_login_inactive_account exampleUsecase (quietEnv (6 * Second)) suspendedDB
      { Email := "s@x.com", Password := "secret1" }
      { ID := 1, Email := "s@x.com", PasswordHash := "$2a$secret1", FullName := "S",
        Role := "user", Status := "suspended", EmailVerifiedAt := none,
        CreatedAt := 5 * Second, UpdatedAt := 5 * Second }
      rfl (by decide) (by decide)).1 (by decide),
   (C12_login_inactive_account exampleUsecase (quietEnv (6 * Second)) suspendedDB
      { Email := "s@x.com", Password := "secret2" }
      { ID := 1, Email := "s@x.com", PasswordHash := "$2a$secret1", FullName := "S",
        Role := "user", Status := "suspended", EmailVerifiedAt := none,
        CreatedAt := 5 * Second, UpdatedAt := 5 * Second }
      rfl (by decide) (by decide)).2 (by decide)⟩

/-! ## Login: what a successful call did -/

theorem CreateRefreshToken_fault_none (fault : Option Err) (now : Time) (db db1 : DB)
    (token row : RefreshToken)
    (h : tokenRepository.CreateRefreshToken fault now db token = .ok (row, db1)) :
    fault = none := by
  cases fault with
  | none => rfl
  | some err => simp [tokenRepository.CreateRefreshToken, gormCreateRefreshToken] at h

/-- A successful insert of a session record with a zero key appends the
record, with the next key and the creation time stamped, and nothing else. -/
theorem CreateRefreshToken_inv_zero (fault : Option Err) (now : Time) (db db1 : DB)
    (token row : RefreshToken) (hid : token.ID = 0)
    (h : tokenRepository.CreateRefreshToken fault now db token = .ok (row, db1)) :
    (∀ r ∈ db.tokens, r.Token ≠ token.Token) ∧
      row = { token with
              ID := nextID (db.tokens.map RefreshToken.ID)
              CreatedAt := if token.CreatedAt.IsZero then now else token.CreatedAt } ∧
      db1 = { db with tokens := db.tokens ++ [row] } := by
  have hfresh := (CreateRefreshToken_inv fault now db db1 token row h).1
  have hnone := CreateRefreshToken_fault_none fault now db db1 token row h
  subst hnone
  rw [createRefreshToken_fresh now db token hid hfresh] at h
  simp only [Except.ok.injEq, Prod.mk.injEq] at h
  obtain ⟨hrow, hdb⟩ := h
  subst hrow
  exact ⟨hfresh, rfl, hdb.symm⟩

/-- A successful Login found an active identity whose password verified,
issued the two tokens for it and appended one session record. -/
theorem Login_ok_inv (u : authUsecase) (env : Env) (db db1 : DB) (req : LoginRequest)
    (access refresh : TokenString) (resp : UserResponse)
    (h : u.Login env db req = (.ok (access, refresh, resp), db1)) :
    ∃ user,
      db.users.find? (fun r => decide (r.Email = req.Email)) = some user ∧
      u.passwordService.CheckPassword req.Password user.PasswordHash = true ∧
      user.Status = "active" ∧
      u.jwtService.GenerateAccessToken (env.now 0) user.ID user.Role = .ok access ∧
      u.jwtService.GenerateRefreshToken (env.now 1) user.ID = .ok refresh ∧
      resp = user.ToResponse ∧
      (∀ r ∈ db.tokens, r.Token ≠ refresh) ∧
      db1 =
        { users := db.users
          tokens := db.tokens ++
            [{ ID := nextID (db.tokens.map RefreshToken.ID)
               UserID := user.ID
               Token := refresh
               ExpiresAt := env.now 2 + u.refreshTokenTTL
               Revoked := false
               CreatedAt := env.now 3 }]
          resets := db.resets } := by
  unfold authUsecase.Login at h
  cases hg : userRepository.GetByEmail (env.dbErr 0) db req.Email with
  | error err => simp [hg] at h
  | ok found =>
    cases found with
    | none => simp [hg] at h
    | some user =>
      simp only [hg] at h
      by_cases hpw : u.passwordService.CheckPassword req.Password user.PasswordHash = true
      · by_cases hst : user.Status = "active"
        · simp only [hpw, hst, Bool.not_true, Bool.false_eq_true, if_false, ne_eq,
            not_true_eq_false] at h
          cases ha : u.jwtService.GenerateAccessToken (env.now 0) user.ID user.Role with
          | error err => simp [ha] at h
          | ok accessToken =>
            simp only [ha] at h
            cases hn : u.jwtService.GenerateRefreshToken (env.now 1) user.ID with
            | error err => simp [hn] at h
            | ok refreshToken =>
              simp only [hn] at h
              cases hc : tokenRepository.CreateRefreshToken (env.dbErr 1) (env.now 3) db
                  { ID := 0, UserID := user.ID, Token := refreshToken,
                    ExpiresAt := (env.now 2).Add u.refreshTokenTTL, Revoked := false,
                    CreatedAt := zeroTime } with
              | error err => simp [hc] at h
              | ok created =>
                obtain ⟨row, dbc⟩ := created
                simp only [hc, Prod.mk.injEq, Except.ok.injEq] at h
                obtain ⟨⟨hacc, href, hresp⟩, hdb⟩ := h
                obtain ⟨hfresh, hrow, hdbc⟩ :=
                  CreateRefreshToken_inv_zero _ _ db dbc _ row rfl hc
                subst hacc href hresp hdb hdbc hrow
                refine ⟨user, GetByEmail_some_inv _ db req.Email user hg, hpw, hst, ha, hn,
                  rfl, hfresh, ?_⟩
                simp [isZero_zeroTime, Time.Add]
        · simp [hpw, hst] at h
      · simp [hpw] at h

/-- C13: A successful Login appends exactly one Session Token Record, whose
token string is the returned refresh token, whose identity id is the id of the
returned identity, with `revoked = false` and `expires_at = now + refresh_ttl`
(`now` being the clock reading taken for the record); the other session
records, the identities and the reset records are unchanged, and the new token
string was not in the store before. -/
theorem C13_login_adds_one_session (u : authUsecase) (env : Env) (db db1 : DB)
    (req : LoginRequest) (access refresh : TokenString) (resp : UserResponse)
    (h : u.Login env db req = (.ok (access, refresh, resp), db1)) :
    ∃ row,
      db1.tokens = db.tokens ++ [row] ∧ row.Token = refresh ∧ row.UserID = resp.ID ∧
      row.Revoked = false ∧ row.ExpiresAt = env.now 2 + u.refreshTokenTTL ∧
      db1.users = db.users ∧ db1.resets = db.resets ∧
      ∀ r ∈ db.tokens, r.Token ≠ refresh := by
  obtain ⟨user, _, _, _, _, _, hresp, hfresh, hdb⟩ :=
    Login_ok_inv u env db db1 req access refresh resp h
  subst hdb hresp
  exact ⟨_, rfl, rfl, rfl, rfl, rfl, rfl, rfl, hfresh⟩

theorem C13_login_adds_one_session_witness :
    ∃ row,
      sessionDB.tokens = aliceDB.tokens ++ [row] ∧ row.Token = aliceRefresh ∧
      row.UserID = aliceResponse.ID ∧ row.Revoked = false ∧
      row.ExpiresAt = (quietEnv (6 * Second)).now 2 + exampleUsecase.refreshTokenTTL ∧
      sessionDB.users = aliceDB.users ∧ sessionDB.resets = aliceDB.resets ∧
      ∀ r ∈ aliceDB.tokens, r.Token ≠ aliceRefresh :=
  C13_login_adds_one_session exampleUsecase (quietEnv (6 * Second)) aliceDB sessionDB
    { Email := "a@x.com", Password := "secret1" } aliceAccess aliceRefresh aliceResponse rfl

/-! ## RefreshToken: the order of the checks -/

theorem GetRefreshToken_absent (db : DB) (t : TokenString)
    (h : ∀ r ∈ db.tokens, r.Token ≠ t) :
    tokenRepository.GetRefreshToken none db t = .ok none := by
  have hfind : db.tokens.find? (fun r => decide (r.Token = t)) = none := by
    apply List.find?_eq_none.mpr
    intro r hr
    simpa using h r hr
  simp [tokenRepository.GetRefreshToken, gormFirst, hfind, errorsIs, ErrRecordNotFound]

theorem GetByID_absent (db : DB) (id : Nat) (h : ∀ r ∈ db.users, r.ID ≠ id) :
    userRepository.GetByID none db id = .ok none := by
  have hfind : db.users.find? (fun r => decide (r.ID = id)) = none := by
    apply List.find?_eq_none.mpr
    intro r hr
    simpa using h r hr
  simp [userRepository.GetByID, gormFirst, hfind, errorsIs, ErrRecordNotFound]

theorem GetByID_found (db : DB) (id : Nat) (user : User)
    (h : db.users.find? (fun r => decide (r.ID = id)) = some user) :
    userRepository.GetByID none db id = .ok (some user) := by
  simp [userRepository.GetByID, gormFirst, h]

/-- C14: With working lookups, RefreshToken reports the first failing check,
in this order: a token rejected by the codec gives `invalid refresh token`
(wrapping the codec error); no record with that token string gives
`refresh token not found`; a revoked record gives `refresh token is revoked`;
a record whose `expires_at` has passed gives `refresh token is expired`; no
identity with the subject of the claims gives `user not found`.  In each of
the five cases the database is unchanged. -/
theorem C14_refresh_failure_order (u : authUsecase) (env : Env) (db : DB) (t : TokenString)
    (hq0 : env.dbErr 0 = none) (hq1 : env.dbErr 1 = none) :
    (∀ err, u.jwtService.ValidateRefreshToken (env.now 0) t = .error err →
        u.RefreshToken env db t = (.error (.wrap "invalid refresh token" err), db)) ∧
      ∀ claims, u.jwtService.ValidateRefreshToken (env.now 0) t = .ok claims →
        ((∀ r ∈ db.tokens, r.Token ≠ t) →
          u.RefreshToken env db t = (.error (.new "refresh token not found"), db)) ∧
        ∀ row, db.tokens.find? (fun r => decide (r.Token = t)) = some row →
          (row.Revoked = true →
            u.RefreshToken env db t = (.error (.new "refresh token is revoked"), db)) ∧
          (row.Revoked = false → row.ExpiresAt < env.now 1 →
            u.RefreshToken env db t = (.error (.new "refresh token is expired"), db)) ∧
          (row.Revoked = false → ¬ row.ExpiresAt < env.now 1 →
            (∀ r ∈ db.users, r.ID ≠ claims.UserID) →
            u.RefreshToken env db t = (.error (.new "user not found"), db)) := by
  refine ⟨?_, ?_⟩
  · intro err hv
    simp [authUsecase.RefreshToken, hv]
  · intro claims hv
    refine ⟨?_, ?_⟩
    · intro habsent
      simp [authUsecase.RefreshToken, hv, hq0, GetRefreshToken_absent db t habsent]
    · intro row hfind
      refine ⟨?_, ?_, ?_⟩
      · intro hrev
        simp [authUsecase.RefreshToken, hv, hq0, GetRefreshToken_found db t row hfind, hrev]
      · intro hrev hexp
        simp [authUsecase.RefreshToken, hv, hq0, GetRefreshToken_found db t row hfind, hrev,
          Time.Before, hexp]
      · intro hrev hexp hnouser
        simp [authUsecase.RefreshToken, hv, hq0, hq1, GetRefreshToken_found db t row hfind,
          hrev, Time.Before, hexp, GetByID_absent db claims.UserID hnouser]

theorem C14_refresh_failure_order_witness :
    exampleUsecase.RefreshToken (quietEnv (7 * Second)) sessionDB (.raw "garbage" "") =
        (.error (.wrap "invalid refresh token"
          (.wrap "token is malformed" (.new "token contains an invalid number of segments"))),
         sessionDB) ∧
      exampleUsecase.RefreshToken (quietEnv (7 * Second)) aliceDB aliceRefresh =
        (.error (.new "refresh token not found"), aliceDB) ∧
      exampleUsecase.RefreshToken (quietEnv (8 * Second)) rotatedDB aliceRefresh =
        (.error (.new "refresh token is revoked"), rotatedDB) ∧
      exampleUsecase.RefreshToken (quietEnv (11 * Second)) shortSessionDB aliceRefresh =
        (.error (.new "refresh token is expired"), shortSessionDB) ∧
      exampleUsecase.RefreshToken (quietEnv (7 * Second)) orphanDB aliceRefresh =
        (.error (.new "user not found"), orphanDB) :=
  ⟨(C14_refresh_failure_order exampleUsecase (quietEnv (7 * Second)) sessionDB
      (.raw "garbage" "") rfl rfl).1
      (.wrap "token is malformed" (.new "token contains an invalid number of segments")) rfl,
   ((C14_refresh_failure_order exampleUsecase (quietEnv (7 * Second)) aliceDB aliceRefresh
      rfl rfl).2
      { UserID := 1, ExpiresAt := some 604806, IssuedAt := some 6, NotBefore := some 6 }
      (by rfl)).1 (by decide),
   (((C14_refresh_failure_order exampleUsecase (quietEnv (8 * Second)) rotatedDB aliceRefresh
      rfl rfl).2
      { UserID := 1, ExpiresAt := some 604806, IssuedAt := some 6, NotBefore := some 6 }
      (by rfl)).2
      { ID := 1, UserID := 1, Token := aliceRefresh, ExpiresAt := 604806 * Second,
        Revoked := true, CreatedAt := 6 * Second } (by decide)).1 rfl,
   (((C14_refresh_failure_order exampleUsecase (quietEnv (11 * Second)) shortSessionDB
      aliceRefresh rfl rfl).2
      { UserID := 1, ExpiresAt := some 604806, IssuedAt := some 6, NotBefore := some 6 }
      (by rfl)).2
      { ID := 1, UserID := 1, Token := aliceRefresh, ExpiresAt := 10 * Second,
        Revoked := false, CreatedAt := 6 * Second } (by decide)).2.1 rfl (by decide),
   (((C14_refresh_failure_order exampleUsecase (quietEnv (7 * Second)) orphanDB aliceRefresh
      rfl rfl).2
      { UserID := 1, ExpiresAt := some 604806, IssuedAt := some 6, NotBefore := some 6 }
      (by rfl)).2
      { ID := 1, UserID := 1, Token := aliceRefresh, ExpiresAt := 604806 * Second,
        Revoked := false, CreatedAt := 6 * Second } (by decide)).2.2 rfl (by decide)
      (by decide)⟩

/-! ## RefreshToken: the effect of a successful call -/

/-- C15: A successful RefreshToken on token string `t` leaves every record of
`t` revoked, changes no other record, and appends exactly one Session Token
Record, with `revoked = false`, identity id equal to the subject of the
claims, `expires_at = now + refresh_ttl` and the returned refresh token as its
token string; the returned access token is an HS256 token whose subject is
that identity's id and whose role is the identity's role in the store. -/
theorem C15_refresh_effect (u : authUsecase) (env : Env) (db db2 : DB) (t : TokenString)
    (res : TokenString × TokenString) (h : u.RefreshToken env db t = (.ok res, db2)) :
    ∃ claims user row,
      u.jwtService.ValidateRefreshToken (env.now 0) t = .ok claims ∧
      db.users.find? (fun r => decide (r.ID = claims.UserID)) = some user ∧
      user.ID = claims.UserID ∧
      (∃ payload sig, res.1 = .jws "HS256" payload sig ∧ payload.sub = claims.UserID ∧
        payload.role = some user.Role) ∧
      db2.tokens =
        (db.tokens.map fun r => if decide (r.Token = t) then { r with Revoked := true } else r)
          ++ [row] ∧
      row.Token = res.2 ∧ row.UserID = claims.UserID ∧ row.Revoked = false ∧
      row.ExpiresAt = env.now 4 + u.refreshTokenTTL ∧
      (∀ r ∈ db.tokens, r.Token ≠ res.2) ∧
      SessionRevoked db2 t ∧ db2.users = db.users ∧ db2.resets = db.resets := by
  have hrevoked := revoked_after_rotation u env db db2 t res h
  obtain ⟨claims, tokenEntity, user, row, hv, _, _, _, hu, ha, _, hc⟩ :=
    RefreshToken_ok_inv u env db db2 t res h
  have hfindU := GetByID_some_inv _ db claims.UserID user hu
  have hid : user.ID = claims.UserID := by simpa using List.find?_some hfindU
  obtain ⟨hfresh, hrow, hdb2⟩ := CreateRefreshToken_inv_zero _ _ _ db2 _ row rfl hc
  rw [generateAccess_eq] at ha
  simp only [Except.ok.injEq] at ha
  subst hdb2
  refine ⟨claims, user, row, hv, hfindU, hid, ⟨_, _, ha.symm, hid, rfl⟩, rfl, ?_, ?_, ?_, ?_, ?_,
    hrevoked, rfl, rfl⟩
  · rw [hrow]
  · rw [hrow]
    exact hid
  · rw [hrow]
  · rw [hrow]
    rfl
  · intro r hr heq
    have hm : (if decide (r.Token = t) then { r with Revoked := true } else r) ∈
        db.tokens.map (fun r => if decide (r.Token = t) then { r with Revoked := true } else r) :=
      List.mem_map_of_mem _ hr
    apply hfresh _ hm
    simp only
    split <;> exact heq

theorem C15_refresh_effect_witness :
    ∃ claims user row,
      exampleUsecase.jwtService.ValidateRefreshToken ((quietEnv (7 * Second)).now 0)
        aliceRefresh = .ok claims ∧
      sessionDB.users.find? (fun r => decide (r.ID = claims.UserID)) = some user ∧
      user.ID = claims.UserID ∧
      (∃ payload sig, rotatedPair.1 = .jws "HS256" payload sig ∧
        payload.sub = claims.UserID ∧ payload.role = some user.Role) ∧
      rotatedDB.tokens =
        (sessionDB.tokens.map fun r =>
          if decide (r.Token = aliceRefresh) then { r with Revoked := true } else r) ++ [row] ∧
      row.Token = rotatedPair.2 ∧ row.UserID = claims.UserID ∧ row.Revoked = false ∧
      row.ExpiresAt = (quietEnv (7 * Second)).now 4 + exampleUsecase.refreshTokenTTL ∧
      (∀ r ∈ sessionDB.tokens, r.Token ≠ rotatedPair.2) ∧
      SessionRevoked rotatedDB aliceRefresh ∧ rotatedDB.users = sessionDB.users ∧
      rotatedDB.resets = sessionDB.resets :=
  C15_refresh_effect exampleUsecase (quietEnv (7 * Second)) sessionDB rotatedDB aliceRefresh
    rotatedPair rfl

/-! ## ResetPassword: the effect of a successful call -/

theorem GetByToken_absent (db : DB) (token : String) (h : ∀ r ∈ db.resets, r.Token ≠ token) :
    passwordResetRepository.GetByToken none db token = .ok none := by
  have hfind : db.resets.find? (fun r => decide (r.Token = token)) = none := by
    apply List.find?_eq_none.mpr
    intro r hr
    simpa using h r hr
  simp [passwordResetRepository.GetByToken, gormFirst, hfind, errorsIs, ErrRecordNotFound]

/-- C16 (as amended): A successful ResetPassword found an unused, unexpired
record for the token string and the identity of its email; it replaces that
identity by itself with `password_hash` set to the digest `h` returned by the
hasher for the new password and `updated_at` set to the time of the update,
every other field kept; it marks the records of the token string used; and
if the hasher verifies the new password against `h`, CheckPassword holds for
the stored hash afterwards.  With a token string that matches no record (and
a working lookup) it fails with `invalid reset token` and changes nothing. -/
theorem C16_reset_password_effect (u : authUsecase) (env : Env) (db : DB)
    (token newPassword : String) :
    (∀ db3, u.ResetPassword env db token newPassword = (.ok (), db3) →
        ∃ reset user h,
          db.resets.find? (fun r => decide (r.Token = token)) = some reset ∧
          reset.Used = false ∧ ¬ reset.ExpiresAt < env.now 0 ∧
          db.users.find? (fun r => decide (r.Email = reset.Email)) = some user ∧
          u.passwordService.HashPassword env.rand newPassword = .ok h ∧
          db3.users = (db.users.map fun r =>
            if r.ID = user.ID then { user with PasswordHash := h, UpdatedAt := env.now 1 }
            else r) ∧
          db3.resets = (db.resets.map fun r =>
            if decide (r.Token = token) then { r with Used := true } else r) ∧
          (u.passwordService.CheckPassword newPassword h = true →
            ∀ r ∈ db3.users, r.ID = user.ID →
              u.passwordService.CheckPassword newPassword r.PasswordHash = true)) ∧
      (env.dbErr 0 = none → (∀ r ∈ db.resets, r.Token ≠ token) →
        u.ResetPassword env db token newPassword =
          (.error (.new "invalid reset token"), db)) := by
  constructor
  · intro db3 h
    obtain ⟨reset, user, hashed, hrec, hexp, hused, huser, hhash, _, hdb3⟩ :=
      ResetPassword_ok_inv u env db db3 token newPassword h
    subst hdb3
    refine ⟨reset, user, hashed, hrec, hused, hexp, huser, hhash, rfl, rfl, ?_⟩
    intro hlaw r hr hid
    obtain ⟨r0, _, hmap⟩ := List.mem_map.mp hr
    by_cases h0 : r0.ID = user.ID
    · simp only [h0, if_true] at hmap
      rw [← hmap]
      exact hlaw
    · simp only [h0, if_false] at hmap
      rw [← hmap] at hid
      exact absurd hid h0
  · intro hq habsent
    simp [authUsecase.ResetPassword, hq, GetByToken_absent db token habsent]

theorem C16_reset_password_effect_witness :
    (∃ reset user h,
        resetPendingDB.resets.find? (fun r => decide (r.Token = "3f2c9a1e-reset")) =
          some reset ∧
        reset.Used = false ∧ ¬ reset.ExpiresAt < (quietEnv (10 * Second)).now 0 ∧
        resetPendingDB.users.find? (fun r => decide (r.Email = reset.Email)) = some user ∧
        exampleUsecase.passwordService.HashPassword (quietEnv (10 * Second)).rand "newpass" =
          .ok h ∧
        afterResetDB.users = (resetPendingDB.users.map fun r =>
          if r.ID = user.ID then
            { user with PasswordHash := h, UpdatedAt := (quietEnv (10 * Second)).now 1 }
          else r) ∧
        afterResetDB.resets = (resetPendingDB.resets.map fun r =>
          if decide (r.Token = "3f2c9a1e-reset") then { r with Used := true } else r) ∧
        (exampleUsecase.passwordService.CheckPassword "newpass" h = true →
          ∀ r ∈ afterResetDB.users, r.ID = user.ID →
            exampleUsecase.passwordService.CheckPassword "newpass" r.PasswordHash = true)) ∧
      exampleUsecase.ResetPassword (quietEnv (10 * Second)) resetPendingDB "no-such-token"
          "newpass" =
        (.error (.new "invalid reset token"), resetPendingDB) :=
  ⟨(C16_reset_password_effect exampleUsecase (quietEnv (10 * Second)) resetPendingDB
      "3f2c9a1e-reset" "newpass").1 afterResetDB rfl,
   (C16_reset_password_effect exampleUsecase (quietEnv (10 * Second)) resetPendingDB
      "no-such-token" "newpass").2 rfl (by decide)⟩

/-- C16 fails as stated: the successful ResetPassword at 10 s also changes the
identity's `updated_at`, from 5 s to 10 s. -/
theorem C16_reset_changes_updated_at :
    exampleUsecase.ResetPassword (quietEnv (10 * Second)) resetPendingDB "3f2c9a1e-reset"
        "newpass" = (.ok (), afterResetDB) ∧
      resetPendingDB.users.map User.UpdatedAt = [5 * Second] ∧
      afterResetDB.users.map User.UpdatedAt = [10 * Second] ∧
      resetPendingDB.users.map User.UpdatedAt ≠ afterResetDB.users.map User.UpdatedAt :=
  ⟨rfl, rfl, rfl, by decide⟩

/-! ## Logout -/

theorem map_revoke_of_absent (rows : List RefreshToken) (t : TokenString)
    (h : ∀ r ∈ rows, r.Token ≠ t) :
    (rows.map fun r => if decide (r.Token = t) then { r with Revoked := true } else r) =
      rows := by
  induction rows with
  | nil => rfl
  | cons a rest ih =>
    have ha : a.Token ≠ t := h a (List.mem_cons_self _ _)
    have hrest := ih (fun r hr => h r (List.mem_cons_of_mem _ hr))
    simp only [List.map_cons, hrest]
    simp [ha]

theorem map_revoke_twice (rows : List RefreshToken) (t : TokenString) :
    ((rows.map fun r => if decide (r.Token = t) then { r with Revoked := true } else r).map
        fun r => if decide (r.Token = t) then { r with Revoked := true } else r) =
      rows.map fun r => if decide (r.Token = t) then { r with Revoked := true } else r := by
  rw [List.map_map]
  apply List.map_congr_left
  intro r _
  by_cases h : r.Token = t <;> simp [h]

theorem Logout_working (u : authUsecase) (env : Env) (db : DB) (userID : Nat)
    (t : TokenString) (hq : env.dbErr 0 = none) :
    u.Logout env db userID t =
      (.ok (),
       { db with
         tokens := db.tokens.map fun r =>
           if decide (r.Token = t) then { r with Revoked := true } else r }) := by
  simp [authUsecase.Logout, tokenRepository.RevokeRefreshToken, gormUpdate, hq]

/-- C17: With a working store, Logout returns success and sets
`revoked = true` on every Session Token Record whose token string equals the
given refresh token, leaving every other record and table as it was; when no
record matches the database is unchanged; and a second Logout with the same
token string, whatever its user id, returns success and changes nothing
more. -/
theorem C17_logout_revokes_idempotent (u : authUsecase) (env1 env2 : Env) (db : DB)
    (userID1 userID2 : Nat) (t : TokenString)
    (hq1 : env1.dbErr 0 = none) (hq2 : env2.dbErr 0 = none) :
    u.Logout env1 db userID1 t =
        (.ok (),
         { db with
           tokens := db.tokens.map fun r =>
             if decide (r.Token = t) then { r with Revoked := true } else r }) ∧
      ((∀ r ∈ db.tokens, r.Token ≠ t) → u.Logout env1 db userID1 t = (.ok (), db)) ∧
      u.Logout env2 (u.Logout env1 db userID1 t).2 userID2 t =
        (.ok (), (u.Logout env1 db userID1 t).2) := by
  refine ⟨Logout_working u env1 db userID1 t hq1, ?_, ?_⟩
  · intro habsent
    rw [Logout_working u env1 db userID1 t hq1, map_revoke_of_absent db.tokens t habsent]
  · rw [Logout_working u env1 db userID1 t hq1, Logout_working u env2 _ userID2 t hq2]
    simp only [map_revoke_twice]

theorem C17_logout_revokes_idempotent_witness :
    exampleUsecase.Logout (quietEnv (7 * Second)) sessionDB 1 aliceRefresh =
        (.ok (),
         { sessionDB with
           tokens := sessionDB.tokens.map fun r =>
             if decide (r.Token = aliceRefresh) then { r with Revoked := true } else r }) ∧
      exampleUsecase.Logout (quietEnv (7 * Second)) aliceDB 1 aliceRefresh = (.ok (), aliceDB) ∧
      exampleUsecase.Logout (quietEnv (8 * Second))
          (exampleUsecase.Logout (quietEnv (7 * Second)) sessionDB 1 aliceRefresh).2 2
          aliceRefresh =
        (.ok (), (exampleUsecase.Logout (quietEnv (7 * Second)) sessionDB 1 aliceRefresh).2) :=
  ⟨(C17_logout_revokes_idempotent exampleUsecase (quietEnv (7 * Second))
      (quietEnv (8 * Second)) sessionDB 1 2 aliceRefresh rfl rfl).1,
   (C17_logout_revokes_idempotent exampleUsecase (quietEnv (7 * Second))
      (quietEnv (8 * Second)) aliceDB 1 2 aliceRefresh rfl rfl).2.1 (by decide),
   (C17_logout_revokes_idempotent exampleUsecase (quietEnv (7 * Second))
      (quietEnv (8 * Second)) sessionDB 1 2 aliceRefresh rfl rfl).2.2⟩

/-! ## Token codec: the two secrets -/

/-- Two keys of at most 64 bytes without NUL bytes that differ have different
HS256 key blocks. -/
theorem hmacBlockKey_ne_of_short (a b : String) (ha : (stringBytes a).length ≤ 64)
    (hb : (stringBytes b).length ≤ 64) (ha0 : 0 ∉ stringBytes a) (hb0 : 0 ∉ stringBytes b)
    (hne : stringBytes a ≠ stringBytes b) :
    hmacBlockKey "HS256" a ≠ hmacBlockKey "HS256" b := by
  have hpad : ∀ (k k1 : List Nat) (n n1 : Nat), 0 ∉ k → 0 ∉ k1 →
      k ++ List.replicate n 0 = k1 ++ List.replicate n1 0 → k = k1 := by
    intro k
    induction k with
    | nil =>
      intro k1 n n1 _ h1 h
      cases k1 with
      | nil => rfl
      | cons x xs =>
        exfalso
        have hx : x ≠ 0 := fun hx => h1 (by simp [hx])
        cases n with
        | zero => simp at h
        | succ m =>
          simp only [List.nil_append, List.replicate_succ, List.cons_append,
            List.cons.injEq] at h
          exact hx h.1.symm
    | cons y ys ih =>
      intro k1 n n1 h0 h1 h
      cases k1 with
      | nil =>
        exfalso
        have hy : y ≠ 0 := fun hy => h0 (by simp [hy])
        cases n1 with
        | zero => simp at h
        | succ m =>
          simp only [List.nil_append, List.replicate_succ, List.cons_append,
            List.cons.injEq] at h
          exact hy h.1
      | cons x xs =>
        simp only [List.cons_append, List.cons.injEq] at h
        have := ih xs n n1 (fun hm => h0 (List.mem_cons_of_mem _ hm))
          (fun hm => h1 (List.mem_cons_of_mem _ hm)) h.2
        rw [h.1, this]
  intro h
  apply hne
  simp only [hmacBlockKey, if_true] at h
  rw [if_neg (by omega), if_neg (by omega)] at h
  exact hpad _ _ _ _ ha0 hb0 h

/-- C18 (as amended): For a codec built by NewJWTService from two secrets
whose HS256 key blocks differ (the key block is the secret padded with zero
bytes to 64 bytes, or its SHA-256 digest so padded when the secret is longer
than 64 bytes), a token produced by GenerateAccessToken is rejected by
ValidateRefreshToken and a token produced by GenerateRefreshToken is rejected
by ValidateAccessToken, at every verification time, with
`token signature is invalid`.  HMAC tags are symbolic terms: two tags are
equal exactly when their key block, algorithm and message are. -/
theorem C18_distinct_secrets_reject (accessSecret refreshSecret : String)
    (accessTTL refreshTTL : Duration) (now tv : Time) (userID : Nat) (role : String)
    (access refresh : TokenString)
    (hne : hmacBlockKey "HS256" accessSecret ≠ hmacBlockKey "HS256" refreshSecret)
    (hA : (NewJWTService accessSecret refreshSecret accessTTL refreshTTL).GenerateAccessToken
      now userID role = .ok access)
    (hR : (NewJWTService accessSecret refreshSecret accessTTL refreshTTL).GenerateRefreshToken
      now userID = .ok refresh) :
    (NewJWTService accessSecret refreshSecret accessTTL refreshTTL).ValidateRefreshToken tv
        access =
        .error (.wrap "token signature is invalid" (.new "signature is invalid")) ∧
      (NewJWTService accessSecret refreshSecret accessTTL refreshTTL).ValidateAccessToken tv
        refresh =
        .error (.wrap "token signature is invalid" (.new "signature is invalid")) := by
  rw [generateAccess_eq] at hA
  rw [generateRefresh_eq] at hR
  simp only [Except.ok.injEq] at hA hR
  subst hA hR
  constructor
  · simp [jwtService.ValidateRefreshToken, ParseWithClaims, getSigningMethod_HS256,
      hmacKeyFunc, SigningMethod.isHMAC, SigningMethod.Verify, NewJWTService, hne]
  · simp [jwtService.ValidateAccessToken, ParseWithClaims, getSigningMethod_HS256,
      hmacKeyFunc, SigningMethod.isHMAC, SigningMethod.Verify, NewJWTService, Ne.symm hne]

theorem C18_distinct_secrets_reject_witness :
    exampleUsecase.jwtService.ValidateRefreshToken (7 * Second) aliceAccess =
        .error (.wrap "token signature is invalid" (.new "signature is invalid")) ∧
      exampleUsecase.jwtService.ValidateAccessToken (7 * Second) aliceRefresh =
        .error (.wrap "token signature is invalid" (.new "signature is invalid")) :=
  C18_distinct_secrets_reject "access-secret" "refresh-secret" (900 * Second) (168 * Hour)
    (6 * Second) (7 * Second) 1 "user" aliceAccess aliceRefresh
    (hmacBlockKey_ne_of_short "access-secret" "refresh-secret" (by decide) (by decide)
      (by decide) (by decide) (by decide))
    rfl rfl

/-- C18 fails as stated: NewJWTService accepts equal secrets, and then the
access token issued at 6 s passes ValidateRefreshToken and the refresh token
issued at 6 s passes ValidateAccessToken (with an empty role).  The same
happens with two different secrets that have the same key block: the access
token issued under `access-secret` passes ValidateRefreshToken of a codec
whose refresh secret is that string followed by a NUL byte. -/
theorem C18_equal_secrets_cross_accept :
    sharedSecretService.GenerateAccessToken (6 * Second) 1 "user" = .ok sharedAccess ∧
      sharedSecretService.ValidateRefreshToken (7 * Second) sharedAccess =
        .ok { UserID := 1, ExpiresAt := some 906, IssuedAt := some 6, NotBefore := some 6 } ∧
      sharedSecretService.GenerateRefreshToken (6 * Second) 1 = .ok sharedRefresh ∧
      sharedSecretService.ValidateAccessToken (7 * Second) sharedRefresh =
        .ok { UserID := 1, Role := "", ExpiresAt := some 604806, IssuedAt := some 6,
              NotBefore := some 6 } ∧
      nulPaddedService.accessSecret ≠ nulPaddedService.refreshSecret ∧
      nulPaddedService.GenerateAccessToken (6 * Second) 1 "user" = .ok aliceAccess ∧
      nulPaddedService.ValidateRefreshToken (7 * Second) aliceAccess =
        .ok { UserID := 1, ExpiresAt := some 906, IssuedAt := some 6, NotBefore := some 6 } :=
  ⟨rfl, rfl, rfl, rfl, by decide, rfl, by rfl⟩

/-! ## Token codec: expiry and the signing method -/

theorem Validate_expired_fails (now : Time) (payload : Payload) (e : Int)
    (hexp : payload.exp = some e) (hpast : NumericDate.Time e ≤ now) :
    ∃ err, Validator.Validate now payload = .error err := by
  have hnot : ¬ now < NumericDate.Time e := not_lt.mpr hpast
  simp only [Validator.Validate, hexp, Time.Before, hnot, decide_False, Bool.false_eq_true,
    if_false, List.singleton_append]
  exact ⟨_, rfl⟩

/-- An expired payload whose `nbf` is absent or not in the future fails with
`token is expired` alone. -/
theorem Validate_expired (now : Time) (payload : Payload) (e : Int)
    (hexp : payload.exp = some e) (hpast : NumericDate.Time e ≤ now)
    (hnbf : ∀ n, payload.nbf = some n → NumericDate.Time n ≤ now) :
    Validator.Validate now payload =
      .error (.wrap "token has invalid claims" (.new "token is expired")) := by
  have hnot : ¬ now < NumericDate.Time e := not_lt.mpr hpast
  cases hn : payload.nbf with
  | none => simp [Validator.Validate, hexp, hn, Time.Before, hnot, joinErrors]
  | some n =>
    have hn1 : ¬ now < NumericDate.Time n := not_lt.mpr (hnbf n hn)
    simp [Validator.Validate, hexp, hn, Time.Before, hnot, hn1, joinErrors]

/-- An expired payload whose `nbf` is still in the future fails with both
failures joined. -/
theorem Validate_expired_early (now : Time) (payload : Payload) (e n : Int)
    (hexp : payload.exp = some e) (hpast : NumericDate.Time e ≤ now)
    (hn : payload.nbf = some n) (hearly : now < NumericDate.Time n) :
    Validator.Validate now payload =
      .error (.wrap "token has invalid claims"
        (.join (.new "token is expired") (.new "token is not valid yet"))) := by
  have hnot : ¬ now < NumericDate.Time e := not_lt.mpr hpast
  simp [Validator.Validate, hexp, hn, Time.Before, hnot, hearly, joinErrors]

theorem ParseWithClaims_expired (now : Time) (alg : String) (payload : Payload) (sig : Mac)
    (keyFunc : Token → Except Err String) (e : Int) (hexp : payload.exp = some e)
    (hpast : NumericDate.Time e ≤ now) :
    ∃ err, ParseWithClaims now (.jws alg payload sig) keyFunc = .error err := by
  unfold ParseWithClaims
  simp only
  cases hm : GetSigningMethod alg with
  | none => exact ⟨_, rfl⟩
  | some method =>
    simp only
    cases hk : keyFunc
        { Method := method, alg := alg, Claims := payload, Signature := sig, Valid := false } with
    | error err => exact ⟨_, rfl⟩
    | ok key =>
      simp only
      cases hver : method.Verify alg payload sig key with
      | error err => exact ⟨_, rfl⟩
      | ok _ =>
        obtain ⟨err, herr⟩ := Validate_expired_fails now payload e hexp hpast
        simp only [herr]
        exact ⟨_, rfl⟩

theorem ParseWithClaims_signed (now : Time) (alg : String) (payload : Payload)
    (secret : String) (hm : GetSigningMethod alg = some (.HMAC alg)) (err : Err)
    (hv : Validator.Validate now payload = .error err) :
    ParseWithClaims now (.jws alg payload { key := hmacBlockKey alg secret, alg := alg, payload := payload })
        (hmacKeyFunc secret) = .error err := by
  simp [ParseWithClaims, hm, hmacKeyFunc, SigningMethod.isHMAC, SigningMethod.Verify, hv]

/-- C19: A token whose `exp` claim is not after the verification time is
rejected, without claims, by ValidateAccessToken and by ValidateRefreshToken,
whatever its header and signature.  When it is an HMAC token correctly signed
with the corresponding secret, the error is the validator's
`token has invalid claims: token is expired` if its `nbf` is absent or not in
the future, and `token has invalid claims: token is expired, token is not
valid yet` if its `nbf` is still in the future. -/
theorem C19_expired_token_rejected (s : jwtService) (now : Time) (alg : String)
    (payload : Payload) (sig : Mac) (e : Int) (hexp : payload.exp = some e)
    (hpast : NumericDate.Time e ≤ now) :
    (∃ err, s.ValidateAccessToken now (.jws alg payload sig) = .error err) ∧
      (∃ err, s.ValidateRefreshToken now (.jws alg payload sig) = .error err) ∧
      (GetSigningMethod alg = some (.HMAC alg) →
        ((∀ n, payload.nbf = some n → NumericDate.Time n ≤ now) →
          s.ValidateAccessToken now
              (.jws alg payload { key := hmacBlockKey alg s.accessSecret, alg := alg, payload := payload }) =
            .error (.wrap "token has invalid claims" (.new "token is expired")) ∧
          s.ValidateRefreshToken now
              (.jws alg payload { key := hmacBlockKey alg s.refreshSecret, alg := alg, payload := payload }) =
            .error (.wrap "token has invalid claims" (.new "token is expired"))) ∧
        ∀ n, payload.nbf = some n → now < NumericDate.Time n →
          s.ValidateAccessToken now
              (.jws alg payload { key := hmacBlockKey alg s.accessSecret, alg := alg, payload := payload }) =
            .error (.wrap "token has invalid claims"
              (.join (.new "token is expired") (.new "token is not valid yet"))) ∧
          s.ValidateRefreshToken now
              (.jws alg payload { key := hmacBlockKey alg s.refreshSecret, alg := alg, payload := payload }) =
            .error (.wrap "token has invalid claims"
              (.join (.new "token is expired") (.new "token is not valid yet")))) := by
  refine ⟨?_, ?_, ?_⟩
  · obtain ⟨err, herr⟩ := ParseWithClaims_expired now alg payload sig
      (hmacKeyFunc s.accessSecret) e hexp hpast
    exact ⟨err, by simp [jwtService.ValidateAccessToken, herr]⟩
  · obtain ⟨err, herr⟩ := ParseWithClaims_expired now alg payload sig
      (hmacKeyFunc s.refreshSecret) e hexp hpast
    exact ⟨err, by simp [jwtService.ValidateRefreshToken, herr]⟩
  · intro hm
    constructor
    · intro hnbf
      have hv := Validate_expired now payload e hexp hpast hnbf
      constructor
      · simp [jwtService.ValidateAccessToken,
          ParseWithClaims_signed now alg payload s.accessSecret hm _ hv]
      · simp [jwtService.ValidateRefreshToken,
          ParseWithClaims_signed now alg payload s.refreshSecret hm _ hv]
    · intro n hn hearly
      have hv := Validate_expired_early now payload e n hexp hpast hn hearly
      constructor
      · simp [jwtService.ValidateAccessToken,
          ParseWithClaims_signed now alg payload s.accessSecret hm _ hv]
      · simp [jwtService.ValidateRefreshToken,
          ParseWithClaims_signed now alg payload s.refreshSecret hm _ hv]

theorem C19_expired_token_rejected_witness :
    (∃ err, exampleUsecase.jwtService.ValidateAccessToken (907 * Second) aliceAccess =
        .error err) ∧
      (∃ err, exampleUsecase.jwtService.ValidateRefreshToken (907 * Second) aliceAccess =
        .error err) ∧
      exampleUsecase.jwtService.ValidateAccessToken (907 * Second) aliceAccess =
        .error (.wrap "token has invalid claims" (.new "token is expired")) ∧
      exampleUsecase.jwtService.ValidateRefreshToken (604806 * Second) aliceRefresh =
        .error (.wrap "token has invalid claims" (.new "token is expired")) ∧
      exampleUsecase.jwtService.ValidateRefreshToken (907 * Second)
          (.jws "HS256" { sub := 1, role := none, exp := some 906, iat := some 6, nbf := some 2000 }
            { key := hmacBlockKey "HS256" "refresh-secret", alg := "HS256",
              payload :=
                { sub := 1, role := none, exp := some 906, iat := some 6, nbf := some 2000 } }) =
        .error (.wrap "token has invalid claims"
          (.join (.new "token is expired") (.new "token is not valid yet"))) :=
  ⟨(C19_expired_token_rejected exampleUsecase.jwtService (907 * Second) "HS256"
      { sub := 1, role := some "user", exp := some 906, iat := some 6, nbf := some 6 }
      { key := hmacBlockKey "HS256" "access-secret", alg := "HS256",
        payload :=
          { sub := 1, role := some "user", exp := some 906, iat := some 6, nbf := some 6 } }
      906 rfl (by decide)).1,
   (C19_expired_token_rejected exampleUsecase.jwtService (907 * Second) "HS256"
      { sub := 1, role := some "user", exp := some 906, iat := some 6, nbf := some 6 }
      { key := hmacBlockKey "HS256" "access-secret", alg := "HS256",
        payload :=
          { sub := 1, role := some "user", exp := some 906, iat := some 6, nbf := some 6 } }
      906 rfl (by decide)).2.1,
   (((C19_expired_token_rejected exampleUsecase.jwtService (907 * Second) "HS256"
      { sub := 1, role := some "user", exp := some 906, iat := some 6, nbf := some 6 }
      { key := hmacBlockKey "HS256" "access-secret", alg := "HS256",
        payload :=
          { sub := 1, role := some "user", exp := some 906, iat := some 6, nbf := some 6 } }
      906 rfl (by decide)).2.2 (by decide)).1
      (by
        intro n hn
        cases hn
        decide)).1,
   (((C19_expired_token_rejected exampleUsecase.jwtService (604806 * Second) "HS256"
      { sub := 1, role := none, exp := some 604806, iat := some 6, nbf := some 6 }
      { key := hmacBlockKey "HS256" "refresh-secret", alg := "HS256",
        payload := { sub := 1, role := none, exp := some 604806, iat := some 6, nbf := some 6 } }
      604806 rfl (by decide)).2.2 (by decide)).1
      (by
        intro n hn
        cases hn
        decide)).2,
   (((C19_expired_token_rejected exampleUsecase.jwtService (907 * Second) "HS256"
      { sub := 1, role := none, exp := some 906, iat := some 6, nbf := some 2000 }
      { key := hmacBlockKey "HS256" "refresh-secret", alg := "HS256",
        payload :=
          { sub := 1, role := none, exp := some 906, iat := some 6, nbf := some 2000 } }
      906 rfl (by decide)).2.2 (by decide)).2 2000 rfl (by decide)).2⟩

/-- C20: A token whose header names a signing method other than HS256, HS384
and HS512 is rejected by ValidateAccessToken and by ValidateRefreshToken,
whatever its claims and signature: either the method is not registered and the
key function is never called, or the key function answers
`invalid signing method` instead of the secret. -/
theorem C20_non_hmac_rejected (s : jwtService) (now : Time) (alg : String)
    (payload : Payload) (sig : Mac)
    (h256 : alg ≠ "HS256") (h384 : alg ≠ "HS384") (h512 : alg ≠ "HS512") :
    (s.ValidateAccessToken now (.jws alg payload sig) =
          .error (.wrap "token is unverifiable" (.new "signing method (alg) is unavailable")) ∨
        s.ValidateAccessToken now (.jws alg payload sig) =
          .error (.wrap "token is unverifiable: error while executing keyfunc"
            (.new "invalid signing method"))) ∧
      (s.ValidateRefreshToken now (.jws alg payload sig) =
          .error (.wrap "token is unverifiable" (.new "signing method (alg) is unavailable")) ∨
        s.ValidateRefreshToken now (.jws alg payload sig) =
          .error (.wrap "token is unverifiable: error while executing keyfunc"
            (.new "invalid signing method"))) ∧
      ∀ method, GetSigningMethod alg = some method →
        ∀ secret valid,
          hmacKeyFunc secret
              { Method := method, alg := alg, Claims := payload, Signature := sig,
                Valid := valid } =
            .error (.new "invalid signing method") := by
  have hm : GetSigningMethod alg = none ∨
      ∃ method, GetSigningMethod alg = some method ∧ method.isHMAC = false := by
    unfold GetSigningMethod
    simp only [h256, h384, h512, or_self, if_false]
    split
    · exact Or.inr ⟨_, rfl, rfl⟩
    · split
      · exact Or.inr ⟨_, rfl, rfl⟩
      · split
        · exact Or.inr ⟨_, rfl, rfl⟩
        · split
          · exact Or.inr ⟨_, rfl, rfl⟩
          · split
            · exact Or.inr ⟨_, rfl, rfl⟩
            · exact Or.inl rfl
  refine ⟨?_, ?_, ?_⟩
  · rcases hm with hnone | ⟨method, hsome, hnot⟩
    · left
      simp [jwtService.ValidateAccessToken, ParseWithClaims, hnone]
    · right
      simp [jwtService.ValidateAccessToken, ParseWithClaims, hsome, hmacKeyFunc, hnot]
  · rcases hm with hnone | ⟨method, hsome, hnot⟩
    · left
      simp [jwtService.ValidateRefreshToken, ParseWithClaims, hnone]
    · right
      simp [jwtService.ValidateRefreshToken, ParseWithClaims, hsome, hmacKeyFunc, hnot]
  · intro method hmethod secret valid
    rcases hm with hnone | ⟨method1, hsome, hnot⟩
    · rw [hnone] at hmethod
      cases hmethod
    · rw [hsome] at hmethod
      cases hmethod
      simp [hmacKeyFunc, hnot]

theorem C20_non_hmac_rejected_witness :
    (exampleUsecase.jwtService.ValidateAccessToken (7 * Second)
          (.jws "none" { sub := 1, role := some "admin", exp := none, iat := none, nbf := none }
            { key := [], alg := "none",
              payload :=
                { sub := 1, role := some "admin", exp := none, iat := none, nbf := none } }) =
          .error (.wrap "token is unverifiable" (.new "signing method (alg) is unavailable")) ∨
        exampleUsecase.jwtService.ValidateAccessToken (7 * Second)
          (.jws "none" { sub := 1, role := some "admin", exp := none, iat := none, nbf := none }
            { key := [], alg := "none",
              payload :=
                { sub := 1, role := some "admin", exp := none, iat := none, nbf := none } }) =
          .error (.wrap "token is unverifiable: error while executing keyfunc"
            (.new "invalid signing method"))) ∧
      (exampleUsecase.jwtService.ValidateRefreshToken (7 * Second)
          (.jws "RS256" { sub := 1, role := none, exp := none, iat := none, nbf := none }
            { key := hmacBlockKey "HS256" "refresh-secret", alg := "HS256",
              payload := { sub := 1, role := none, exp := none, iat := none, nbf := none } }) =
          .error (.wrap "token is unverifiable" (.new "signing method (alg) is unavailable")) ∨
        exampleUsecase.jwtService.ValidateRefreshToken (7 * Second)
          (.jws "RS256" { sub := 1, role := none, exp := none, iat := none, nbf := none }
            { key := hmacBlockKey "HS256" "refresh-secret", alg := "HS256",
              payload := { sub := 1, role := none, exp := none, iat := none, nbf := none } }) =
          .error (.wrap "token is unverifiable: error while executing keyfunc"
            (.new "invalid signing method"))) ∧
      hmacKeyFunc "access-secret"
          { Method := .None, alg := "none",
            Claims := { sub := 1, role := some "admin", exp := none, iat := none, nbf := none },
            Signature :=
              { key := [], alg := "none",
                payload :=
                  { sub := 1, role := some "admin", exp := none, iat := none, nbf := none } },
            Valid := false } =
        .error (.new "invalid signing method") :=
  ⟨(C20_non_hmac_rejected exampleUsecase.jwtService (7 * Second) "none"
      { sub := 1, role := some "admin", exp := none, iat := none, nbf := none }
      { key := [], alg := "none",
        payload := { sub := 1, role := some "admin", exp := none, iat := none, nbf := none } }
      (by decide) (by decide) (by decide)).1,
   (C20_non_hmac_rejected exampleUsecase.jwtService (7 * Second) "RS256"
      { sub := 1, role := none, exp := none, iat := none, nbf := none }
      { key := hmacBlockKey "HS256" "refresh-secret", alg := "HS256",
        payload := { sub := 1, role := none, exp := none, iat := none, nbf := none } }
      (by decide) (by decide) (by decide)).2.1,
   (C20_non_hmac_rejected exampleUsecase.jwtService (7 * Second) "none"
      { sub := 1, role := some "admin", exp := none, iat := none, nbf := none }
      { key := [], alg := "none",
        payload := { sub := 1, role := some "admin", exp := none, iat := none, nbf := none } }
      (by decide) (by decide) (by decide)).2.2 .None (by decide) "access-secret" false⟩

/-! ## The views returned by the use cases -/

theorem gormCreateUser_mem (fault : Option Err) (now : Time) (db db1 : DB) (user row : User)
    (h : gormCreateUser fault now db user = .ok (row, db1)) : row ∈ db1.users := by
  unfold gormCreateUser at h
  cases fault with
  | some err => simp at h
  | none =>
    simp only at h
    by_cases hany : (db.users.any fun r =>
        decide (r.ID = if user.ID = 0 then nextID (db.users.map User.ID) else user.ID) ||
          decide (r.Email = user.Email)) = true
    · rw [if_pos hany] at h
      simp at h
    · rw [if_neg hany] at h
      simp only [Except.ok.injEq, Prod.mk.injEq] at h
      obtain ⟨hrow, hdb⟩ := h
      subst hdb hrow
      exact (mem_insertByID User.ID _ db.users _).mpr (Or.inl rfl)

theorem gormSaveUser_mem (fault : Option Err) (now : Time) (db db1 : DB) (user saved : User)
    (h : gormSaveUser fault now db user = .ok (saved, db1)) : saved ∈ db1.users := by
  unfold gormSaveUser at h
  by_cases hid : user.ID = 0
  · rw [if_pos hid] at h
    exact gormCreateUser_mem fault now db db1 user saved h
  · rw [if_neg hid] at h
    cases fault with
    | some err => simp at h
    | none =>
      simp only at h
      by_cases hdup : (db.users.any fun r =>
          decide (r.ID ≠ user.ID) && decide (r.Email = user.Email)) = true
      · rw [if_pos hdup] at h
        simp at h
      · rw [if_neg hdup] at h
        by_cases hex : (db.users.any fun r => decide (r.ID = user.ID)) = true
        · rw [if_pos hex] at h
          simp only [Except.ok.injEq, Prod.mk.injEq] at h
          obtain ⟨hrow, hdb⟩ := h
          subst hdb hrow
          obtain ⟨r0, hr0, hk⟩ := List.any_eq_true.mp hex
          apply List.mem_map.mpr
          refine ⟨r0, hr0, ?_⟩
          have hk2 : r0.ID = user.ID := by simpa using hk
          simp [hk2]
        · rw [if_neg hex] at h
          simp only [Except.ok.injEq, Prod.mk.injEq] at h
          obtain ⟨hrow, hdb⟩ := h
          subst hdb hrow
          exact (mem_insertByID User.ID _ db.users _).mpr (Or.inl rfl)

theorem Create_mem (fault : Option Err) (now : Time) (db db1 : DB) (user row : User)
    (h : userRepository.Create fault now db user = .ok (row, db1)) : row ∈ db1.users := by
  unfold userRepository.Create at h
  cases hg : gormCreateUser fault now db user with
  | error err => simp [hg] at h
  | ok res =>
    simp only [hg, Except.ok.injEq] at h
    subst h
    exact gormCreateUser_mem fault now db db1 user row hg

theorem Update_mem (fault : Option Err) (now : Time) (db db1 : DB) (user saved : User)
    (h : userRepository.Update fault now db user = .ok (saved, db1)) : saved ∈ db1.users := by
  unfold userRepository.Update at h
  cases hg : gormSaveUser fault now db user with
  | error err => simp [hg] at h
  | ok res =>
    simp only [hg, Except.ok.injEq] at h
    subst h
    exact gormSaveUser_mem fault now db db1 user saved hg

theorem Register_view (u : authUsecase) (env : Env) (db db1 : DB) (req : RegisterRequest)
    (resp : UserResponse) (h : u.Register env db req = (.ok resp, db1)) :
    ∃ user ∈ db1.users, resp = user.ToResponse := by
  unfold authUsecase.Register at h
  cases hg : userRepository.GetByEmail (env.dbErr 0) db req.Email with
  | error err => simp [hg] at h
  | ok found =>
    cases found with
    | some user => simp [hg] at h
    | none =>
      simp only [hg] at h
      cases hh : u.passwordService.HashPassword env.rand req.Password with
      | error err => simp [hh] at h
      | ok hashedPassword =>
        simp only [hh] at h
        cases hc : userRepository.Create (env.dbErr 1) (env.now 0) db
            { ID := 0, Email := req.Email, PasswordHash := hashedPassword,
              FullName := req.FullName, Role := "user", Status := "active",
              EmailVerifiedAt := none, CreatedAt := zeroTime, UpdatedAt := zeroTime } with
        | error err => simp [hc] at h
        | ok res =>
          obtain ⟨created, dbc⟩ := res
          simp only [hc, Prod.mk.injEq, Except.ok.injEq] at h
          obtain ⟨hresp, hdb⟩ := h
          subst hresp hdb
          exact ⟨created, Create_mem _ _ db dbc _ created hc, rfl⟩

theorem GetProfile_view (u : userUsecase) (env : Env) (db db1 : DB) (userID : Nat)
    (resp : UserResponse) (h : u.GetProfile env db userID = (.ok resp, db1)) :
    ∃ user ∈ db1.users, resp = user.ToResponse := by
  unfold userUsecase.GetProfile at h
  cases hg : userRepository.GetByID (env.dbErr 0) db userID with
  | error err => simp [hg] at h
  | ok found =>
    cases found with
    | none => simp [hg] at h
    | some user =>
      simp only [hg, Prod.mk.injEq, Except.ok.injEq] at h
      obtain ⟨hresp, hdb⟩ := h
      subst hresp hdb
      exact ⟨user, List.mem_of_find?_eq_some (GetByID_some_inv _ db userID user hg), rfl⟩

theorem UpdateProfile_view (u : userUsecase) (env : Env) (db db1 : DB) (userID : Nat)
    (req : UpdateProfileRequest) (resp : UserResponse)
    (h : u.UpdateProfile env db userID req = (.ok resp, db1)) :
    ∃ user ∈ db1.users, resp = user.ToResponse := by
  unfold userUsecase.UpdateProfile at h
  cases hg : userRepository.GetByID (env.dbErr 0) db userID with
  | error err => simp [hg] at h
  | ok found =>
    cases found with
    | none => simp [hg] at h
    | some user =>
      simp only [hg] at h
      cases hs : userRepository.Update (env.dbErr 1) (env.now 0) db
          { user with FullName := req.FullName } with
      | error err => simp [hs] at h
      | ok res =>
        obtain ⟨saved, dbs⟩ := res
        simp only [hs, Prod.mk.injEq, Except.ok.injEq] at h
        obtain ⟨hresp, hdb⟩ := h
        subst hresp hdb
        exact ⟨saved, Update_mem _ _ db dbs _ saved hs, rfl⟩

theorem List_subset (like : String → String → Bool) (faultCount faultFind : Option Err)
    (db : DB) (limit offset : Int) (search role status : String) (users : Users)
    (total : Int)
    (h : userRepository.List like faultCount faultFind db limit offset search role status =
      .ok (users, total)) :
    ∀ user ∈ users, user ∈ db.users := by
  unfold userRepository.List at h
  cases faultCount with
  | some err => simp at h
  | none =>
    cases faultFind with
    | some err => simp at h
    | none =>
      simp only [Except.ok.injEq, Prod.mk.injEq] at h
      obtain ⟨husers, _⟩ := h
      intro user hu
      rw [← husers] at hu
      have h1 : user ∈ (if 0 < offset then
          (db.users.filter fun r =>
            (decide (search = "") || like r.FullName ("%" ++ search ++ "%") ||
                like r.Email ("%" ++ search ++ "%")) &&
              (decide (role = "") || decide (r.Role = role)) &&
              (decide (status = "") || decide (r.Status = status))).drop offset.toNat
          else db.users.filter fun r =>
            (decide (search = "") || like r.FullName ("%" ++ search ++ "%") ||
                like r.Email ("%" ++ search ++ "%")) &&
              (decide (role = "") || decide (r.Role = role)) &&
              (decide (status = "") || decide (r.Status = status))) := by
        split at hu
        · exact List.mem_of_mem_take hu
        · exact hu
      have h2 : user ∈ db.users.filter fun r =>
          (decide (search = "") || like r.FullName ("%" ++ search ++ "%") ||
              like r.Email ("%" ++ search ++ "%")) &&
            (decide (role = "") || decide (r.Role = role)) &&
            (decide (status = "") || decide (r.Status = status)) := by
        split at h1
        · exact List.mem_of_mem_drop h1
        · exact h1
      exact List.mem_of_mem_filter h2

theorem ListUsers_view (u : userUsecase) (like : String → String → Bool)
    (ceilQuotient : Int → Int → Int) (env : Env) (db db1 : DB) (req : ListUsersRequest)
    (resp : PaginatedUsersResponse)
    (h : u.ListUsers like ceilQuotient env db req = (.ok resp, db1)) :
    ∀ view ∈ resp.Users, ∃ user ∈ db1.users, view = user.ToResponse := by
  unfold userUsecase.ListUsers at h
  dsimp only at h
  split at h
  · simp at h
  · rename_i users total hl
    simp only [Prod.mk.injEq, Except.ok.injEq] at h
    obtain ⟨hresp, hdb⟩ := h
    subst hresp hdb
    intro view hview
    obtain ⟨user, huser, hv⟩ := List.mem_map.mp hview
    exact ⟨user, List_subset like _ _ db _ _ _ _ _ users total hl user huser, hv.symm⟩

theorem Login_view (u : authUsecase) (env : Env) (db db1 : DB) (req : LoginRequest)
    (access refresh : TokenString) (resp : UserResponse)
    (h : u.Login env db req = (.ok (access, refresh, resp), db1)) :
    ∃ user ∈ db1.users, resp = user.ToResponse := by
  obtain ⟨user, hfind, _, _, _, _, hresp, _, hdb⟩ :=
    Login_ok_inv u env db db1 req access refresh resp h
  subst hdb
  exact ⟨user, List.mem_of_find?_eq_some hfind, hresp⟩

/-- C11: ToResponse does not depend on the password hash (two users that
differ only in `PasswordHash` have the same view), and every identity value
returned by Register, Login, GetProfile, UpdateProfile and ListUsers is the
ToResponse view of a row of the users table the call leaves behind. -/
theorem C11_password_hash_not_exposed :
    (∀ (a : User) (hash : String), ({ a with PasswordHash := hash } : User).ToResponse =
        a.ToResponse) ∧
      (∀ (u : authUsecase) (env : Env) (db db1 : DB) (req : RegisterRequest)
          (resp : UserResponse),
        u.Register env db req = (.ok resp, db1) →
          ∃ user ∈ db1.users, resp = user.ToResponse) ∧
      (∀ (u : authUsecase) (env : Env) (db db1 : DB) (req : LoginRequest)
          (access refresh : TokenString) (resp : UserResponse),
        u.Login env db req = (.ok (access, refresh, resp), db1) →
          ∃ user ∈ db1.users, resp = user.ToResponse) ∧
      (∀ (u : userUsecase) (env : Env) (db db1 : DB) (userID : Nat) (resp : UserResponse),
        u.GetProfile env db userID = (.ok resp, db1) →
          ∃ user ∈ db1.users, resp = user.ToResponse) ∧
      (∀ (u : userUsecase) (env : Env) (db db1 : DB) (userID : Nat)
          (req : UpdateProfileRequest) (resp : UserResponse),
        u.UpdateProfile env db userID req = (.ok resp, db1) →
          ∃ user ∈ db1.users, resp = user.ToResponse) ∧
      ∀ (u : userUsecase) (like : String → String → Bool) (ceilQuotient : Int → Int → Int)
          (env : Env) (db db1 : DB) (req : ListUsersRequest) (resp : PaginatedUsersResponse),
        u.ListUsers like ceilQuotient env db req = (.ok resp, db1) →
          ∀ view ∈ resp.Users, ∃ user ∈ db1.users, view = user.ToResponse :=
  ⟨fun _ _ => rfl,
   fun u env db db1 req resp h => Register_view u env db db1 req resp h,
   fun u env db db1 req access refresh resp h =>
     Login_view u env db db1 req access refresh resp h,
   fun u env db db1 userID resp h => GetProfile_view u env db db1 userID resp h,
   fun u env db db1 userID req resp h => UpdateProfile_view u env db db1 userID req resp h,
   fun u like ceilQuotient env db db1 req resp h =>
     ListUsers_view u like ceilQuotient env db db1 req resp h⟩

theorem C11_password_hash_not_exposed_witness :
    ({ aliceUser with PasswordHash := "$2a$other" } : User).ToResponse = aliceUser.ToResponse ∧
      (∃ user ∈ aliceDB.users, aliceResponse = user.ToResponse) ∧
      (∃ user ∈ sessionDB.users, aliceResponse = user.ToResponse) ∧
      (∃ user ∈ aliceDB.users, aliceResponse = user.ToResponse) ∧
      (∃ user ∈ renamedDB.users,
        ({ aliceResponse with FullName := "A2" } : UserResponse) = user.ToResponse) ∧
      ∀ view ∈ [aliceResponse], ∃ user ∈ aliceDB.users, view = user.ToResponse :=
  ⟨C11_password_hash_not_exposed.1 aliceUser "$2a$other",
   C11_password_hash_not_exposed.2.1 exampleUsecase (quietEnv (5 * Second)) emptyDB aliceDB
     { Email := "a@x.com", Password := "secret1", FullName := "A" } aliceResponse rfl,
   C11_password_hash_not_exposed.2.2.1 exampleUsecase (quietEnv (6 * Second)) aliceDB sessionDB
     { Email := "a@x.com", Password := "secret1" } aliceAccess aliceRefresh aliceResponse (by rfl),
   C11_password_hash_not_exposed.2.2.2.1 exampleUserUsecase (quietEnv (7 * Second)) aliceDB
     aliceDB 1 aliceResponse rfl,
   C11_password_hash_not_exposed.2.2.2.2.1 exampleUserUsecase (quietEnv (7 * Second)) aliceDB
     renamedDB 1 { FullName := "A2" } { aliceResponse with FullName := "A2" } rfl,
   C11_password_hash_not_exposed.2.2.2.2.2 exampleUserUsecase exampleLike exampleCeilQuotient
     (quietEnv (7 * Second)) aliceDB aliceDB
     { Page := 1, Limit := 10, Search := "", Role := "", Status := "" }
     { Users := [aliceResponse],
       Pagination := { Page := 1, Limit := 10, Total := 1, TotalPages := 1 } } rfl⟩

/-! ## Logout: the caller's id plays no part -/

/-- C27: The result of Logout and the database it leaves do not depend on the
`userID` argument: for every engine, environment, store state, token string
`t` and user ids `u1`, `u2`, `Logout(u1, t)` and `Logout(u2, t)` are the same
pair of result and database.  So, with a working store, a call by `userID`
revokes every record of `t`, also the records whose identity id is not
`userID`. -/
theorem C27_logout_ignores_user_id (u : authUsecase) (env : Env) (db : DB) (t : TokenString)
    (u1 u2 : Nat) :
    u.Logout env db u1 t = u.Logout env db u2 t ∧
      (env.dbErr 0 = none →
        ∀ r ∈ db.tokens, r.Token = t → r.UserID ≠ u1 →
          (u.Logout env db u1 t).1 = .ok () ∧
            { r with Revoked := true } ∈ (u.Logout env db u1 t).2.tokens ∧
            SessionRevoked (u.Logout env db u1 t).2 t) := by
  refine ⟨rfl, ?_⟩
  intro hq r hr ht _
  rw [Logout_working u env db u1 t hq]
  refine ⟨rfl, ?_, ?_, ?_⟩
  · simp only [List.mem_map]
    exact ⟨r, hr, by simp [ht]⟩
  · simp only [List.mem_map]
    exact ⟨_, ⟨r, hr, rfl⟩, by simp [ht]⟩
  · intro r1 hr1 ht1
    simp only [List.mem_map] at hr1
    obtain ⟨r0, _, hr0⟩ := hr1
    by_cases h0 : r0.Token = t
    · simp only [h0, decide_True, if_true] at hr0
      rw [← hr0]
    · simp only [h0, decide_False, Bool.false_eq_true, if_false] at hr0
      rw [← hr0] at ht1
      exact absurd ht1 h0

theorem C27_logout_ignores_user_id_witness :
    exampleUsecase.Logout (quietEnv (7 * Second)) sessionDB 2 aliceRefresh =
        exampleUsecase.Logout (quietEnv (7 * Second)) sessionDB 1 aliceRefresh ∧
      (exampleUsecase.Logout (quietEnv (7 * Second)) sessionDB 2 aliceRefresh).1 = .ok () ∧
      { ID := 1, UserID := 1, Token := aliceRefresh, ExpiresAt := 604806 * Second,
        Revoked := true, CreatedAt := 6 * Second } ∈
        (exampleUsecase.Logout (quietEnv (7 * Second)) sessionDB 2 aliceRefresh).2.tokens ∧
      SessionRevoked (exampleUsecase.Logout (quietEnv (7 * Second)) sessionDB 2 aliceRefresh).2
        aliceRefresh :=
  ⟨(C27_logout_ignores_user_id exampleUsecase (quietEnv (7 * Second)) sessionDB aliceRefresh
      2 1).1,
   (C27_logout_ignores_user_id exampleUsecase (quietEnv (7 * Second)) sessionDB aliceRefresh
      2 1).2 rfl
      { ID := 1, UserID := 1, Token := aliceRefresh, ExpiresAt := 604806 * Second,
        Revoked := false, CreatedAt := 6 * Second } (by decide) rfl (by decide)⟩

/-! ## RefreshToken: the success path -/

/-- RefreshToken on a token the codec accepts, with an unrevoked, unexpired
record, an identity for the subject, working statements and a new
refresh-token string not yet in the Session Store. -/
theorem RefreshToken_success (u : authUsecase) (env : Env) (db : DB) (t : TokenString)
    (claims : RefreshClaims) (row : RefreshToken) (user : User) (access refresh : TokenString)
    (hq0 : env.dbErr 0 = none) (hq1 : env.dbErr 1 = none) (hq2 : env.dbErr 2 = none)
    (hq3 : env.dbErr 3 = none)
    (hv : u.jwtService.ValidateRefreshToken (env.now 0) t = .ok claims)
    (hfind : db.tokens.find? (fun r => decide (r.Token = t)) = some row)
    (hrev : row.Revoked = false) (hexp : ¬ row.ExpiresAt < env.now 1)
    (huser : db.users.find? (fun r => decide (r.ID = claims.UserID)) = some user)
    (hgenA : u.jwtService.GenerateAccessToken (env.now 2) user.ID user.Role = .ok access)
    (hgenR : u.jwtService.GenerateRefreshToken (env.now 3) user.ID = .ok refresh)
    (hfresh : ∀ r ∈ db.tokens, r.Token ≠ refresh) :
    u.RefreshToken env db t =
      (.ok (access, refresh),
       { users := db.users
         tokens :=
           (db.tokens.map fun r =>
             if decide (r.Token = t) then { r with Revoked := true } else r) ++
           [{ ID := nextID ((db.tokens.map fun r =>
                if decide (r.Token = t) then { r with Revoked := true } else r).map
                  RefreshToken.ID)
              UserID := user.ID
              Token := refresh
              ExpiresAt := env.now 4 + u.refreshTokenTTL
              Revoked := false
              CreatedAt := env.now 5 }]
         resets := db.resets }) := by
  have hfresh1 : ∀ r ∈ db.tokens.map (fun r =>
      if decide (r.Token = t) then { r with Revoked := true } else r), r.Token ≠ refresh := by
    intro r1 hr1
    simp only [List.mem_map] at hr1
    obtain ⟨r0, hr0, heq⟩ := hr1
    rw [← heq]
    split
    · exact hfresh r0 hr0
    · exact hfresh r0 hr0
  simp only [authUsecase.RefreshToken, hv, hq0, hq1, hq2, hq3,
    GetRefreshToken_found db t row hfind, hrev, Time.Before, hexp,
    GetByID_found db claims.UserID user huser, tokenRepository.RevokeRefreshToken, gormUpdate,
    hgenA, hgenR, decide_False, Bool.false_eq_true, if_false]
  rw [createRefreshToken_fresh (env.now 5) _ _ rfl hfresh1]
  simp [isZero_zeroTime, Time.Add]

/-- C29 (as amended): RefreshToken does not read the identity's status.  For every
identity whose status is not `active` (inactive, suspended) and every refresh
token of that identity that the codec accepts and whose record is unrevoked
and unexpired, with working statements and a newly generated refresh-token
string that the Session Store does not hold yet, RefreshToken succeeds and
returns the access and refresh tokens generated for that identity; Login of
the same identity with a password that verifies fails with `user account is
not active`. -/
theorem C29_refresh_ignores_status (u : authUsecase) (env : Env) (db : DB) (t : TokenString)
    (claims : RefreshClaims) (row : RefreshToken) (user : User) (refresh : TokenString)
    (hq0 : env.dbErr 0 = none) (hq1 : env.dbErr 1 = none) (hq2 : env.dbErr 2 = none)
    (hq3 : env.dbErr 3 = none)
    (hv : u.jwtService.ValidateRefreshToken (env.now 0) t = .ok claims)
    (hfind : db.tokens.find? (fun r => decide (r.Token = t)) = some row)
    (hrev : row.Revoked = false) (hexp : ¬ row.ExpiresAt < env.now 1)
    (huser : db.users.find? (fun r => decide (r.ID = claims.UserID)) = some user)
    (hstatus : user.Status ≠ "active")
    (hgenR : u.jwtService.GenerateRefreshToken (env.now 3) user.ID = .ok refresh)
    (hfresh : ∀ r ∈ db.tokens, r.Token ≠ refresh) :
    (∃ access db2,
        u.RefreshToken env db t = (.ok (access, refresh), db2) ∧
        u.jwtService.GenerateAccessToken (env.now 2) user.ID user.Role = .ok access ∧
        refresh ≠ t) ∧
      ∀ (envL : Env) (req : LoginRequest), envL.dbErr 0 = none →
        db.users.find? (fun r => decide (r.Email = req.Email)) = some user →
        u.passwordService.CheckPassword req.Password user.PasswordHash = true →
        u.Login envL db req = (.error (.new "user account is not active"), db) := by
  constructor
  · refine ⟨_, _, RefreshToken_success u env db t claims row user _ refresh hq0 hq1 hq2 hq3 hv
      hfind hrev hexp huser (generateAccess_eq _ _ _ _) hgenR hfresh, generateAccess_eq _ _ _ _,
      ?_⟩
    intro heq
    have hmem := List.mem_of_find?_eq_some hfind
    have htok : row.Token = t := by simpa using List.find?_some hfind
    exact hfresh row hmem (htok.trans heq.symm)
  · intro envL req hq hfound hpw
    simp [authUsecase.Login, hq, GetByEmail_found db req.Email user hfound, hpw, hstatus]

theorem C29_refresh_ignores_status_witness :
    (∃ access db2,
        exampleUsecase.RefreshToken (quietEnv (7 * Second)) suspendedSessionDB aliceRefresh =
          (.ok (access, rotatedPair.2), db2) ∧
        exampleUsecase.jwtService.GenerateAccessToken ((quietEnv (7 * Second)).now 2) 1 "user" =
          .ok access ∧
        rotatedPair.2 ≠ aliceRefresh) ∧
      exampleUsecase.Login (quietEnv (7 * Second)) suspendedSessionDB
          { Email := "s@x.com", Password := "secret1" } =
        (.error (.new "user account is not active"), suspendedSessionDB) :=
  ⟨(C29_refresh_ignores_status exampleUsecase (quietEnv (7 * Second)) suspendedSessionDB
      aliceRefresh
      { UserID := 1, ExpiresAt := some 604806, IssuedAt := some 6, NotBefore := some 6 }
      { ID := 1, UserID := 1, Token := aliceRefresh, ExpiresAt := 604806 * Second,
        Revoked := false, CreatedAt := 6 * Second }
      { ID := 1, Email := "s@x.com", PasswordHash := "$2a$secret1", FullName := "S",
        Role := "user", Status := "suspended", EmailVerifiedAt := none,
        CreatedAt := 5 * Second, UpdatedAt := 5 * Second }
      rotatedPair.2 rfl rfl rfl rfl (by rfl) (by decide) rfl (by decide) (by decide)
      (by decide) (by rfl) (by decide)).1,
   (C29_refresh_ignores_status exampleUsecase (quietEnv (7 * Second)) suspendedSessionDB
      aliceRefresh
      { UserID := 1, ExpiresAt := some 604806, IssuedAt := some 6, NotBefore := some 6 }
      { ID := 1, UserID := 1, Token := aliceRefresh, ExpiresAt := 604806 * Second,
        Revoked := false, CreatedAt := 6 * Second }
      { ID := 1, Email := "s@x.com", PasswordHash := "$2a$secret1", FullName := "S",
        Role := "user", Status := "suspended", EmailVerifiedAt := none,
        CreatedAt := 5 * Second, UpdatedAt := 5 * Second }
      rotatedPair.2 rfl rfl rfl rfl (by rfl) (by decide) rfl (by decide) (by decide)
      (by decide) (by rfl) (by decide)).2 (quietEnv (7 * Second))
      { Email := "s@x.com", Password := "secret1" } rfl (by decide) (by decide)⟩

/-- C29 fails as stated: in the clock second in which the presented token was
issued the engine generates the presented string again, the insert breaks the
unique index, and the suspended identity is left with its token revoked and no
replacement. -/
theorem C29_same_second_refresh_fails :
    exampleUsecase.RefreshToken (quietEnv (6 * Second + 500000000)) suspendedSessionDB
        aliceRefresh =
      (.error (.wrap "failed to save new refresh token"
          (.wrap "failed to create refresh token" ErrDuplicateEntry)),
       { suspendedSessionDB with
         tokens :=
           [{ ID := 1, UserID := 1, Token := aliceRefresh, ExpiresAt := 604806 * Second,
              Revoked := true, CreatedAt := 6 * Second }] }) := by
  rfl

/-! ## RefreshToken inside the second of issue -/

theorem floor_second_add_mul (a b k : Int) (h : a / 1000000000 = b / 1000000000) :
    (a + 1000000000 * k) / 1000000000 = (b + 1000000000 * k) / 1000000000 := by
  omega

theorem createRefreshToken_duplicate (now : Time) (db : DB) (token : RefreshToken)
    (h : ∃ r ∈ db.tokens, r.Token = token.Token) :
    tokenRepository.CreateRefreshToken none now db token =
      .error (.wrap "failed to create refresh token" ErrDuplicateEntry) := by
  obtain ⟨r, hr, ht⟩ := h
  simp only [tokenRepository.CreateRefreshToken, gormCreateRefreshToken]
  rw [if_pos]
  apply List.any_eq_true.mpr
  exact ⟨r, hr, by simp [ht]⟩

/-- C28 (as amended): With a refresh TTL of a whole number of seconds, the string
returned by GenerateRefreshToken is determined by the refresh secret, the
refresh TTL, the user id and the current time truncated to whole seconds.
Whenever RefreshToken, with working statements, is given a token the codec
accepts, whose record is unrevoked and unexpired and whose identity exists,
and the string it generates for the replacement is the presented string
itself, it revokes the presented token and fails with the error of the insert
(duplicate entry on the unique token column), leaving no replacement record.
This happens in a reachable state: the token issued by a Login at 6 s and
presented at 6.5 s. -/
theorem C28_same_second_rotation_collides :
    (∀ (s s1 : jwtService) (now now1 : Time) (userID : Nat),
        s.refreshSecret = s1.refreshSecret → s.refreshTTL = s1.refreshTTL →
        Second ∣ s.refreshTTL → now / Second = now1 / Second →
        s.GenerateRefreshToken now userID = s1.GenerateRefreshToken now1 userID) ∧
      (∀ (u : authUsecase) (env : Env) (db : DB) (t : TokenString) (claims : RefreshClaims)
          (row : RefreshToken) (user : User),
        env.dbErr 0 = none → env.dbErr 1 = none → env.dbErr 2 = none → env.dbErr 3 = none →
        u.jwtService.ValidateRefreshToken (env.now 0) t = .ok claims →
        db.tokens.find? (fun r => decide (r.Token = t)) = some row →
        row.Revoked = false → ¬ row.ExpiresAt < env.now 1 →
        db.users.find? (fun r => decide (r.ID = claims.UserID)) = some user →
        u.jwtService.GenerateRefreshToken (env.now 3) user.ID = .ok t →
        u.RefreshToken env db t =
          (.error (.wrap "failed to save new refresh token"
              (.wrap "failed to create refresh token" ErrDuplicateEntry)),
           { db with tokens := db.tokens.map fun r =>
               if decide (r.Token = t) then { r with Revoked := true } else r })) ∧
      (exampleUsecase.Login (quietEnv (6 * Second)) aliceDB
            { Email := "a@x.com", Password := "secret1" } =
          (.ok (aliceAccess, aliceRefresh, aliceResponse), sessionDB) ∧
        exampleUsecase.RefreshToken (quietEnv (6 * Second + 500000000)) sessionDB
            aliceRefresh =
          (.error (.wrap "failed to save new refresh token"
              (.wrap "failed to create refresh token" ErrDuplicateEntry)),
           { sessionDB with
             tokens :=
               [{ ID := 1, UserID := 1, Token := aliceRefresh, ExpiresAt := 604806 * Second,
                  Revoked := true, CreatedAt := 6 * Second }] })) := by
  refine ⟨?_, ?_, rfl, rfl⟩
  · intro s s1 now now1 userID hsecret httl hdvd hnow
    obtain ⟨k, hk⟩ := hdvd
    have hexp : NewNumericDate (now.Add s.refreshTTL) = NewNumericDate (now1.Add s1.refreshTTL) := by
      rw [← httl, hk]
      exact floor_second_add_mul now now1 k hnow
    have hiat : NewNumericDate now = NewNumericDate now1 := hnow
    rw [generateRefresh_eq, generateRefresh_eq, hexp, hiat, hsecret]
  · intro u env db t claims row user hq0 hq1 hq2 hq3 hv hfind hrev hexp huser hgenR
    have hmem := List.mem_of_find?_eq_some hfind
    have htok : row.Token = t := by simpa using List.find?_some hfind
    have hdup : ∃ r ∈ db.tokens.map (fun r =>
        if decide (r.Token = t) then { r with Revoked := true } else r), r.Token = t := by
      refine ⟨{ row with Revoked := true }, ?_, htok⟩
      simp only [List.mem_map]
      exact ⟨row, hmem, by simp [htok]⟩
    simp only [authUsecase.RefreshToken, hv, hq0, hq1, hq2, hq3,
      GetRefreshToken_found db t row hfind, hrev, Time.Before, hexp,
      GetByID_found db claims.UserID user huser, tokenRepository.RevokeRefreshToken, gormUpdate,
      generateAccess_eq, hgenR, decide_False, Bool.false_eq_true, if_false]
    rw [createRefreshToken_duplicate (env.now 5) _ _ hdup]

theorem C28_same_second_rotation_collides_witness :
    exampleUsecase.jwtService.GenerateRefreshToken (6 * Second) 1 =
        exampleUsecase.jwtService.GenerateRefreshToken (6 * Second + 500000000) 1 ∧
      exampleUsecase.RefreshToken (quietEnv (6 * Second + 999999999)) sessionDB aliceRefresh =
        (.error (.wrap "failed to save new refresh token"
            (.wrap "failed to create refresh token" ErrDuplicateEntry)),
         { sessionDB with
           tokens :=
             [{ ID := 1, UserID := 1, Token := aliceRefresh, ExpiresAt := 604806 * Second,
                Revoked := true, CreatedAt := 6 * Second }] }) :=
  ⟨C28_same_second_rotation_collides.1 exampleUsecase.jwtService exampleUsecase.jwtService
      (6 * Second) (6 * Second + 500000000) 1 rfl rfl (by decide) (by decide),
   C28_same_second_rotation_collides.2.1 exampleUsecase (quietEnv (6 * Second + 999999999))
      sessionDB aliceRefresh
      { UserID := 1, ExpiresAt := some 604806, IssuedAt := some 6, NotBefore := some 6 }
      { ID := 1, UserID := 1, Token := aliceRefresh, ExpiresAt := 604806 * Second,
        Revoked := false, CreatedAt := 6 * Second }
      aliceUser rfl rfl rfl rfl (by rfl) (by decide) rfl (by decide) (by decide) (by rfl)⟩

/-- C28 fails as stated: with a refresh TTL of one and a half seconds, two
instants of the same clock second give different refresh tokens for the same
secret, TTL and user id: the expiry is truncated after the TTL is added. -/
theorem C28_fractional_ttl_token_depends_on_subsecond :
    (6 * Second + 200000000 : Time) / Second = (6 * Second + 700000000 : Time) / Second ∧
      fractionalService.GenerateRefreshToken (6 * Second + 200000000) 1 ≠
        fractionalService.GenerateRefreshToken (6 * Second + 700000000) 1 := by
  refine ⟨by decide, ?_⟩
  intro h
  rw [generateRefresh_eq, generateRefresh_eq] at h
  simp only [Except.ok.injEq, TokenString.jws.injEq, Payload.mk.injEq] at h
  exact absurd h.2.1.2.2.1 (by decide)

/-! ## Reset Store: what each operation can do to it -/

theorem gormCreateUser_frame (fault : Option Err) (now : Time) (db db1 : DB)
    (user row : User) (h : gormCreateUser fault now db user = .ok (row, db1)) :
    db1.tokens = db.tokens ∧ db1.resets = db.resets := by
  unfold gormCreateUser at h
  cases fault with
  | some err => simp at h
  | none =>
    simp only at h
    by_cases hany : (db.users.any fun r =>
        decide (r.ID = if user.ID = 0 then nextID (db.users.map User.ID) else user.ID) ||
          decide (r.Email = user.Email)) = true
    · rw [if_pos hany] at h
      simp at h
    · rw [if_neg hany] at h
      simp only [Except.ok.injEq, Prod.mk.injEq] at h
      obtain ⟨_, hdb⟩ := h
      subst hdb
      exact ⟨rfl, rfl⟩

theorem gormSaveUser_frame (fault : Option Err) (now : Time) (db db1 : DB)
    (user saved : User) (h : gormSaveUser fault now db user = .ok (saved, db1)) :
    db1.tokens = db.tokens ∧ db1.resets = db.resets := by
  unfold gormSaveUser at h
  by_cases hid : user.ID = 0
  · rw [if_pos hid] at h
    exact gormCreateUser_frame fault now db db1 user saved h
  · rw [if_neg hid] at h
    cases fault with
    | some err => simp at h
    | none =>
      simp only at h
      by_cases hdup : (db.users.any fun r =>
          decide (r.ID ≠ user.ID) && decide (r.Email = user.Email)) = true
      · rw [if_pos hdup] at h
        simp at h
      · rw [if_neg hdup] at h
        by_cases hex : (db.users.any fun r => decide (r.ID = user.ID)) = true
        · rw [if_pos hex] at h
          simp only [Except.ok.injEq, Prod.mk.injEq] at h
          obtain ⟨_, hdb⟩ := h
          subst hdb
          exact ⟨rfl, rfl⟩
        · rw [if_neg hex] at h
          simp only [Except.ok.injEq, Prod.mk.injEq] at h
          obtain ⟨_, hdb⟩ := h
          subst hdb
          exact ⟨rfl, rfl⟩

theorem Create_frame (fault : Option Err) (now : Time) (db db1 : DB) (user row : User)
    (h : userRepository.Create fault now db user = .ok (row, db1)) :
    db1.tokens = db.tokens ∧ db1.resets = db.resets := by
  unfold userRepository.Create at h
  cases hg : gormCreateUser fault now db user with
  | error err => simp [hg] at h
  | ok res =>
    simp only [hg, Except.ok.injEq] at h
    subst h
    exact gormCreateUser_frame fault now db db1 user row hg

theorem Update_frame (fault : Option Err) (now : Time) (db db1 : DB) (user saved : User)
    (h : userRepository.Update fault now db user = .ok (saved, db1)) :
    db1.tokens = db.tokens ∧ db1.resets = db.resets := by
  unfold userRepository.Update at h
  cases hg : gormSaveUser fault now db user with
  | error err => simp [hg] at h
  | ok res =>
    simp only [hg, Except.ok.injEq] at h
    subst h
    exact gormSaveUser_frame fault now db db1 user saved hg

/-- A successful insert of a reset record with a zero key appends the record,
whose token string the table did not hold. -/
theorem createPasswordReset_inv_zero (fault : Option Err) (now : Time) (db db1 : DB)
    (reset row : PasswordReset) (hid : reset.ID = 0)
    (h : passwordResetRepository.Create fault now db reset = .ok (row, db1)) :
    (∀ r ∈ db.resets, r.Token ≠ reset.Token) ∧ row.Token = reset.Token ∧
      row.Email = reset.Email ∧ row.Used = reset.Used ∧ row.ExpiresAt = reset.ExpiresAt ∧
      db1 = { db with resets := db.resets ++ [row] } := by
  cases fault with
  | some err => simp [passwordResetRepository.Create, gormCreatePasswordReset] at h
  | none =>
    have hfresh : ∀ r ∈ db.resets, r.Token ≠ reset.Token := by
      intro r hr heq
      simp only [passwordResetRepository.Create, gormCreatePasswordReset] at h
      rw [if_pos] at h
      · simp at h
      · apply List.any_eq_true.mpr
        exact ⟨r, hr, by simp [heq]⟩
    rw [createPasswordReset_fresh now db reset hid hfresh] at h
    simp only [Except.ok.injEq, Prod.mk.injEq] at h
    obtain ⟨hrow, hdb⟩ := h
    subst hrow
    exact ⟨hfresh, rfl, rfl, rfl, rfl, hdb.symm⟩

theorem resetsExtend_of_eq (db db1 : DB) (h : db1.resets = db.resets) : ResetsExtend db db1 := by
  refine ⟨fun _ => false, [], ?_, ?_⟩
  · simp [h]
  · intro r1 hr1
    cases hr1

theorem resetsExtend_refl (db : DB) : ResetsExtend db db := resetsExtend_of_eq db db rfl

theorem resetsExtend_trans (a b c : DB) (hab : ResetsExtend a b) (hbc : ResetsExtend b c) :
    ResetsExtend a c := by
  obtain ⟨m1, rest1, h1, hf1⟩ := hab
  obtain ⟨m2, rest2, h2, hf2⟩ := hbc
  refine ⟨fun r => m1 r || m2 (if m1 r then { r with Used := true } else r),
    (rest1.map fun r => if m2 r then { r with Used := true } else r) ++ rest2, ?_, ?_⟩
  · rw [h2, h1, List.map_append, List.map_map, List.append_assoc]
    congr 1
    apply List.map_congr_left
    intro r _
    simp only [Function.comp]
    by_cases hm1 : m1 r = true
    · simp only [hm1, if_true, Bool.true_or]
      split <;> rfl
    · simp only [hm1, Bool.false_eq_true, if_false, Bool.false_or]
  · intro r1 hr1 r hr
    rcases List.mem_append.mp hr1 with hmem | hmem
    · obtain ⟨x, hx, hxe⟩ := List.mem_map.mp hmem
      have := hf1 x hx r hr
      rw [← hxe]
      split <;> exact this
    · have hb : (if m1 r then { r with Used := true } else r) ∈ b.resets := by
        rw [h1]
        exact List.mem_append_left _ (List.mem_map_of_mem _ hr)
      have := hf2 r1 hmem _ hb
      revert this
      split <;> exact id

theorem Register_frame (u : authUsecase) (env : Env) (db : DB) (req : RegisterRequest) :
    (u.Register env db req).2.tokens = db.tokens ∧
      (u.Register env db req).2.resets = db.resets := by
  unfold authUsecase.Register
  cases hg : userRepository.GetByEmail (env.dbErr 0) db req.Email with
  | error err => exact ⟨rfl, rfl⟩
  | ok found =>
    cases found with
    | some user => exact ⟨rfl, rfl⟩
    | none =>
      simp only
      cases hh : u.passwordService.HashPassword env.rand req.Password with
      | error err => exact ⟨rfl, rfl⟩
      | ok hashedPassword =>
        simp only
        cases hc : userRepository.Create (env.dbErr 1) (env.now 0) db
            { ID := 0, Email := req.Email, PasswordHash := hashedPassword,
              FullName := req.FullName, Role := "user", Status := "active",
              EmailVerifiedAt := none, CreatedAt := zeroTime, UpdatedAt := zeroTime } with
        | error err => exact ⟨rfl, rfl⟩
        | ok res =>
          obtain ⟨created, db1⟩ := res
          exact Create_frame _ _ db db1 _ created hc

theorem Login_resets (u : authUsecase) (env : Env) (db : DB) (req : LoginRequest) :
    (u.Login env db req).2.resets = db.resets ∧ (u.Login env db req).2.users = db.users := by
  unfold authUsecase.Login
  cases hg : userRepository.GetByEmail (env.dbErr 0) db req.Email with
  | error err => exact ⟨rfl, rfl⟩
  | ok found =>
    cases found with
    | none => exact ⟨rfl, rfl⟩
    | some user =>
      simp only
      by_cases hpw : u.passwordService.CheckPassword req.Password user.PasswordHash = true
      · by_cases hst : user.Status = "active"
        · simp only [hpw, hst, generateAccess_eq, generateRefresh_eq, Bool.not_true,
            Bool.false_eq_true, if_false, ne_eq, not_true_eq_false]
          cases hc : tokenRepository.CreateRefreshToken (env.dbErr 1) (env.now 3) db
              { ID := 0, UserID := user.ID,
                Token := .jws "HS256"
                  { sub := user.ID, role := none,
                    exp := some (NewNumericDate ((env.now 1).Add u.jwtService.refreshTTL)),
                    iat := some (NewNumericDate (env.now 1)),
                    nbf := some (NewNumericDate (env.now 1)) }
                  { key := hmacBlockKey "HS256" u.jwtService.refreshSecret, alg := "HS256",
                    payload :=
                      { sub := user.ID, role := none,
                        exp := some (NewNumericDate ((env.now 1).Add u.jwtService.refreshTTL)),
                        iat := some (NewNumericDate (env.now 1)),
                        nbf := some (NewNumericDate (env.now 1)) } },
                ExpiresAt := (env.now 2).Add u.refreshTokenTTL, Revoked := false,
                CreatedAt := zeroTime } with
          | error err => exact ⟨rfl, rfl⟩
          | ok res =>
            obtain ⟨row, db1⟩ := res
            have hdb1 := (CreateRefreshToken_inv _ _ db db1 _ row hc).2.2.2.2.2
            rw [hdb1]
            exact ⟨rfl, rfl⟩
        · simp only [hpw, hst, Bool.not_true, Bool.false_eq_true, if_false, ne_eq,
            not_false_eq_true, if_true]
          exact ⟨trivial, trivial⟩
      · simp only [hpw, Bool.not_false, if_true]
        exact ⟨trivial, trivial⟩

theorem Logout_resets (u : authUsecase) (env : Env) (db : DB) (userID : Nat)
    (refreshToken : TokenString) :
    (u.Logout env db userID refreshToken).2.resets = db.resets ∧
      (u.Logout env db userID refreshToken).2.users = db.users := by
  unfold authUsecase.Logout
  cases hr : tokenRepository.RevokeRefreshToken (env.dbErr 0) db refreshToken with
  | error err => exact ⟨rfl, rfl⟩
  | ok db1 =>
    have := RevokeRefreshToken_inv _ db db1 refreshToken hr
    subst this
    exact ⟨rfl, rfl⟩

theorem RefreshToken_resets (u : authUsecase) (env : Env) (db : DB) (t : TokenString) :
    (u.RefreshToken env db t).2.resets = db.resets ∧
      (u.RefreshToken env db t).2.users = db.users := by
  unfold authUsecase.RefreshToken
  cases hv : u.jwtService.ValidateRefreshToken (env.now 0) t with
  | error err => exact ⟨rfl, rfl⟩
  | ok claims =>
    simp only
    cases hg : tokenRepository.GetRefreshToken (env.dbErr 0) db t with
    | error err => exact ⟨rfl, rfl⟩
    | ok found =>
      cases found with
      | none => exact ⟨rfl, rfl⟩
      | some tokenEntity =>
        simp only
        by_cases hrev : tokenEntity.Revoked = true
        · simp only [hrev, if_true]
          exact ⟨trivial, trivial⟩
        · by_cases hexp : tokenEntity.ExpiresAt.Before (env.now 1) = true
          · simp only [hrev, hexp, Bool.false_eq_true, if_false, if_true]
            exact ⟨trivial, trivial⟩
          · simp only [hrev, hexp, Bool.false_eq_true, if_false]
            cases hu : userRepository.GetByID (env.dbErr 1) db claims.UserID with
            | error err => exact ⟨rfl, rfl⟩
            | ok ufound =>
              cases ufound with
              | none => exact ⟨rfl, rfl⟩
              | some user =>
                simp only
                cases hr : tokenRepository.RevokeRefreshToken (env.dbErr 2) db t with
                | error err => exact ⟨rfl, rfl⟩
                | ok db1 =>
                  have hdb1 := RevokeRefreshToken_inv _ db db1 t hr
                  simp only [generateAccess_eq, generateRefresh_eq]
                  cases hc : tokenRepository.CreateRefreshToken (env.dbErr 3) (env.now 5) db1
                      { ID := 0, UserID := user.ID,
                        Token := .jws "HS256"
                          { sub := user.ID, role := none,
                            exp := some
                              (NewNumericDate ((env.now 3).Add u.jwtService.refreshTTL)),
                            iat := some (NewNumericDate (env.now 3)),
                            nbf := some (NewNumericDate (env.now 3)) }
                          { key := hmacBlockKey "HS256" u.jwtService.refreshSecret, alg := "HS256",
                            payload :=
                              { sub := user.ID, role := none,
                                exp := some
                                  (NewNumericDate ((env.now 3).Add u.jwtService.refreshTTL)),
                                iat := some (NewNumericDate (env.now 3)),
                                nbf := some (NewNumericDate (env.now 3)) } },
                        ExpiresAt := (env.now 4).Add u.refreshTokenTTL, Revoked := false,
                        CreatedAt := zeroTime } with
                  | error err =>
                    rw [hdb1]
                    exact ⟨rfl, rfl⟩
                  | ok res =>
                    obtain ⟨row, db2⟩ := res
                    have hdb2 := (CreateRefreshToken_inv _ _ db1 db2 _ row hc).2.2.2.2.2
                    rw [hdb2, hdb1]
                    exact ⟨rfl, rfl⟩

theorem ForgotPassword_resetsExtend (u : authUsecase) (env : Env) (db : DB) (email : String) :
    ResetsExtend db (u.ForgotPassword env db email).2 ∧
      (u.ForgotPassword env db email).2.tokens = db.tokens := by
  unfold authUsecase.ForgotPassword
  cases hg : userRepository.GetByEmail (env.dbErr 0) db email with
  | error err => exact ⟨resetsExtend_refl db, rfl⟩
  | ok found =>
    cases found with
    | none => exact ⟨resetsExtend_refl db, rfl⟩
    | some user =>
      simp only
      cases hc : passwordResetRepository.Create (env.dbErr 1) (env.now 1) db
          { ID := 0, Email := email, Token := env.uuid,
            ExpiresAt := (env.now 0).Add (1 * Hour), Used := false,
            CreatedAt := zeroTime } with
      | error err => exact ⟨resetsExtend_refl db, rfl⟩
      | ok res =>
        obtain ⟨row, db1⟩ := res
        obtain ⟨hfresh, hrowTok, _, _, _, hdb1⟩ :=
          createPasswordReset_inv_zero _ _ db db1 _ row rfl hc
        subst hdb1
        refine ⟨⟨fun _ => false, [row], ?_, ?_⟩, rfl⟩
        · simp
        · intro r1 hr1 r hr
          simp only [List.mem_singleton] at hr1
          rw [hr1, hrowTok]
          exact hfresh r hr

theorem resetsExtend_of_mark (db db1 : DB) (token : String)
    (h : db1.resets = db.resets.map fun r =>
      if decide (r.Token = token) then { r with Used := true } else r) :
    ResetsExtend db db1 := by
  refine ⟨fun r => decide (r.Token = token), [], ?_, ?_⟩
  · rw [h, List.append_nil]
  · intro r1 hr1
    cases hr1

theorem ResetPassword_resetsExtend (u : authUsecase) (env : Env) (db : DB)
    (token newPassword : String) :
    ResetsExtend db (u.ResetPassword env db token newPassword).2 := by
  unfold authUsecase.ResetPassword
  cases hg : passwordResetRepository.GetByToken (env.dbErr 0) db token with
  | error err => exact resetsExtend_refl db
  | ok found =>
    cases found with
    | none => exact resetsExtend_refl db
    | some reset =>
      simp only
      by_cases hexp : reset.ExpiresAt.Before (env.now 0) = true
      · simp only [hexp, if_true]
        exact resetsExtend_refl db
      · by_cases hused : reset.Used = true
        · simp only [hexp, hused, Bool.false_eq_true, if_false, if_true]
          exact resetsExtend_refl db
        · simp only [hexp, hused, Bool.false_eq_true, if_false]
          cases hu : userRepository.GetByEmail (env.dbErr 1) db reset.Email with
          | error err => exact resetsExtend_refl db
          | ok ufound =>
            cases ufound with
            | none => exact resetsExtend_refl db
            | some user =>
              simp only
              cases hh : u.passwordService.HashPassword env.rand newPassword with
              | error err => exact resetsExtend_refl db
              | ok hashedPassword =>
                simp only
                cases hs : userRepository.Update (env.dbErr 2) (env.now 1) db
                    { user with PasswordHash := hashedPassword } with
                | error err => exact resetsExtend_refl db
                | ok savedRes =>
                  obtain ⟨saved, db1⟩ := savedRes
                  have h1 := (Update_frame _ _ db db1 _ saved hs).2
                  simp only
                  cases hm : passwordResetRepository.MarkAsUsed (env.dbErr 3) db1 token with
                  | error err => exact resetsExtend_of_eq db db1 h1
                  | ok db2 =>
                    have hdb2 := MarkAsUsed_inv _ db1 db2 token hm
                    have h2 : ResetsExtend db db2 := by
                      apply resetsExtend_of_mark db db2 token
                      rw [hdb2, ← h1]
                    simp only
                    cases hr : tokenRepository.RevokeAllForUser (env.dbErr 4) db2 saved.ID with
                    | error err => exact h2
                    | ok db3 =>
                      have hdb3 := RevokeAllForUser_inv _ db2 db3 saved.ID hr
                      apply resetsExtend_trans db db2 _ h2
                      apply resetsExtend_of_eq
                      rw [hdb3]

/-- Every operation of the engine, whatever its outcome, extends the Reset
Store it was given. -/
theorem Op_run_resetsExtend (u : authUsecase) (db : DB) (op : Op) :
    ResetsExtend db (op.run u db) := by
  cases op with
  | register env req => exact resetsExtend_of_eq _ _ (Register_frame u env db req).2
  | login env req => exact resetsExtend_of_eq _ _ (Login_resets u env db req).1
  | logout env userID refreshToken =>
    exact resetsExtend_of_eq _ _ (Logout_resets u env db userID refreshToken).1
  | refresh env refreshToken =>
    exact resetsExtend_of_eq _ _ (RefreshToken_resets u env db refreshToken).1
  | forgot env email => exact (ForgotPassword_resetsExtend u env db email).1
  | reset env token newPassword => exact ResetPassword_resetsExtend u env db token newPassword

theorem runOps_resetsExtend (u : authUsecase) (ops : List Op) :
    ∀ db, ResetsExtend db (runOps u db ops) := by
  induction ops with
  | nil => exact fun db => resetsExtend_refl db
  | cons op rest ih =>
    intro db
    exact resetsExtend_trans db (op.run u db) _ (Op_run_resetsExtend u db op) (ih (op.run u db))

/-- A token string that is held and used stays held and used. -/
theorem resetSpent_of_extends (db db1 : DB) (token : String) (h : ResetSpent db token)
    (hext : ResetsExtend db db1) : ResetSpent db1 token := by
  obtain ⟨⟨r, hr, ht⟩, hall⟩ := h
  obtain ⟨mark, rest, hres, hfresh⟩ := hext
  constructor
  · refine ⟨if mark r then { r with Used := true } else r, ?_, ?_⟩
    · rw [hres]
      exact List.mem_append_left _ (List.mem_map_of_mem _ hr)
    · split <;> exact ht
  · intro r1 hr1 ht1
    rw [hres] at hr1
    rcases List.mem_append.mp hr1 with hmem | hmem
    · obtain ⟨x, hx, hxe⟩ := List.mem_map.mp hmem
      rw [← hxe] at ht1 ⊢
      split
      · rfl
      · rename_i hm
        simp only [hm, if_false] at ht1
        exact hall x hx ht1
    · exact absurd (ht.trans ht1.symm) (hfresh r1 hmem r hr)

/-- ResetPassword with a token string that is held and used fails and changes
nothing. -/
theorem ResetPassword_on_spent (u : authUsecase) (env : Env) (db : DB)
    (token newPassword : String) (h : ResetSpent db token) :
    ∃ err, u.ResetPassword env db token newPassword = (.error err, db) := by
  unfold authUsecase.ResetPassword
  cases hg : passwordResetRepository.GetByToken (env.dbErr 0) db token with
  | error err => exact ⟨_, rfl⟩
  | ok found =>
    cases found with
    | none => exact ⟨_, rfl⟩
    | some reset =>
      have hfind := GetByToken_some_inv _ db token reset hg
      have hused : reset.Used = true :=
        h.2 reset (List.mem_of_find?_eq_some hfind) (by simpa using List.find?_some hfind)
      simp only
      by_cases hexp : reset.ExpiresAt.Before (env.now 0) = true
      · simp only [hexp, if_true]
        exact ⟨_, rfl⟩
      · simp only [hexp, hused, Bool.false_eq_true, if_false, if_true]
        exact ⟨_, rfl⟩

/-- After a successful ResetPassword the token string is held and used. -/
theorem spent_after_reset (u : authUsecase) (env : Env) (db db1 : DB)
    (token newPassword : String) (h : u.ResetPassword env db token newPassword = (.ok (), db1)) :
    ResetSpent db1 token := by
  obtain ⟨reset, user, hashedPassword, hfind, _, _, _, _, _, hdb⟩ :=
    ResetPassword_ok_inv u env db db1 token newPassword h
  have hmem := List.mem_of_find?_eq_some hfind
  have htok : reset.Token = token := by simpa using List.find?_some hfind
  subst hdb
  constructor
  · refine ⟨{ reset with Used := true }, ?_, htok⟩
    simp only [List.mem_map]
    exact ⟨reset, hmem, by simp [htok]⟩
  · intro r1 hr1 ht1
    simp only [List.mem_map] at hr1
    obtain ⟨r0, _, hr0⟩ := hr1
    by_cases h0 : r0.Token = token
    · simp only [h0, decide_True, if_true] at hr0
      rw [← hr0]
    · simp only [h0, decide_False, Bool.false_eq_true, if_false] at hr0
      rw [← hr0] at ht1
      exact absurd ht1 h0

/-- C23: Under every sequence of Engine operations (Register, Login, Logout,
RefreshToken, ForgotPassword, ResetPassword, in any environment and with any
outcome) each Reset Token Record keeps its position in the Reset Store and all
its fields, except that its `used` flag may change from false to true; a
record with `used = true` is never changed.  After a successful
ResetPassword with a token string, every later ResetPassword with that string,
after any further operations, fails and changes nothing, so a token string
makes ResetPassword succeed at most once. -/
theorem C23_reset_used_only_rises (u : authUsecase) (db : DB) (ops : List Op) :
    (∀ (i : Nat) (r : PasswordReset), db.resets[i]? = some r →
        ∃ r1, (runOps u db ops).resets[i]? = some r1 ∧
          (r1 = r ∨ (r.Used = false ∧ r1 = { r with Used := true }))) ∧
      ∀ (env : Env) (token newPassword : String) (db1 : DB),
        u.ResetPassword env db token newPassword = (.ok (), db1) →
        ∀ (env1 : Env) (newPassword1 : String),
          ∃ err, u.ResetPassword env1 (runOps u db1 ops) token newPassword1 =
            (.error err, runOps u db1 ops) := by
  constructor
  · intro i r hi
    obtain ⟨mark, rest, hres, _⟩ := runOps_resetsExtend u ops db
    have hlt : i < db.resets.length := by
      rcases Nat.lt_or_ge i db.resets.length with hlt | hge
      · exact hlt
      · rw [List.getElem?_eq_none hge] at hi
        cases hi
    refine ⟨if mark r then { r with Used := true } else r, ?_, ?_⟩
    · rw [hres, List.getElem?_append_left (by simpa using hlt), List.getElem?_map, hi]
      rfl
    · by_cases hu : r.Used = true
      · left
        split
        · cases r
          simp only at hu
          simp [hu]
        · rfl
      · split
        · exact Or.inr ⟨by simpa using hu, rfl⟩
        · exact Or.inl rfl
  · intro env token newPassword db1 h env1 newPassword1
    exact ResetPassword_on_spent u env1 _ token newPassword1
      (resetSpent_of_extends db1 _ token (spent_after_reset u env db db1 token newPassword h)
        (runOps_resetsExtend u ops db1))

theorem C23_reset_used_only_rises_witness :
    (∃ r1,
        (runOps exampleUsecase resetPendingDB
            [.reset (quietEnv (10 * Second)) "3f2c9a1e-reset" "newpass"]).resets[0]? = some r1 ∧
          (r1 =
              { ID := 1, Email := "a@x.com", Token := "3f2c9a1e-reset",
                ExpiresAt := 3609 * Second, Used := false, CreatedAt := 9 * Second } ∨
            ((false : Bool) = false ∧
              r1 =
                { ID := 1, Email := "a@x.com", Token := "3f2c9a1e-reset",
                  ExpiresAt := 3609 * Second, Used := true, CreatedAt := 9 * Second }))) ∧
      ∃ err,
        exampleUsecase.ResetPassword (quietEnv (12 * Second))
            (runOps exampleUsecase afterResetDB
              [.reset (quietEnv (10 * Second)) "3f2c9a1e-reset" "newpass"])
            "3f2c9a1e-reset" "another" =
          (.error err,
           runOps exampleUsecase afterResetDB
             [.reset (quietEnv (10 * Second)) "3f2c9a1e-reset" "newpass"]) :=
  ⟨(C23_reset_used_only_rises exampleUsecase resetPendingDB
      [.reset (quietEnv (10 * Second)) "3f2c9a1e-reset" "newpass"]).1 0
      { ID := 1, Email := "a@x.com", Token := "3f2c9a1e-reset", ExpiresAt := 3609 * Second,
        Used := false, CreatedAt := 9 * Second } rfl,
   (C23_reset_used_only_rises exampleUsecase resetPendingDB
      [.reset (quietEnv (10 * Second)) "3f2c9a1e-reset" "newpass"]).2 (quietEnv (10 * Second))
      "3f2c9a1e-reset" "newpass" afterResetDB (by rfl) (quietEnv (12 * Second)) "another"⟩

/-! ## ResetPassword: the success path -/

/-- Saving an identity whose key is in the table and whose email belongs to no
other key writes the row and stamps `UpdatedAt`. -/
theorem Update_existing (now : Time) (db : DB) (user : User) (hid : user.ID ≠ 0)
    (hex : ∃ r ∈ db.users, r.ID = user.ID)
    (hnodup : ∀ r ∈ db.users, r.Email = user.Email → r.ID = user.ID) :
    userRepository.Update none now db user =
      .ok ({ user with UpdatedAt := now },
           { db with users := db.users.map fun r =>
               if r.ID = user.ID then { user with UpdatedAt := now } else r }) := by
  obtain ⟨r0, hr0, hkey⟩ := hex
  have hdup : ¬ (db.users.any fun r =>
      decide (r.ID ≠ user.ID) && decide (r.Email = user.Email)) = true := by
    intro h
    obtain ⟨r, hr, hc⟩ := List.any_eq_true.mp h
    simp only [Bool.and_eq_true, decide_eq_true_eq] at hc
    exact hc.1 (hnodup r hr hc.2)
  have hany : (db.users.any fun r => decide (r.ID = user.ID)) = true := by
    apply List.any_eq_true.mpr
    exact ⟨r0, hr0, by simp [hkey]⟩
  simp only [userRepository.Update, gormSaveUser, if_neg hid]
  rw [if_neg hdup, if_pos hany]

/-- A successful save of an identity with a nonzero key found no other key
with the same email. -/
theorem Update_nodup (fault : Option Err) (now : Time) (db db1 : DB) (user saved : User)
    (hid : user.ID ≠ 0) (h : userRepository.Update fault now db user = .ok (saved, db1)) :
    ∀ r ∈ db.users, r.Email = user.Email → r.ID = user.ID := by
  intro r hr hemail
  by_contra hne
  unfold userRepository.Update gormSaveUser at h
  rw [if_neg hid] at h
  cases fault with
  | some err => simp at h
  | none =>
    simp only at h
    rw [if_pos] at h
    · simp at h
    · apply List.any_eq_true.mpr
      exact ⟨r, hr, by simp [hne, hemail]⟩

/-- ResetPassword with an unused, unexpired record, the identity of its email
(key in the table, email under no other key), a working hasher and working
statements. -/
theorem ResetPassword_success (u : authUsecase) (env : Env) (db : DB)
    (token newPassword : String) (reset : PasswordReset) (user : User)
    (hashedPassword : String)
    (hq0 : env.dbErr 0 = none) (hq1 : env.dbErr 1 = none) (hq2 : env.dbErr 2 = none)
    (hq3 : env.dbErr 3 = none) (hq4 : env.dbErr 4 = none)
    (hfind : db.resets.find? (fun r => decide (r.Token = token)) = some reset)
    (hexp : ¬ reset.ExpiresAt < env.now 0) (hused : reset.Used = false)
    (huser : db.users.find? (fun r => decide (r.Email = reset.Email)) = some user)
    (hhash : u.passwordService.HashPassword env.rand newPassword = .ok hashedPassword)
    (hid : user.ID ≠ 0)
    (hnodup : ∀ r ∈ db.users, r.Email = user.Email → r.ID = user.ID) :
    u.ResetPassword env db token newPassword =
      (.ok (),
       { users := db.users.map fun r =>
           if r.ID = user.ID then
             { user with PasswordHash := hashedPassword, UpdatedAt := env.now 1 }
           else r
         tokens := db.tokens.map fun r =>
           if decide (r.UserID = user.ID) then { r with Revoked := true } else r
         resets := db.resets.map fun r =>
           if decide (r.Token = token) then { r with Used := true } else r }) := by
  have hupd := Update_existing (env.now 1) db { user with PasswordHash := hashedPassword } hid
    ⟨user, List.mem_of_find?_eq_some huser, rfl⟩ hnodup
  simp only [authUsecase.ResetPassword, hq0, hq1, hq2, hq3, hq4,
    GetByToken_found db token reset hfind, Time.Before, hexp, hused,
    GetByEmail_found db reset.Email user huser, hhash, hupd,
    passwordResetRepository.MarkAsUsed, tokenRepository.RevokeAllForUser, gormUpdate,
    decide_False, Bool.false_eq_true, if_false]

/-- A successful ResetPassword saved an identity whose email belongs to no
other key. -/
theorem ResetPassword_ok_nodup (u : authUsecase) (env : Env) (db db3 : DB)
    (token newPassword : String) (h : u.ResetPassword env db token newPassword = (.ok (), db3)) :
    ∃ reset user,
      db.resets.find? (fun r => decide (r.Token = token)) = some reset ∧
      db.users.find? (fun r => decide (r.Email = reset.Email)) = some user ∧
      ∀ r ∈ db.users, r.Email = user.Email → r.ID = user.ID := by
  unfold authUsecase.ResetPassword at h
  cases hg : passwordResetRepository.GetByToken (env.dbErr 0) db token with
  | error err => simp [hg] at h
  | ok found =>
    cases found with
    | none => simp [hg] at h
    | some reset =>
      simp only [hg] at h
      by_cases hexp : reset.ExpiresAt < env.now 0
      · simp [Time.Before, hexp] at h
      · by_cases hused : reset.Used = true
        · simp [Time.Before, hexp, hused] at h
        · simp only [Time.Before, hexp, hused, decide_False, Bool.false_eq_true, if_false] at h
          cases hu : userRepository.GetByEmail (env.dbErr 1) db reset.Email with
          | error err => simp [hu] at h
          | ok ufound =>
            cases ufound with
            | none => simp [hu] at h
            | some user =>
              simp only [hu] at h
              cases hh : u.passwordService.HashPassword env.rand newPassword with
              | error err => simp [hh] at h
              | ok hashedPassword =>
                simp only [hh] at h
                have hfindU := GetByEmail_some_inv _ db reset.Email user hu
                have hmemU : user ∈ db.users := List.mem_of_find?_eq_some hfindU
                cases hs : userRepository.Update (env.dbErr 2) (env.now 1) db
                    { user with PasswordHash := hashedPassword } with
                | error err => simp [hs] at h
                | ok savedRes =>
                  obtain ⟨saved, db1⟩ := savedRes
                  obtain ⟨hid, _, _⟩ := Update_inv _ _ db db1
                    { user with PasswordHash := hashedPassword } saved
                    ⟨user, hmemU, rfl, rfl⟩ hs
                  exact ⟨reset, user, GetByToken_some_inv _ db token reset hg, hfindU,
                    Update_nodup _ _ db db1 { user with PasswordHash := hashedPassword } saved
                      hid hs⟩

/-- C24: Two outstanding reset tokens of one email are independently valid.
When ResetPassword succeeds with token string `t1`, the first record found for
a different token string `t2` is left as it was (same `used` flag, same
`expires_at`, every field); and if that record belongs to the same email and
is unused, then ResetPassword with `t2` before its expiry, with working
statements and hasher, succeeds in the database the first call left. -/
theorem C24_other_reset_token_stays_valid (u : authUsecase) (env env2 : Env) (db db1 : DB)
    (t1 t2 p q : String) (reset1 reset2 : PasswordReset) (hashed2 : String)
    (h1 : u.ResetPassword env db t1 p = (.ok (), db1)) (hne : t1 ≠ t2)
    (hfind1 : db.resets.find? (fun r => decide (r.Token = t1)) = some reset1)
    (hfind2 : db.resets.find? (fun r => decide (r.Token = t2)) = some reset2)
    (hsame : reset2.Email = reset1.Email) (hunused : reset2.Used = false)
    (hq0 : env2.dbErr 0 = none) (hq1 : env2.dbErr 1 = none) (hq2 : env2.dbErr 2 = none)
    (hq3 : env2.dbErr 3 = none) (hq4 : env2.dbErr 4 = none)
    (hexp2 : ¬ reset2.ExpiresAt < env2.now 0)
    (hhash2 : u.passwordService.HashPassword env2.rand q = .ok hashed2) :
    db1.resets.find? (fun r => decide (r.Token = t2)) = some reset2 ∧
      ∃ db2, u.ResetPassword env2 db1 t2 q = (.ok (), db2) := by
  obtain ⟨reset, user, hashed, hrec, _, _, huser, _, hid, hdb1⟩ :=
    ResetPassword_ok_inv u env db db1 t1 p h1
  obtain ⟨reset0, user0, hrec0, huser0, hnodup⟩ := ResetPassword_ok_nodup u env db db1 t1 p h1
  rw [hfind1] at hrec hrec0
  cases hrec
  cases hrec0
  rw [huser] at huser0
  cases huser0
  have hmemU : user ∈ db.users := List.mem_of_find?_eq_some huser
  have hemail : user.Email = reset1.Email := by simpa using List.find?_some huser
  have htok2 : reset2.Token = t2 := by simpa using List.find?_some hfind2
  -- the record of `t2` is untouched
  have hkeep : db1.resets.find? (fun r => decide (r.Token = t2)) = some reset2 := by
    rw [hdb1]
    simp only
    rw [List.find?_map]
    have hfun : ((fun r : PasswordReset => decide (r.Token = t2)) ∘
        fun r => if decide (r.Token = t1) then { r with Used := true } else r) =
        fun r => decide (r.Token = t2) := by
      funext r
      simp only [Function.comp]
      split <;> rfl
    rw [hfun, hfind2]
    have hne2 : ¬ reset2.Token = t1 := fun h => hne (h.symm.trans htok2)
    simp [hne2]
  refine ⟨hkeep, ?_⟩
  -- the identity found for the email in the new database
  have hfindU1 : db1.users.find? (fun r => decide (r.Email = reset2.Email)) =
      some { user with PasswordHash := hashed, UpdatedAt := env.now 1 } := by
    rw [hdb1]
    simp only
    cases hf : (db.users.map fun r =>
        if r.ID = user.ID then
          { user with PasswordHash := hashed, UpdatedAt := env.now 1 }
        else r).find? (fun r => decide (r.Email = reset2.Email)) with
    | none =>
      have hno := List.find?_eq_none.mp hf
        (if user.ID = user.ID then
          { user with PasswordHash := hashed, UpdatedAt := env.now 1 }
        else user) (List.mem_map_of_mem _ hmemU)
      simp [hemail, hsame] at hno
    | some y =>
      have hy := List.mem_of_find?_eq_some hf
      have hpy : y.Email = reset2.Email := by simpa using List.find?_some hf
      obtain ⟨x, hx, hxy⟩ := List.mem_map.mp hy
      by_cases hk : x.ID = user.ID
      · simp only [hk, if_true] at hxy
        rw [hxy]
      · simp only [hk, if_false] at hxy
        rw [← hxy] at hpy
        exact absurd (hnodup x hx (by rw [hpy, hsame, hemail])) hk
  have hnodup1 : ∀ r ∈ db1.users,
      r.Email = ({ user with PasswordHash := hashed, UpdatedAt := env.now 1 } : User).Email →
      r.ID = ({ user with PasswordHash := hashed, UpdatedAt := env.now 1 } : User).ID := by
    intro r hr he
    rw [hdb1] at hr
    obtain ⟨x, hx, hxr⟩ := List.mem_map.mp hr
    by_cases hk : x.ID = user.ID
    · simp only [hk, if_true] at hxr
      rw [← hxr]
    · simp only [hk, if_false] at hxr
      rw [← hxr] at he
      exact absurd (hnodup x hx he) hk
  exact ⟨_, ResetPassword_success u env2 db1 t2 q reset2
    { user with PasswordHash := hashed, UpdatedAt := env.now 1 } hashed2 hq0 hq1 hq2 hq3 hq4
    hkeep hexp2 hunused hfindU1 hhash2 hid hnodup1⟩

theorem C24_other_reset_token_stays_valid_witness :
    (exampleUsecase.ResetPassword (quietEnv (12 * Second)) twoResetsDB "3f2c9a1e-reset"
        "newpass").2.resets.find? (fun r => decide (r.Token = "77aa0b42-reset")) =
        some { ID := 2, Email := "a@x.com", Token := "77aa0b42-reset",
               ExpiresAt := 3611 * Second, Used := false, CreatedAt := 11 * Second } ∧
      ∃ db2,
        exampleUsecase.ResetPassword (quietEnv (20 * Second))
            (exampleUsecase.ResetPassword (quietEnv (12 * Second)) twoResetsDB "3f2c9a1e-reset"
              "newpass").2 "77aa0b42-reset" "another" = (.ok (), db2) :=
  C24_other_reset_token_stays_valid exampleUsecase (quietEnv (12 * Second))
    (quietEnv (20 * Second)) twoResetsDB
    (exampleUsecase.ResetPassword (quietEnv (12 * Second)) twoResetsDB "3f2c9a1e-reset"
      "newpass").2 "3f2c9a1e-reset" "77aa0b42-reset" "newpass" "another"
    { ID := 1, Email := "a@x.com", Token := "3f2c9a1e-reset", ExpiresAt := 3609 * Second,
      Used := false, CreatedAt := 9 * Second }
    { ID := 2, Email := "a@x.com", Token := "77aa0b42-reset", ExpiresAt := 3611 * Second,
      Used := false, CreatedAt := 11 * Second }
    "$2a$another" (by rfl) (by decide) (by decide) (by decide) rfl rfl rfl rfl rfl rfl rfl
    (by decide) (by rfl)

/-! ## ResetPassword: the states an interruption can leave -/

/-- C25 (as amended): ResetPassword writes the new password hash before it
marks the record used.  Whatever the environment (so wherever a statement
fails and the call stops), either the Reset Store is left exactly as it was,
or the record found for the token was unused, the identity of its email
already carries the digest of the new password, and the Reset Store is the old
one with the records of the token marked used.  A call interrupted between
the update of the identity and `MarkAsUsed` leaves the new password hash in
place while the record still has `used = false`. -/
theorem C25_reset_marks_used_after_password (u : authUsecase) (env : Env) (db : DB)
    (token newPassword : String) :
    ((u.ResetPassword env db token newPassword).2.resets = db.resets ∨
        ∃ reset user hashedPassword,
          db.resets.find? (fun r => decide (r.Token = token)) = some reset ∧
          reset.Used = false ∧
          db.users.find? (fun r => decide (r.Email = reset.Email)) = some user ∧
          u.passwordService.HashPassword env.rand newPassword = .ok hashedPassword ∧
          (u.ResetPassword env db token newPassword).2.users =
            (db.users.map fun r =>
              if r.ID = user.ID then
                { user with PasswordHash := hashedPassword, UpdatedAt := env.now 1 }
              else r) ∧
          (u.ResetPassword env db token newPassword).2.resets =
            (db.resets.map fun r =>
              if decide (r.Token = token) then { r with Used := true } else r)) ∧
      exampleUsecase.ResetPassword (faultAt 3 (10 * Second)) resetPendingDB "3f2c9a1e-reset"
          "newpass" =
        (.error (.wrap "failed to mark reset token as used"
            (.wrap "failed to mark password reset as used" (.new "driver: bad connection"))),
         { users := afterResetDB.users
           tokens := resetPendingDB.tokens
           resets := resetPendingDB.resets }) := by
  refine ⟨?_, rfl⟩
  unfold authUsecase.ResetPassword
  cases hg : passwordResetRepository.GetByToken (env.dbErr 0) db token with
  | error err => exact Or.inl rfl
  | ok found =>
    cases found with
    | none => exact Or.inl rfl
    | some reset =>
      simp only
      by_cases hexp : reset.ExpiresAt.Before (env.now 0) = true
      · simp only [hexp, if_true]
        exact Or.inl trivial
      · by_cases hused : reset.Used = true
        · simp only [hexp, hused, Bool.false_eq_true, if_false, if_true]
          exact Or.inl trivial
        · simp only [hexp, hused, Bool.false_eq_true, if_false]
          cases hu : userRepository.GetByEmail (env.dbErr 1) db reset.Email with
          | error err => exact Or.inl rfl
          | ok ufound =>
            cases ufound with
            | none => exact Or.inl rfl
            | some user =>
              simp only
              cases hh : u.passwordService.HashPassword env.rand newPassword with
              | error err => exact Or.inl rfl
              | ok hashedPassword =>
                simp only
                have hfindU := GetByEmail_some_inv _ db reset.Email user hu
                have hmemU : user ∈ db.users := List.mem_of_find?_eq_some hfindU
                cases hs : userRepository.Update (env.dbErr 2) (env.now 1) db
                    { user with PasswordHash := hashedPassword } with
                | error err => exact Or.inl rfl
                | ok savedRes =>
                  obtain ⟨saved, db1⟩ := savedRes
                  obtain ⟨_, _, hdb1⟩ := Update_inv _ _ db db1
                    { user with PasswordHash := hashedPassword } saved
                    ⟨user, hmemU, rfl, rfl⟩ hs
                  simp only
                  cases hm : passwordResetRepository.MarkAsUsed (env.dbErr 3) db1 token with
                  | error err =>
                    left
                    rw [hdb1]
                  | ok db2 =>
                    have hdb2 := MarkAsUsed_inv _ db1 db2 token hm
                    right
                    refine ⟨reset, user, hashedPassword, GetByToken_some_inv _ db token reset hg,
                      by simpa using hused, hfindU, rfl, ?_⟩
                    simp only
                    cases hr : tokenRepository.RevokeAllForUser (env.dbErr 4) db2 saved.ID with
                    | error err =>
                      simp only
                      rw [hdb2, hdb1]
                      exact ⟨rfl, rfl⟩
                    | ok db3 =>
                      have hdb3 := RevokeAllForUser_inv _ db2 db3 saved.ID hr
                      simp only
                      rw [hdb3, hdb2, hdb1]
                      exact ⟨rfl, rfl⟩

/-- C25 fails as stated: interrupting ResetPassword at each of its five statements
in turn, before the update of the identity nothing is changed; after it the
password hash is the new one while the record is still unused; after
`MarkAsUsed` the record is used and the password hash is the new one.  No
interruption leaves the record used with the old password hash. -/
theorem C25_interruption_never_leaves_used_with_old_password :
    (exampleUsecase.ResetPassword (faultAt 0 (10 * Second)) resetPendingDB "3f2c9a1e-reset"
        "newpass").2 = resetPendingDB ∧
      (exampleUsecase.ResetPassword (faultAt 1 (10 * Second)) resetPendingDB "3f2c9a1e-reset"
        "newpass").2 = resetPendingDB ∧
      (exampleUsecase.ResetPassword (faultAt 2 (10 * Second)) resetPendingDB "3f2c9a1e-reset"
        "newpass").2 = resetPendingDB ∧
      (exampleUsecase.ResetPassword (faultAt 3 (10 * Second)) resetPendingDB "3f2c9a1e-reset"
        "newpass").2 =
        { users := afterResetDB.users
          tokens := resetPendingDB.tokens
          resets := resetPendingDB.resets } ∧
      (exampleUsecase.ResetPassword (faultAt 4 (10 * Second)) resetPendingDB "3f2c9a1e-reset"
        "newpass").2 =
        { users := afterResetDB.users
          tokens := resetPendingDB.tokens
          resets := afterResetDB.resets } ∧
      afterResetDB.users ≠ resetPendingDB.users ∧
      resetPendingDB.resets.all (fun r => !r.Used) = true := by
  refine ⟨rfl, rfl, rfl, rfl, rfl, by decide, by decide⟩

/-! ## Session Store: the record outlives the token -/

theorem floor_second_mul_le (a b : Int) (h : a ≤ b) : a / 1000000000 * 1000000000 ≤ b := by
  omega

theorem expiryCovered_of_tokens_eq (db db1 : DB) (h : db1.tokens = db.tokens)
    (hcov : ExpiryCovered db) : ExpiryCovered db1 := by
  intro r hr
  rw [h] at hr
  exact hcov r hr

theorem expiryCovered_of_map (db db1 : DB) (c : RefreshToken → Bool)
    (h : db1.tokens = db.tokens.map fun r => if c r then { r with Revoked := true } else r)
    (hcov : ExpiryCovered db) : ExpiryCovered db1 := by
  intro r1 hr1
  rw [h] at hr1
  obtain ⟨r, hr, hmap⟩ := List.mem_map.mp hr1
  obtain ⟨e, he, hle⟩ := hcov r hr
  refine ⟨e, ?_, ?_⟩
  · rw [← hmap]
    split <;> exact he
  · rw [← hmap]
    split <;> exact hle

/-- The record the engine writes for a refresh token generated at `now1`, with
its expiry computed from a later clock reading `now2` and the same TTL, does
not expire before the token. -/
theorem expiryCovered_of_create (u : authUsecase) (fault : Option Err)
    (now now1 now2 : Time) (db db1 : DB) (row : RefreshToken) (userID : Nat)
    (httl : u.refreshTokenTTL = u.jwtService.refreshTTL) (hle : now1 ≤ now2)
    (hcov : ExpiryCovered db)
    (hc : tokenRepository.CreateRefreshToken fault now db
        { ID := 0, UserID := userID,
          Token := .jws "HS256"
            { sub := userID, role := none,
              exp := some (NewNumericDate (now1.Add u.jwtService.refreshTTL)),
              iat := some (NewNumericDate now1), nbf := some (NewNumericDate now1) }
            { key := hmacBlockKey "HS256" u.jwtService.refreshSecret, alg := "HS256",
              payload :=
                { sub := userID, role := none,
                  exp := some (NewNumericDate (now1.Add u.jwtService.refreshTTL)),
                  iat := some (NewNumericDate now1), nbf := some (NewNumericDate now1) } },
          ExpiresAt := now2.Add u.refreshTokenTTL, Revoked := false,
          CreatedAt := zeroTime } = .ok (row, db1)) :
    ExpiryCovered db1 := by
  obtain ⟨_, hrow, hdb1⟩ := CreateRefreshToken_inv_zero _ _ db db1 _ row rfl hc
  subst hdb1
  intro r hr
  rcases List.mem_append.mp hr with hold | hnew
  · exact hcov r hold
  · simp only [List.mem_singleton] at hnew
    rw [hnew, hrow]
    refine ⟨NewNumericDate (now1.Add u.jwtService.refreshTTL), rfl, ?_⟩
    simp only [httl]
    exact floor_second_mul_le (now1 + u.jwtService.refreshTTL) (now2 + u.jwtService.refreshTTL)
      (Int.add_le_add_right hle _)

theorem Login_expiryCovered (u : authUsecase) (env : Env) (db : DB) (req : LoginRequest)
    (httl : u.refreshTokenTTL = u.jwtService.refreshTTL) (hmono : ClockMonotone env)
    (hcov : ExpiryCovered db) : ExpiryCovered (u.Login env db req).2 := by
  unfold authUsecase.Login
  cases hg : userRepository.GetByEmail (env.dbErr 0) db req.Email with
  | error err => exact hcov
  | ok found =>
    cases found with
    | none => exact hcov
    | some user =>
      simp only
      by_cases hpw : u.passwordService.CheckPassword req.Password user.PasswordHash = true
      · by_cases hst : user.Status = "active"
        · simp only [hpw, hst, generateAccess_eq, generateRefresh_eq, Bool.not_true,
            Bool.false_eq_true, if_false, ne_eq, not_true_eq_false]
          cases hc : tokenRepository.CreateRefreshToken (env.dbErr 1) (env.now 3) db
              { ID := 0, UserID := user.ID,
                Token := .jws "HS256"
                  { sub := user.ID, role := none,
                    exp := some (NewNumericDate ((env.now 1).Add u.jwtService.refreshTTL)),
                    iat := some (NewNumericDate (env.now 1)),
                    nbf := some (NewNumericDate (env.now 1)) }
                  { key := hmacBlockKey "HS256" u.jwtService.refreshSecret, alg := "HS256",
                    payload :=
                      { sub := user.ID, role := none,
                        exp := some (NewNumericDate ((env.now 1).Add u.jwtService.refreshTTL)),
                        iat := some (NewNumericDate (env.now 1)),
                        nbf := some (NewNumericDate (env.now 1)) } },
                ExpiresAt := (env.now 2).Add u.refreshTokenTTL, Revoked := false,
                CreatedAt := zeroTime } with
          | error err => exact hcov
          | ok res =>
            obtain ⟨row, db1⟩ := res
            exact expiryCovered_of_create u _ _ (env.now 1) (env.now 2) db db1 row user.ID httl
              (hmono 1 2 (by decide)) hcov hc
        · simp only [hpw, hst, Bool.not_true, Bool.false_eq_true, if_false, ne_eq,
            not_false_eq_true, if_true]
          exact hcov
      · simp only [hpw, Bool.not_false, if_true]
        exact hcov

theorem RefreshToken_expiryCovered (u : authUsecase) (env : Env) (db : DB) (t : TokenString)
    (httl : u.refreshTokenTTL = u.jwtService.refreshTTL) (hmono : ClockMonotone env)
    (hcov : ExpiryCovered db) : ExpiryCovered (u.RefreshToken env db t).2 := by
  unfold authUsecase.RefreshToken
  cases hv : u.jwtService.ValidateRefreshToken (env.now 0) t with
  | error err => exact hcov
  | ok claims =>
    simp only
    cases hg : tokenRepository.GetRefreshToken (env.dbErr 0) db t with
    | error err => exact hcov
    | ok found =>
      cases found with
      | none => exact hcov
      | some tokenEntity =>
        simp only
        by_cases hrev : tokenEntity.Revoked = true
        · simp only [hrev, if_true]
          exact hcov
        · by_cases hexp : tokenEntity.ExpiresAt.Before (env.now 1) = true
          · simp only [hrev, hexp, Bool.false_eq_true, if_false, if_true]
            exact hcov
          · simp only [hrev, hexp, Bool.false_eq_true, if_false]
            cases hu : userRepository.GetByID (env.dbErr 1) db claims.UserID with
            | error err => exact hcov
            | ok ufound =>
              cases ufound with
              | none => exact hcov
              | some user =>
                simp only
                cases hr : tokenRepository.RevokeRefreshToken (env.dbErr 2) db t with
                | error err => exact hcov
                | ok db1 =>
                  have hdb1 := RevokeRefreshToken_inv _ db db1 t hr
                  have hcov1 : ExpiryCovered db1 :=
                    expiryCovered_of_map db db1 (fun r => decide (r.Token = t))
                      (by rw [hdb1]) hcov
                  simp only [generateAccess_eq, generateRefresh_eq]
                  cases hc : tokenRepository.CreateRefreshToken (env.dbErr 3) (env.now 5) db1
                      { ID := 0, UserID := user.ID,
                        Token := .jws "HS256"
                          { sub := user.ID, role := none,
                            exp := some
                              (NewNumericDate ((env.now 3).Add u.jwtService.refreshTTL)),
                            iat := some (NewNumericDate (env.now 3)),
                            nbf := some (NewNumericDate (env.now 3)) }
                          { key := hmacBlockKey "HS256" u.jwtService.refreshSecret, alg := "HS256",
                            payload :=
                              { sub := user.ID, role := none,
                                exp := some
                                  (NewNumericDate ((env.now 3).Add u.jwtService.refreshTTL)),
                                iat := some (NewNumericDate (env.now 3)),
                                nbf := some (NewNumericDate (env.now 3)) } },
                        ExpiresAt := (env.now 4).Add u.refreshTokenTTL, Revoked := false,
                        CreatedAt := zeroTime } with
                  | error err => exact hcov1
                  | ok res =>
                    obtain ⟨row, db2⟩ := res
                    exact expiryCovered_of_create u _ _ (env.now 3) (env.now 4) db1 db2 row
                      user.ID httl (hmono 3 4 (by decide)) hcov1 hc

theorem Logout_expiryCovered (u : authUsecase) (env : Env) (db : DB) (userID : Nat)
    (t : TokenString) (hcov : ExpiryCovered db) :
    ExpiryCovered (u.Logout env db userID t).2 := by
  unfold authUsecase.Logout
  cases hr : tokenRepository.RevokeRefreshToken (env.dbErr 0) db t with
  | error err => exact hcov
  | ok db1 =>
    have hdb1 := RevokeRefreshToken_inv _ db db1 t hr
    exact expiryCovered_of_map db db1 (fun r => decide (r.Token = t)) (by rw [hdb1]) hcov

theorem ResetPassword_expiryCovered (u : authUsecase) (env : Env) (db : DB)
    (token newPassword : String) (hcov : ExpiryCovered db) :
    ExpiryCovered (u.ResetPassword env db token newPassword).2 := by
  unfold authUsecase.ResetPassword
  cases hg : passwordResetRepository.GetByToken (env.dbErr 0) db token with
  | error err => exact hcov
  | ok found =>
    cases found with
    | none => exact hcov
    | some reset =>
      simp only
      by_cases hexp : reset.ExpiresAt.Before (env.now 0) = true
      · simp only [hexp, if_true]
        exact hcov
      · by_cases hused : reset.Used = true
        · simp only [hexp, hused, Bool.false_eq_true, if_false, if_true]
          exact hcov
        · simp only [hexp, hused, Bool.false_eq_true, if_false]
          cases hu : userRepository.GetByEmail (env.dbErr 1) db reset.Email with
          | error err => exact hcov
          | ok ufound =>
            cases ufound with
            | none => exact hcov
            | some user =>
              simp only
              cases hh : u.passwordService.HashPassword env.rand newPassword with
              | error err => exact hcov
              | ok hashedPassword =>
                simp only
                cases hs : userRepository.Update (env.dbErr 2) (env.now 1) db
                    { user with PasswordHash := hashedPassword } with
                | error err => exact hcov
                | ok savedRes =>
                  obtain ⟨saved, db1⟩ := savedRes
                  have h1 : ExpiryCovered db1 :=
                    expiryCovered_of_tokens_eq db db1 (Update_frame _ _ db db1 _ saved hs).1 hcov
                  simp only
                  cases hm : passwordResetRepository.MarkAsUsed (env.dbErr 3) db1 token with
                  | error err => exact h1
                  | ok db2 =>
                    have hdb2 := MarkAsUsed_inv _ db1 db2 token hm
                    have h2 : ExpiryCovered db2 :=
                      expiryCovered_of_tokens_eq db1 db2 (by rw [hdb2]) h1
                    simp only
                    cases hr : tokenRepository.RevokeAllForUser (env.dbErr 4) db2 saved.ID with
                    | error err => exact h2
                    | ok db3 =>
                      have hdb3 := RevokeAllForUser_inv _ db2 db3 saved.ID hr
                      exact expiryCovered_of_map db2 db3 (fun r => decide (r.UserID = saved.ID))
                        (by rw [hdb3]) h2

/-- Every operation of the engine run with a clock that does not go backwards
keeps the records at least as long-lived as their tokens. -/
theorem Op_run_expiryCovered (u : authUsecase) (db : DB) (op : Op)
    (httl : u.refreshTokenTTL = u.jwtService.refreshTTL) (hmono : ClockMonotone op.env)
    (hcov : ExpiryCovered db) : ExpiryCovered (op.run u db) := by
  cases op with
  | register env req =>
    exact expiryCovered_of_tokens_eq db _ (Register_frame u env db req).1 hcov
  | login env req => exact Login_expiryCovered u env db req httl hmono hcov
  | logout env userID refreshToken => exact Logout_expiryCovered u env db userID refreshToken hcov
  | refresh env refreshToken =>
    exact RefreshToken_expiryCovered u env db refreshToken httl hmono hcov
  | forgot env email =>
    exact expiryCovered_of_tokens_eq db _ (ForgotPassword_resetsExtend u env db email).2 hcov
  | reset env token newPassword =>
    exact ResetPassword_expiryCovered u env db token newPassword hcov

theorem runOps_expiryCovered (u : authUsecase) (ops : List Op)
    (httl : u.refreshTokenTTL = u.jwtService.refreshTTL) :
    ∀ db, (∀ op ∈ ops, ClockMonotone op.env) → ExpiryCovered db →
      ExpiryCovered (runOps u db ops) := by
  induction ops with
  | nil => exact fun db _ hcov => hcov
  | cons op rest ih =>
    intro db hmono hcov
    exact ih (op.run u db) (fun o ho => hmono o (List.mem_cons_of_mem _ ho))
      (Op_run_expiryCovered u db op httl (hmono op (List.mem_cons_self _ _)) hcov)

/-- A token the refresh validator accepts at `now` has its `exp`, when it
carries one, after `now`. -/
theorem validateRefresh_before_exp (s : jwtService) (now : Time) (t : TokenString)
    (claims : RefreshClaims) (e : Int) (hv : s.ValidateRefreshToken now t = .ok claims)
    (he : t.exp? = some e) : now < NumericDate.Time e := by
  cases t with
  | raw text defect => cases he
  | jws alg payload sig =>
    by_contra hnot
    obtain ⟨err, herr⟩ := ParseWithClaims_expired now alg payload sig
      (hmacKeyFunc s.refreshSecret) e he (not_lt.mp hnot)
    simp [jwtService.ValidateRefreshToken, herr] at hv

/-- C30 (as amended): When the Engine's refreshTokenTTL equals the Codec's
refreshTTL, every Session Token Record was created by Login or RefreshToken
(the store was empty before the operations) and the clock of each operation
does not go backwards, then in every state the operations reach: a record's
`expires_at` is never earlier than the `exp` claim of its token string; a
token that passes ValidateRefreshToken at `now` has `now` before the
`expires_at` of each of its records; and RefreshToken does not answer
`refresh token is expired` when its expiry check reads a clock that is not
later than the clock the codec read. -/
theorem C30_record_outlives_token (u : authUsecase) (db0 : DB) (ops : List Op)
    (httl : u.refreshTokenTTL = u.jwtService.refreshTTL) (hempty : db0.tokens = [])
    (hmono : ∀ op ∈ ops, ClockMonotone op.env) :
    ExpiryCovered (runOps u db0 ops) ∧
      (∀ (now : Time) (t : TokenString) (claims : RefreshClaims),
        u.jwtService.ValidateRefreshToken now t = .ok claims →
        ∀ r ∈ (runOps u db0 ops).tokens, r.Token = t → now < r.ExpiresAt) ∧
      ∀ (env : Env) (t : TokenString), env.now 1 ≤ env.now 0 →
        (u.RefreshToken env (runOps u db0 ops) t).1 ≠
          .error (.new "refresh token is expired") := by
  have hcov0 : ExpiryCovered db0 := by
    intro r hr
    rw [hempty] at hr
    cases hr
  have hcov := runOps_expiryCovered u ops httl db0 hmono hcov0
  have hvalid : ∀ (now : Time) (t : TokenString) (claims : RefreshClaims),
      u.jwtService.ValidateRefreshToken now t = .ok claims →
      ∀ r ∈ (runOps u db0 ops).tokens, r.Token = t → now < r.ExpiresAt := by
    intro now t claims hv r hr ht
    obtain ⟨e, he, hle⟩ := hcov r hr
    rw [ht] at he
    exact lt_of_lt_of_le (validateRefresh_before_exp u.jwtService now t claims e hv he) hle
  refine ⟨hcov, hvalid, ?_⟩
  intro env t hclock
  generalize runOps u db0 ops = db at hvalid
  unfold authUsecase.RefreshToken
  cases hv : u.jwtService.ValidateRefreshToken (env.now 0) t with
  | error err =>
    intro h
    cases h
  | ok claims =>
    simp only
    cases hg : tokenRepository.GetRefreshToken (env.dbErr 0) db t with
    | error err =>
      intro h
      cases h
    | ok found =>
      cases found with
      | none =>
        intro h
        exact absurd (Err.new.inj (Except.error.inj h)) (by decide)
      | some tokenEntity =>
        have hfind := GetRefreshToken_some_inv _ db t tokenEntity hg
        have hlt := hvalid (env.now 0) t claims hv tokenEntity
          (List.mem_of_find?_eq_some hfind) (by simpa using List.find?_some hfind)
        have hexp : ¬ tokenEntity.ExpiresAt < env.now 1 :=
          not_lt.mpr (le_trans hclock (le_of_lt hlt))
        simp only
        by_cases hrev : tokenEntity.Revoked = true
        · simp only [hrev, if_true]
          intro h
          exact absurd (Err.new.inj (Except.error.inj h)) (by decide)
        · simp only [hrev, Time.Before, hexp, decide_False, Bool.false_eq_true, if_false]
          cases hu : userRepository.GetByID (env.dbErr 1) db claims.UserID with
          | error err =>
            intro h
            cases h
          | ok ufound =>
            cases ufound with
            | none =>
              intro h
              exact absurd (Err.new.inj (Except.error.inj h)) (by decide)
            | some user =>
              simp only
              cases hr : tokenRepository.RevokeRefreshToken (env.dbErr 2) db t with
              | error err =>
                intro h
                cases h
              | ok db1 =>
                simp only [generateAccess_eq, generateRefresh_eq]
                split
                · intro h
                  cases h
                · intro h
                  cases h

theorem C30_record_outlives_token_witness :
    ExpiryCovered
        (runOps exampleUsecase emptyDB
          [.register (quietEnv (5 * Second))
              { Email := "a@x.com", Password := "secret1", FullName := "A" },
           .login (quietEnv (6 * Second)) { Email := "a@x.com", Password := "secret1" }]) ∧
      (604806 * Second - 1 : Time) < (604806 * Second : Time) ∧
      (exampleUsecase.RefreshToken (quietEnv (604806 * Second - 1))
          (runOps exampleUsecase emptyDB
            [.register (quietEnv (5 * Second))
                { Email := "a@x.com", Password := "secret1", FullName := "A" },
             .login (quietEnv (6 * Second)) { Email := "a@x.com", Password := "secret1" }])
          aliceRefresh).1 ≠ .error (.new "refresh token is expired") :=
  have hmono : ∀ op ∈
      [Op.register (quietEnv (5 * Second))
          { Email := "a@x.com", Password := "secret1", FullName := "A" },
       Op.login (quietEnv (6 * Second)) { Email := "a@x.com", Password := "secret1" }],
      ClockMonotone op.env := by
    intro op hop i j _
    simp only [List.mem_cons, List.mem_singleton, List.not_mem_nil, or_false] at hop
    rcases hop with h | h <;> subst h <;> exact le_refl _
  ⟨(C30_record_outlives_token exampleUsecase emptyDB _ rfl rfl hmono).1,
   (C30_record_outlives_token exampleUsecase emptyDB _ rfl rfl hmono).2.1
      (604806 * Second - 1) aliceRefresh
      { UserID := 1, ExpiresAt := some 604806, IssuedAt := some 6, NotBefore := some 6 }
      (by rfl)
      { ID := 1, UserID := 1, Token := aliceRefresh, ExpiresAt := 604806 * Second,
        Revoked := false, CreatedAt := 6 * Second }
      (by
        show _ ∈ sessionDB.tokens
        decide)
      rfl,
   (C30_record_outlives_token exampleUsecase emptyDB _ rfl rfl hmono).2.2
      (quietEnv (604806 * Second - 1)) aliceRefresh (le_refl _)⟩

/-- C30 fails as stated: the TokenExpired branch is reached with equal TTLs in a
state produced by Register and Login: the codec reads the clock just before
the `exp` of the token, the expiry check reads it just after the record's
`expires_at`. -/
theorem C30_expired_branch_reached_between_clock_readings :
    exampleUsecase.refreshTokenTTL = exampleUsecase.jwtService.refreshTTL ∧
      runOps exampleUsecase emptyDB
          [.register (quietEnv (5 * Second))
              { Email := "a@x.com", Password := "secret1", FullName := "A" },
           .login (quietEnv (6 * Second)) { Email := "a@x.com", Password := "secret1" }] =
        sessionDB ∧
      exampleUsecase.jwtService.ValidateRefreshToken (lateCheckEnv.now 0) aliceRefresh =
        .ok { UserID := 1, ExpiresAt := some 604806, IssuedAt := some 6, NotBefore := some 6 } ∧
      lateCheckEnv.now 0 ≤ lateCheckEnv.now 1 ∧
      exampleUsecase.RefreshToken lateCheckEnv sessionDB aliceRefresh =
        (.error (.new "refresh token is expired"), sessionDB) := by
  refine ⟨rfl, rfl, rfl, by decide, rfl⟩

/-! ## Password hasher -/

/-! ## bcrypt: encoding and parsing -/

theorem bcryptAlphabet_eq :
    bcryptAlphabet =
      [46, 47, 65, 66, 67, 68, 69, 70, 71, 72, 73, 74, 75, 76, 77, 78, 79, 80, 81, 82, 83, 84,
       85, 86, 87, 88, 89, 90, 97, 98, 99, 100, 101, 102, 103, 104, 105, 106, 107, 108, 109, 110,
       111, 112, 113, 114, 115, 116, 117, 118, 119, 120, 121, 122, 48, 49, 50, 51, 52, 53, 54,
       55, 56, 57] := by
  decide

theorem bcryptAlphabet_getD_lt (i : Nat) : bcryptAlphabet.getD i 0 < 128 := by
  rw [bcryptAlphabet_eq]
  by_cases h : i < 64
  · interval_cases i <;> decide
  · rw [List.getD_eq_default _ _ (by simpa using h)]
    decide

theorem bcryptAlphabet_getD_inj (i j : Nat) (hi : i < 64) (hj : j < 64)
    (h : bcryptAlphabet.getD i 0 = bcryptAlphabet.getD j 0) : i = j := by
  have hnd : bcryptAlphabet.Nodup := by rw [bcryptAlphabet_eq]; decide
  have hlen : bcryptAlphabet.length = 64 := by rw [bcryptAlphabet_eq]; rfl
  have hi1 : i < bcryptAlphabet.length := by omega
  have hj1 : j < bcryptAlphabet.length := by omega
  rw [List.getD_eq_getElem _ _ hi1, List.getD_eq_getElem _ _ hj1] at h
  exact (hnd.getElem_inj_iff).mp h

theorem base64Encode_length (bytes : List Nat) :
    (base64Encode bytes).length = (4 * bytes.length + 2) / 3 := by
  induction bytes using base64Encode.induct with
  | case1 => rfl
  | case2 a => simp [base64Encode]
  | case3 a b => simp [base64Encode]
  | case4 a b c rest ih =>
    simp only [base64Encode, List.length_cons, ih]
    omega

theorem base64Encode_lt (bytes : List Nat) : ∀ b ∈ base64Encode bytes, b < 128 := by
  induction bytes using base64Encode.induct with
  | case1 => simp [base64Encode]
  | case2 a =>
    intro x hx
    simp only [base64Encode, List.mem_cons, List.mem_nil_iff, or_false] at hx
    rcases hx with rfl | rfl <;> exact bcryptAlphabet_getD_lt _
  | case3 a b =>
    intro x hx
    simp only [base64Encode, List.mem_cons, List.mem_nil_iff, or_false] at hx
    rcases hx with rfl | rfl | rfl <;> exact bcryptAlphabet_getD_lt _
  | case4 a b c rest ih =>
    intro x hx
    simp only [base64Encode, List.mem_cons] at hx
    rcases hx with rfl | rfl | rfl | rfl | hx
    · exact bcryptAlphabet_getD_lt _
    · exact bcryptAlphabet_getD_lt _
    · exact bcryptAlphabet_getD_lt _
    · exact bcryptAlphabet_getD_lt _
    · exact ih x hx

theorem base64Encode_inj (xs : List Nat) :
    ∀ ys : List Nat, xs.length = ys.length → (∀ b ∈ xs, b < 256) → (∀ b ∈ ys, b < 256) →
      base64Encode xs = base64Encode ys → xs = ys := by
  induction xs using base64Encode.induct with
  | case1 =>
    intro ys hl _ _ _
    exact (List.length_eq_zero.mp hl.symm).symm
  | case2 a =>
    intro ys hl hx hy h
    match ys, hl, hy, h with
    | [a1], _, hy, h =>
      simp only [base64Encode, List.cons.injEq, and_true] at h
      have ha := hx a (by simp)
      have ha1 := hy a1 (by simp)
      have e1 := bcryptAlphabet_getD_inj _ _ (by omega) (by omega) h.1
      have e2 := bcryptAlphabet_getD_inj _ _ (by omega) (by omega) h.2
      have : a = a1 := by omega
      rw [this]
  | case3 a b =>
    intro ys hl hx hy h
    match ys, hl, hy, h with
    | [a1, b1], _, hy, h =>
      simp only [base64Encode, List.cons.injEq, and_true] at h
      have ha := hx a (by simp)
      have hb := hx b (by simp)
      have ha1 := hy a1 (by simp)
      have hb1 := hy b1 (by simp)
      have e1 := bcryptAlphabet_getD_inj _ _ (by omega) (by omega) h.1
      have e2 := bcryptAlphabet_getD_inj _ _ (by omega) (by omega) h.2.1
      have e3 := bcryptAlphabet_getD_inj _ _ (by omega) (by omega) h.2.2
      have : a = a1 := by omega
      have : b = b1 := by omega
      subst_vars
      rfl
  | case4 a b c rest ih =>
    intro ys hl hx hy h
    match ys, hl, hy, h with
    | a1 :: b1 :: c1 :: rest1, hl, hy, h =>
      simp only [base64Encode, List.cons.injEq] at h
      have ha := hx a (by simp)
      have hb := hx b (by simp)
      have hc := hx c (by simp)
      have ha1 := hy a1 (by simp)
      have hb1 := hy b1 (by simp)
      have hc1 := hy c1 (by simp)
      have e1 := bcryptAlphabet_getD_inj _ _ (by omega) (by omega) h.1
      have e2 := bcryptAlphabet_getD_inj _ _ (by omega) (by omega) h.2.1
      have e3 := bcryptAlphabet_getD_inj _ _ (by omega) (by omega) h.2.2.1
      have e4 := bcryptAlphabet_getD_inj _ _ (by omega) (by omega) h.2.2.2.1
      have hr := ih rest1 (by simpa using hl) (fun x hx1 => hx x (by simp [hx1]))
        (fun x hx1 => hy x (by simp [hx1])) h.2.2.2.2
      have : a = a1 := by omega
      have : b = b1 := by omega
      have : c = c1 := by omega
      subst_vars
      rfl

theorem stringBytes_bytesToString (bytes : List Nat) (h : ∀ b ∈ bytes, b < 128) :
    stringBytes (bytesToString bytes) = bytes := by
  induction bytes with
  | nil => rfl
  | cons b rest ih =>
    have hb : b < 128 := h b (by simp)
    have hr := ih (fun x hx => h x (by simp [hx]))
    have e : utf8EncodeNat (Char.ofNat b).toNat = [b] := by
      interval_cases b <;> rfl
    simp only [stringBytes, bytesToString, List.map_cons, List.flatMap_cons, e] at hr ⊢
    rw [hr]
    rfl

theorem atoi2_sprintf02d (cost : Int) (h4 : 4 ≤ cost) (h31 : cost ≤ 31) :
    atoi2 (48 + (cost / 10 % 10).toNat) (48 + (cost % 10).toNat) = .ok cost := by
  interval_cases cost <;> rfl

theorem hashed_Hash_eq (hash salt : List Nat) (cost : Int) (hh : hash.length = 31) :
    hashed.Hash { hash := hash, salt := salt, cost := cost, major := 50, minor := 97 } =
      36 :: 50 :: 97 :: 36 :: (48 + (cost / 10 % 10).toNat) :: (48 + (cost % 10).toNat) :: 36 ::
        (salt ++ hash) := by
  simp [hashed.Hash, sprintf02d, List.take_of_length_le, hh]

theorem newFromHash_Hash (hash salt : List Nat) (cost : Int) (h4 : 4 ≤ cost) (h31 : cost ≤ 31)
    (hs : salt.length = 22) (hh : hash.length = 31) :
    newFromHash
        (hashed.Hash { hash := hash, salt := salt, cost := cost, major := 50, minor := 97 }) =
      .ok { hash := hash, salt := salt, cost := cost, major := 50, minor := 97 } := by
  rw [hashed_Hash_eq hash salt cost hh]
  have hc : checkCost cost = .ok () := by
    unfold checkCost
    rw [if_neg (by omega)]
  simp [newFromHash, hs, hh, atoi2_sprintf02d cost h4 h31, hc, List.take_append_of_le_length,
    List.drop_append_of_le_length]

theorem hashed_Hash_inj (hash hash1 salt : List Nat) (cost : Int) (hh : hash.length = 31)
    (hh1 : hash1.length = 31) :
    hashed.Hash { hash := hash, salt := salt, cost := cost, major := 50, minor := 97 } =
        hashed.Hash { hash := hash1, salt := salt, cost := cost, major := 50, minor := 97 } ↔
      hash = hash1 := by
  rw [hashed_Hash_eq hash salt cost hh, hashed_Hash_eq hash1 salt cost hh1]
  simp

theorem hashed_Hash_lt (hash salt : List Nat) (cost : Int)
    (hh : hash.length = 31) (hsalt : ∀ b ∈ salt, b < 128) (hhash : ∀ b ∈ hash, b < 128) :
    ∀ b ∈ hashed.Hash { hash := hash, salt := salt, cost := cost, major := 50, minor := 97 },
      b < 128 := by
  rw [hashed_Hash_eq hash salt cost hh]
  intro b hb
  simp only [List.mem_cons, List.mem_append] at hb
  rcases hb with rfl | rfl | rfl | rfl | rfl | rfl | rfl | hb | hb
  · decide
  · decide
  · decide
  · decide
  · omega
  · omega
  · decide
  · exact hsalt b hb
  · exact hhash b hb

theorem GenerateFromPassword_ok_iff (prim : BcryptPrimitives) (password : String) (cost : Int)
    (rand : Nat) (d : String) :
    GenerateFromPassword prim password cost rand = .ok d ↔
      (stringBytes password).length ≤ 72 ∧ cost ≤ 31 ∧
        ∃ salt out, prim.readSalt rand = .ok salt ∧
          prim.blowfish (stringBytes password) (if cost < 4 then 10 else cost)
            (base64Encode salt.val) = .ok out ∧
          d = generatedDigest cost salt.val out.val := by
  unfold GenerateFromPassword
  by_cases hlen : 72 < (stringBytes password).length
  · rw [if_pos hlen]
    constructor
    · intro h; cases h
    · rintro ⟨h, _⟩; omega
  rw [if_neg hlen]
  simp only [newFromPassword, checkCost]
  by_cases hc : (if cost < 4 then (10 : Int) else cost) < 4 ∨ 31 < (if cost < 4 then 10 else cost)
  · rw [if_pos hc]
    constructor
    · intro h; cases h
    · rintro ⟨_, h31, _⟩
      exfalso
      split_ifs at hc <;> omega
  rw [if_neg hc]
  have h31 : cost ≤ 31 := by split_ifs at hc <;> omega
  cases hs : prim.readSalt rand with
  | error err =>
    simp only []
    constructor
    · intro h; cases h
    · rintro ⟨_, _, salt, out, h, _⟩; cases h
  | ok salt =>
    simp only [bcryptHash]
    cases hb : prim.blowfish (stringBytes password) (if cost < 4 then 10 else cost)
        (base64Encode salt.val) with
    | error err =>
      simp only []
      constructor
      · intro h; cases h
      · rintro ⟨_, _, salt1, out, h1, h2, _⟩
        cases h1
        rw [hb] at h2
        cases h2
    | ok out =>
      simp only [Except.ok.injEq]
      constructor
      · intro h
        exact ⟨by omega, h31, salt, out, rfl, hb, h.symm⟩
      · rintro ⟨_, _, salt1, out1, h1, h2, h3⟩
        cases h1
        rw [hb] at h2
        cases h2
        exact h3.symm

theorem GenerateFromPassword_error_iff (prim : BcryptPrimitives) (password : String) (cost : Int)
    (rand : Nat) (err : Err) :
    GenerateFromPassword prim password cost rand = .error err ↔
      (72 < (stringBytes password).length ∧ err = ErrPasswordTooLong) ∨
        ((stringBytes password).length ≤ 72 ∧ 31 < cost ∧ err = InvalidCostError cost) ∨
        ((stringBytes password).length ≤ 72 ∧ cost ≤ 31 ∧ prim.readSalt rand = .error err) ∨
        ((stringBytes password).length ≤ 72 ∧ cost ≤ 31 ∧
          ∃ salt, prim.readSalt rand = .ok salt ∧
            prim.blowfish (stringBytes password) (if cost < 4 then 10 else cost)
              (base64Encode salt.val) = .error err) := by
  unfold GenerateFromPassword
  by_cases hlen : 72 < (stringBytes password).length
  · rw [if_pos hlen]
    constructor
    · intro h
      cases h
      exact .inl ⟨hlen, rfl⟩
    · rintro (⟨_, rfl⟩ | ⟨h, _⟩ | ⟨h, _⟩ | ⟨h, _⟩)
      · rfl
      all_goals omega
  rw [if_neg hlen]
  simp only [newFromPassword, checkCost]
  by_cases hc : (if cost < 4 then (10 : Int) else cost) < 4 ∨ 31 < (if cost < 4 then 10 else cost)
  · rw [if_pos hc]
    have h31 : 31 < cost := by split_ifs at hc <;> omega
    have hc1 : (if cost < 4 then (10 : Int) else cost) = cost := by rw [if_neg (by omega)]
    rw [hc1]
    constructor
    · intro h
      cases h
      exact .inr (.inl ⟨by omega, h31, rfl⟩)
    · rintro (⟨h, _⟩ | ⟨_, _, rfl⟩ | ⟨_, h, _⟩ | ⟨_, h, _⟩)
      · omega
      · rfl
      all_goals omega
  rw [if_neg hc]
  have h31 : cost ≤ 31 := by split_ifs at hc <;> omega
  cases hs : prim.readSalt rand with
  | error e =>
    simp only [Except.error.injEq]
    constructor
    · rintro rfl
      exact .inr (.inr (.inl ⟨by omega, h31, rfl⟩))
    · rintro (⟨h, _⟩ | ⟨_, h, _⟩ | ⟨_, _, h⟩ | ⟨_, _, salt, h, _⟩)
      · omega
      · omega
      · exact h
      · cases h
  | ok salt =>
    simp only [bcryptHash]
    cases hb : prim.blowfish (stringBytes password) (if cost < 4 then 10 else cost)
        (base64Encode salt.val) with
    | error e =>
      simp only [Except.error.injEq]
      constructor
      · rintro rfl
        exact .inr (.inr (.inr ⟨by omega, h31, salt, rfl, hb⟩))
      · rintro (⟨h, _⟩ | ⟨_, h, _⟩ | ⟨_, _, h⟩ | ⟨_, _, salt1, h1, h2⟩)
        · omega
        · omega
        · cases h
        · cases h1
          rw [hb] at h2
          cases h2
          rfl
    | ok out =>
      simp only []
      constructor
      · intro h; cases h
      · rintro (⟨h, _⟩ | ⟨_, h, _⟩ | ⟨_, _, h⟩ | ⟨_, _, salt1, h1, h2⟩)
        · omega
        · omega
        · cases h
        · cases h1
          rw [hb] at h2
          cases h2

theorem CompareHashAndPassword_generated (prim : BcryptPrimitives) (password : String)
    (cost : Int) (h31 : cost ≤ 31)
    (salt : { salt : List Nat // salt.length = 16 ∧ ∀ b ∈ salt, b < 256 })
    (out0 : { out : List Nat // out.length = 24 ∧ ∀ b ∈ out, b < 256 }) :
    CompareHashAndPassword prim (generatedDigest cost salt.val out0.val) password = .ok () ↔
      ∃ out, prim.blowfish (stringBytes password) (if cost < 4 then 10 else cost)
          (base64Encode salt.val) = .ok out ∧ out.val.take 23 = out0.val.take 23 := by
  have hc4 : (4 : Int) ≤ (if cost < 4 then 10 else cost) := by split_ifs <;> omega
  have hc31 : (if cost < 4 then (10 : Int) else cost) ≤ 31 := by split_ifs <;> omega
  unfold CompareHashAndPassword generatedDigest
  generalize (if cost < 4 then (10 : Int) else cost) = c at hc4 hc31 ⊢
  have hs : (base64Encode salt.val).length = 22 := by
    rw [base64Encode_length, salt.property.1]
  have hh : ∀ out : { out : List Nat // out.length = 24 ∧ ∀ b ∈ out, b < 256 },
      (base64Encode (out.val.take 23)).length = 31 := by
    intro out
    rw [base64Encode_length, List.length_take, out.property.1]
    rfl
  rw [stringBytes_bytesToString _
      (hashed_Hash_lt _ _ c (hh out0) (base64Encode_lt _) (base64Encode_lt _)),
    newFromHash_Hash _ _ c hc4 hc31 hs (hh out0)]
  simp only [bcryptHash]
  cases hb : prim.blowfish (stringBytes password) c (base64Encode salt.val) with
  | error err =>
    simp only []
    constructor
    · intro h; cases h
    · rintro ⟨out, h, _⟩; cases h
  | ok out =>
    simp only [hashed_Hash_inj _ _ _ c (hh out0) (hh out), Except.ok.injEq]
    have htake : ∀ o : { out : List Nat // out.length = 24 ∧ ∀ b ∈ out, b < 256 },
        ∀ b ∈ o.val.take 23, b < 256 := fun o b hb1 => o.property.2 b (List.mem_of_mem_take hb1)
    constructor
    · intro h
      split at h
      · rename_i heq
        refine ⟨out, rfl, ?_⟩
        exact (base64Encode_inj _ _ (by simp [out.property.1, out0.property.1]) (htake out0)
          (htake out) heq).symm
      · cases h
    · rintro ⟨out1, h1, h2⟩
      cases h1
      rw [h2, if_pos rfl]

theorem CheckPassword_eq_true_iff (lib : BcryptLib) (cost : Int) (password hashedPassword : String) :
    (NewPasswordService lib cost).CheckPassword password hashedPassword = true ↔
      lib.CompareHashAndPassword hashedPassword password = .ok () := by
  unfold passwordService.CheckPassword NewPasswordService
  cases hc : lib.CompareHashAndPassword hashedPassword password with
  | error err => simp
  | ok v => simp

theorem HashPassword_eq (lib : BcryptLib) (cost : Int) (rand : Nat) (password : String) :
    (NewPasswordService lib cost).HashPassword rand password =
      lib.GenerateFromPassword password cost rand := by
  unfold passwordService.HashPassword NewPasswordService
  cases hg : lib.GenerateFromPassword password cost rand with
  | error e => rfl
  | ok d => rfl

theorem CheckPassword_goBcrypt (prim : BcryptPrimitives) (cost : Int)
    (password hashedPassword : String) :
    (NewPasswordService (goBcrypt prim) cost).CheckPassword password hashedPassword = true ↔
      CompareHashAndPassword prim hashedPassword password = .ok () :=
  CheckPassword_eq_true_iff (goBcrypt prim) cost password hashedPassword

theorem HashPassword_goBcrypt (prim : BcryptPrimitives) (cost : Int) (rand : Nat)
    (password : String) :
    (NewPasswordService (goBcrypt prim) cost).HashPassword rand password =
      GenerateFromPassword prim password cost rand :=
  HashPassword_eq (goBcrypt prim) cost rand password

theorem CompareHashAndPassword_ok_iff (prim : BcryptPrimitives) (hashedPassword password : String) :
    CompareHashAndPassword prim hashedPassword password = .ok () ↔
      ∃ p otherHash, newFromHash (stringBytes hashedPassword) = .ok p ∧
        bcryptHash prim (stringBytes password) p.cost p.salt = .ok otherHash ∧
        p.Hash = hashed.Hash { p with hash := otherHash } := by
  unfold CompareHashAndPassword
  cases hp : newFromHash (stringBytes hashedPassword) with
  | error err =>
    simp only []
    constructor
    · intro h; cases h
    · rintro ⟨p, _, h, _⟩; cases h
  | ok p =>
    simp only []
    cases hb : bcryptHash prim (stringBytes password) p.cost p.salt with
    | error err =>
      simp only []
      constructor
      · intro h; cases h
      · rintro ⟨p1, o, h1, h2, _⟩
        cases h1
        rw [hb] at h2
        cases h2
    | ok otherHash =>
      simp only []
      constructor
      · intro h
        split at h
        · rename_i heq
          exact ⟨p, otherHash, rfl, hb, heq⟩
        · cases h
      · rintro ⟨p1, o, h1, h2, h3⟩
        cases h1
        rw [hb] at h2
        cases h2
        rw [if_pos h3]

theorem newFromHash_malformed (hashedSecret : List Nat)
    (h : hashedSecret.length < 59 ∨ hashedSecret.getD 0 0 ≠ 36 ∨ 50 < hashedSecret.getD 1 0) :
    ∃ err, newFromHash hashedSecret = .error err := by
  unfold newFromHash
  by_cases h1 : hashedSecret.length < 59
  · exact ⟨_, if_pos h1⟩
  rw [if_neg h1]
  by_cases h2 : hashedSecret.getD 0 0 ≠ 36
  · exact ⟨_, if_pos h2⟩
  rw [if_neg h2]
  by_cases h3 : 50 < hashedSecret.getD 1 0
  · exact ⟨_, if_pos h3⟩
  · exfalso
    rcases h with h | h | h
    · exact h1 h
    · exact h2 h
    · exact h3 h

/-- C21: CheckPassword returns a boolean for every plaintext and every digest
string and has no error result.  It is `true` exactly when the digest parses,
the hash of the plaintext under the digest's own cost and salt is computed and
the two encoded hashes agree.  It is `false` for every digest the library
cannot parse: one shorter than 59 bytes (the empty one among them), one that
does not start with `$`, one of a version above `2`, and any other parse
error.  The result does not depend on the cost the service was constructed
with.  A digest HashPassword returned under one cost is accepted for its own
plaintext by a service of any other cost, and for another plaintext exactly
when the first 23 cipher bytes computed for it under the digest's cost and
salt are those of the digest, so a plaintext with other cipher bytes is
answered `false`. -/
theorem C21_check_password_total (prim : BcryptPrimitives) (cost cost1 : Int) (rand : Nat)
    (password hashedPassword : String) :
    ((NewPasswordService (goBcrypt prim) cost).CheckPassword password hashedPassword = true ↔
        ∃ p otherHash, newFromHash (stringBytes hashedPassword) = .ok p ∧
          bcryptHash prim (stringBytes password) p.cost p.salt = .ok otherHash ∧
          p.Hash = hashed.Hash { p with hash := otherHash }) ∧
      ((stringBytes hashedPassword).length < 59 ∨ (stringBytes hashedPassword).getD 0 0 ≠ 36 ∨
          50 < (stringBytes hashedPassword).getD 1 0 →
        (NewPasswordService (goBcrypt prim) cost).CheckPassword password hashedPassword = false) ∧
      (∀ err, newFromHash (stringBytes hashedPassword) = .error err →
        (NewPasswordService (goBcrypt prim) cost).CheckPassword password hashedPassword = false) ∧
      (NewPasswordService (goBcrypt prim) cost).CheckPassword password "" = false ∧
      (NewPasswordService (goBcrypt prim) cost1).CheckPassword password hashedPassword =
        (NewPasswordService (goBcrypt prim) cost).CheckPassword password hashedPassword ∧
      ∀ plaintext d,
        (NewPasswordService (goBcrypt prim) cost).HashPassword rand plaintext = .ok d →
        (NewPasswordService (goBcrypt prim) cost1).CheckPassword plaintext d = true ∧
          ∃ salt out0, prim.readSalt rand = .ok salt ∧
            prim.blowfish (stringBytes plaintext) (if cost < 4 then 10 else cost)
              (base64Encode salt.val) = .ok out0 ∧
            ((NewPasswordService (goBcrypt prim) cost1).CheckPassword password d = true ↔
              ∃ out, prim.blowfish (stringBytes password) (if cost < 4 then 10 else cost)
                  (base64Encode salt.val) = .ok out ∧
                out.val.take 23 = out0.val.take 23) := by
  have hfalse : ∀ d, (∃ err, newFromHash (stringBytes d) = .error err) →
      (NewPasswordService (goBcrypt prim) cost).CheckPassword password d = false := by
    rintro d ⟨err, herr⟩
    simp [passwordService.CheckPassword, NewPasswordService, goBcrypt, CompareHashAndPassword,
      herr]
  refine ⟨?_, ?_, ?_, ?_, rfl, ?_⟩
  · rw [CheckPassword_goBcrypt]
    exact CompareHashAndPassword_ok_iff prim hashedPassword password
  · intro h
    exact hfalse _ (newFromHash_malformed _ h)
  · intro err herr
    exact hfalse _ ⟨err, herr⟩
  · exact hfalse _ ⟨_, rfl⟩
  · intro plaintext d hd
    rw [HashPassword_goBcrypt] at hd
    obtain ⟨_, h31, salt, out0, hs, hb, rfl⟩ :=
      (GenerateFromPassword_ok_iff prim plaintext cost rand d).mp hd
    refine ⟨?_, salt, out0, hs, hb, ?_⟩
    · rw [CheckPassword_goBcrypt]
      exact (CompareHashAndPassword_generated prim plaintext cost h31 salt out0).mpr
        ⟨out0, hb, rfl⟩
    · rw [CheckPassword_goBcrypt]
      exact CompareHashAndPassword_generated prim password cost h31 salt out0

theorem C21_check_password_total_witness :
    (NewPasswordService (goBcrypt examplePrimitives) 12).CheckPassword "secret1" "" = false ∧
      (NewPasswordService (goBcrypt examplePrimitives) 12).CheckPassword "secret1"
          "$2a$12$secret1" = false ∧
      (NewPasswordService (goBcrypt examplePrimitives) 12).HashPassword 0 "secret1" =
          .ok "$2a$12$..CA.uOD/eaGAOmJB.yMBua0ThakTyKOusJiL/JlTNPA7jWSb/R0y" ∧
      (NewPasswordService (goBcrypt examplePrimitives) 14).CheckPassword "secret1"
          "$2a$12$..CA.uOD/eaGAOmJB.yMBua0ThakTyKOusJiL/JlTNPA7jWSb/R0y" = true ∧
      (NewPasswordService (goBcrypt examplePrimitives) 14).CheckPassword "secret2"
          "$2a$12$..CA.uOD/eaGAOmJB.yMBua0ThakTyKOusJiL/JlTNPA7jWSb/R0y" = false :=
  ⟨(C21_check_password_total examplePrimitives 12 14 0 "secret1" "").2.2.2.1,
   (C21_check_password_total examplePrimitives 12 14 0 "secret1" "$2a$12$secret1").2.1
      (.inl (by decide)),
   rfl,
   ((C21_check_password_total examplePrimitives 12 14 0 "secret1" "").2.2.2.2.2
      "secret1" "$2a$12$..CA.uOD/eaGAOmJB.yMBua0ThakTyKOusJiL/JlTNPA7jWSb/R0y" rfl).1,
   rfl⟩

/-- C22, as written: HashPassword also fails when neither the entropy source
nor the computation does.  With primitives that never fail it returns
`ErrPasswordTooLong` for a plaintext of 73 bytes under cost 12, and the cost
error for the plaintext `secret1` when the service was constructed with cost
32. -/
theorem C22_long_plaintext_and_high_cost_fail :
    (∀ rand, ∃ salt, examplePrimitives.readSalt rand = .ok salt) ∧
      (∀ password cost salt, ∃ out, examplePrimitives.blowfish password cost salt = .ok out) ∧
      (stringBytes longPlaintext).length = 73 ∧
      (NewPasswordService (goBcrypt examplePrimitives) 12).HashPassword 0 longPlaintext =
        .error (.new "bcrypt: password length exceeds 72 bytes") ∧
      (NewPasswordService (goBcrypt examplePrimitives) 32).HashPassword 0 "secret1" =
        .error (.new "crypto/bcrypt: cost 32 is outside allowed inclusive range 4..31") :=
  ⟨fun _ => ⟨_, rfl⟩, fun _ _ _ => ⟨_, rfl⟩, by decide, by rfl, by rfl⟩

/-- C22, amended: HashPassword fails exactly in four cases, each with the
library's error unchanged: the plaintext is longer than 72 bytes; the cost the
service was constructed with is above 31 (a cost below 4 is replaced by 10);
the entropy source fails; the computation fails.  For a plaintext of at most
72 bytes and a cost of at most 31, when the entropy source and the computation
do not fail HashPassword returns a digest `d` of 60 bytes with
`CheckPassword(plaintext, d) = true`. -/
theorem C22_hash_password_roundtrip (prim : BcryptPrimitives) (cost : Int) (rand : Nat)
    (password : String) :
    (∀ err, (NewPasswordService (goBcrypt prim) cost).HashPassword rand password = .error err ↔
        (72 < (stringBytes password).length ∧ err = ErrPasswordTooLong) ∨
          ((stringBytes password).length ≤ 72 ∧ 31 < cost ∧ err = InvalidCostError cost) ∨
          ((stringBytes password).length ≤ 72 ∧ cost ≤ 31 ∧ prim.readSalt rand = .error err) ∨
          ((stringBytes password).length ≤ 72 ∧ cost ≤ 31 ∧
            ∃ salt, prim.readSalt rand = .ok salt ∧
              prim.blowfish (stringBytes password) (if cost < 4 then 10 else cost)
                (base64Encode salt.val) = .error err)) ∧
      ((stringBytes password).length ≤ 72 → cost ≤ 31 →
        ∀ salt out, prim.readSalt rand = .ok salt →
          prim.blowfish (stringBytes password) (if cost < 4 then 10 else cost)
            (base64Encode salt.val) = .ok out →
          ∃ d, (NewPasswordService (goBcrypt prim) cost).HashPassword rand password = .ok d ∧
            (stringBytes d).length = 60 ∧
            (NewPasswordService (goBcrypt prim) cost).CheckPassword password d = true) := by
  constructor
  · intro err
    rw [HashPassword_goBcrypt]
    exact GenerateFromPassword_error_iff prim password cost rand err
  · intro hlen h31 salt out hs hb
    refine ⟨generatedDigest cost salt.val out.val, ?_, ?_, ?_⟩
    · rw [HashPassword_goBcrypt]
      exact (GenerateFromPassword_ok_iff prim password cost rand _).mpr
        ⟨hlen, h31, salt, out, hs, hb, rfl⟩
    · have hh : (base64Encode (out.val.take 23)).length = 31 := by
        rw [base64Encode_length, List.length_take, out.property.1]
        rfl
      have hsl : (base64Encode salt.val).length = 22 := by
        rw [base64Encode_length, salt.property.1]
      unfold generatedDigest
      rw [stringBytes_bytesToString _
          (hashed_Hash_lt _ _ _ hh (base64Encode_lt _) (base64Encode_lt _)),
        hashed_Hash_eq _ _ _ hh]
      simp [hh, hsl]
    · rw [CheckPassword_goBcrypt]
      exact (CompareHashAndPassword_generated prim password cost h31 salt out).mpr
        ⟨out, hb, rfl⟩

theorem C22_hash_password_roundtrip_witness :
    (NewPasswordService (goBcrypt examplePrimitives) 12).HashPassword 0 "secret1" =
        .ok "$2a$12$..CA.uOD/eaGAOmJB.yMBua0ThakTyKOusJiL/JlTNPA7jWSb/R0y" ∧
      (∃ d, (NewPasswordService (goBcrypt examplePrimitives) 12).HashPassword 0 "secret1" =
          .ok d ∧
        (stringBytes d).length = 60 ∧
        (NewPasswordService (goBcrypt examplePrimitives) 12).CheckPassword "secret1" d = true) ∧
      (NewPasswordService (goBcrypt examplePrimitives) 3).HashPassword 7 "secret2" =
        .ok "$2a$10$/ueHAeqKBO2NC/CQCvOTDea0ThakTyKemtbUTGOUTvQyHNKi3BJyK" ∧
      (NewPasswordService (goBcrypt examplePrimitives) 40).HashPassword 0 "secret1" =
        .error (InvalidCostError 40) :=
  ⟨rfl,
   (C22_hash_password_roundtrip examplePrimitives 12 0 "secret1").2 (by decide) (by decide)
      _ _ rfl rfl,
   rfl,
   ((C22_hash_password_roundtrip examplePrimitives 40 0 "secret1").1 (InvalidCostError 40)).mpr
      (.inr (.inl ⟨by decide, by decide, rfl⟩))⟩

/-! ## Page count: the float computation against the exact ceiling -/

theorem roundHalfEven_intCast (z : ℤ) : roundHalfEven (z : ℚ) = z := by
  simp [roundHalfEven]

theorem floor_le_roundHalfEven (q : ℚ) : ⌊q⌋ ≤ roundHalfEven q := by
  unfold roundHalfEven
  simp only
  split
  · exact le_refl _
  · split
    · omega
    · split
      · exact le_refl _
      · omega

theorem roundHalfEven_le_ceil (q : ℚ) : roundHalfEven q ≤ ⌈q⌉ := by
  unfold roundHalfEven
  simp only
  have hfc : ⌊q⌋ ≤ ⌈q⌉ := Int.floor_le_ceil q
  split
  · exact hfc
  · rename_i h1
    have hpos : (0 : ℚ) < q - ⌊q⌋ := by linarith
    have hlt : (⌊q⌋ : ℚ) < q := by linarith
    have : ⌊q⌋ + 1 ≤ ⌈q⌉ := by
      have := Int.lt_ceil.mpr hlt
      omega
    split
    · exact this
    · split
      · exact hfc
      · exact this

theorem roundHalfEven_gt (q : ℚ) (m : ℤ) (h : (m : ℚ) + 1 / 2 < q) : m + 1 ≤ roundHalfEven q := by
  have hm : m ≤ ⌊q⌋ := Int.le_floor.mpr (by linarith)
  rcases lt_or_eq_of_le hm with hlt | heq
  · have := floor_le_roundHalfEven q
    omega
  · unfold roundHalfEven
    simp only
    have hd : (1 : ℚ) / 2 < q - ⌊q⌋ := by
      rw [← heq]
      linarith
    rw [if_neg (by linarith), if_pos hd]
    omega


theorem float64Round_eq (q : ℚ) (hq : 0 < q) (hlt : q < 2 ^ 53) :
    ∃ k : ℕ, (2 : ℚ) ^ 52 ≤ q * 2 ^ k ∧ q * 2 ^ k < 2 ^ 53 ∧
      float64Round q = (roundHalfEven (q * 2 ^ k) : ℚ) / 2 ^ k := by
  have hb : 1 < (2 : ℕ) := by norm_num
  have h1 : ((2 : ℕ) : ℚ) ^ Int.log 2 q ≤ q := Int.zpow_log_le_self hb hq
  have h2 : q < ((2 : ℕ) : ℚ) ^ (Int.log 2 q + 1) := Int.lt_zpow_succ_log_self hb q
  have he : Int.log 2 q < 53 := by
    apply (Int.lt_zpow_iff_log_lt hb hq).mp
    exact_mod_cast hlt
  obtain ⟨k, hk⟩ : ∃ k : ℕ, (k : ℤ) = 52 - Int.log 2 q := ⟨(52 - Int.log 2 q).toNat, by omega⟩
  have hulp : ((2 : ℚ) ^ (Int.log 2 q - 52)) = ((2 : ℚ) ^ k)⁻¹ := by
    have : Int.log 2 q - 52 = -(k : ℤ) := by omega
    rw [this, zpow_neg, zpow_natCast]
  have hpow : ((2 : ℕ) : ℚ) ^ Int.log 2 q * 2 ^ k = 2 ^ 52 := by
    have : Int.log 2 q = 52 - (k : ℤ) := by omega
    rw [this]
    push_cast
    rw [zpow_sub₀ (by norm_num), zpow_natCast]
    field_simp
    norm_cast
  have hpow1 : ((2 : ℕ) : ℚ) ^ (Int.log 2 q + 1) * 2 ^ k = 2 ^ 53 := by
    rw [zpow_add_one₀ (by norm_num)]
    calc ((2 : ℕ) : ℚ) ^ Int.log 2 q * ((2 : ℕ) : ℚ) * 2 ^ k
        = (((2 : ℕ) : ℚ) ^ Int.log 2 q * 2 ^ k) * 2 := by push_cast; ring
      _ = 2 ^ 53 := by rw [hpow]; norm_num
  have hkpos : (0 : ℚ) < 2 ^ k := by positivity
  refine ⟨k, ?_, ?_, ?_⟩
  · rw [← hpow]
    exact mul_le_mul_of_nonneg_right h1 (le_of_lt hkpos)
  · rw [← hpow1]
    exact mul_lt_mul_of_pos_right h2 hkpos
  · unfold float64Round
    rw [if_neg (ne_of_gt hq)]
    simp only [abs_of_pos hq]
    rw [hulp, div_inv_eq_mul, div_eq_mul_inv]

theorem float64Round_intCast (n : ℤ) (h0 : 0 ≤ n) (hlt : n < 2 ^ 53) :
    float64Round (n : ℚ) = n := by
  rcases eq_or_lt_of_le h0 with h | h
  · rw [← h]
    simp [float64Round]
  · obtain ⟨k, _, _, heq⟩ := float64Round_eq (n : ℚ) (by exact_mod_cast h) (by exact_mod_cast hlt)
    rw [heq]
    have : ((n : ℚ) * 2 ^ k) = ((n * 2 ^ k : ℤ) : ℚ) := by push_cast; ring
    rw [this, roundHalfEven_intCast]
    push_cast
    field_simp

theorem ceil_float64Round_div (a b : ℤ) (ha : 0 < a) (halt : a < 2 ^ 53) (hb : 0 < b) :
    ⌈float64Round ((a : ℚ) / b)⌉ = ⌈(a : ℚ) / b⌉ := by
  have hbq : (0 : ℚ) < b := by exact_mod_cast hb
  have haq : (0 : ℚ) < a := by exact_mod_cast ha
  have hx : (0 : ℚ) < (a : ℚ) / b := div_pos haq hbq
  have hb1 : (1 : ℚ) ≤ b := by exact_mod_cast hb
  have hxa : (a : ℚ) / b ≤ a := div_le_self (le_of_lt haq) hb1
  have hxlt : (a : ℚ) / b < 2 ^ 53 := lt_of_le_of_lt hxa (by exact_mod_cast halt)
  obtain ⟨k, hlo, hhi, heq⟩ := float64Round_eq ((a : ℚ) / b) hx hxlt
  have hN : (0 : ℚ) < 2 ^ k := by positivity
  set c : ℤ := ⌈(a : ℚ) / b⌉ with hc
  have hxc : (a : ℚ) / b ≤ c := Int.le_ceil _
  have hcx : ((c - 1 : ℤ) : ℚ) < (a : ℚ) / b := by
    have := Int.ceil_lt_add_one ((a : ℚ) / b)
    push_cast
    linarith
  -- integer form: (c - 1) * b + 1 ≤ a
  have hint : (c - 1) * b + 1 ≤ a := by
    have h1 : ((c - 1 : ℤ) : ℚ) * b < a := (lt_div_iff₀ hbq).mp hcx
    have h2 : (c - 1) * b < a := by exact_mod_cast h1
    omega
  have hintq : ((c : ℚ) - 1) * b + 1 ≤ a := by exact_mod_cast hint
  -- b < 2 * 2 ^ k
  have hbN : (b : ℚ) < 2 * 2 ^ k := by
    have h1 : (2 : ℚ) ^ 52 * b ≤ a * 2 ^ k := by
      have := mul_le_mul_of_nonneg_right hlo (le_of_lt hbq)
      have e : (a : ℚ) / b * 2 ^ k * b = a * 2 ^ k := by field_simp
      rw [e] at this
      exact this
    have h2 : (a : ℚ) * 2 ^ k < 2 ^ 53 * 2 ^ k :=
      mul_lt_mul_of_pos_right (by exact_mod_cast halt) hN
    have h3 : (2 : ℚ) ^ 52 * b < 2 ^ 52 * (2 * 2 ^ k) := by
      calc (2 : ℚ) ^ 52 * b ≤ a * 2 ^ k := h1
        _ < 2 ^ 53 * 2 ^ k := h2
        _ = 2 ^ 52 * (2 * 2 ^ k) := by ring
    exact lt_of_mul_lt_mul_left h3 (by positivity)
  -- lower bound on the rounded mantissa
  have hlow : (c - 1) * 2 ^ k + 1 ≤ roundHalfEven ((a : ℚ) / b * 2 ^ k) := by
    apply roundHalfEven_gt
    push_cast
    have e : (a : ℚ) / b * 2 ^ k = a * 2 ^ k / b := by field_simp
    rw [e, lt_div_iff₀ hbq]
    nlinarith
  have hup : roundHalfEven ((a : ℚ) / b * 2 ^ k) ≤ c * 2 ^ k := by
    apply le_trans (roundHalfEven_le_ceil _)
    apply Int.ceil_le.mpr
    push_cast
    exact mul_le_mul_of_nonneg_right hxc (le_of_lt hN)
  rw [heq]
  apply Int.ceil_eq_iff.mpr
  constructor
  · rw [lt_div_iff₀ hN]
    have : (((c - 1) * 2 ^ k + 1 : ℤ) : ℚ) ≤ roundHalfEven ((a : ℚ) / b * 2 ^ k) := by
      exact_mod_cast hlow
    push_cast at this
    linarith
  · rw [div_le_iff₀ hN]
    have : ((roundHalfEven ((a : ℚ) / b * 2 ^ k) : ℤ) : ℚ) ≤ ((c * 2 ^ k : ℤ) : ℚ) := by
      exact_mod_cast hup
    push_cast at this
    exact this

theorem intOfFloat64_intCast (c : ℤ) (h0 : -9223372036854775808 ≤ c)
    (h1 : c < 9223372036854775808) : intOfFloat64 (c : ℚ) = c := by
  unfold intOfFloat64
  simp only [Int.floor_intCast, Int.ceil_intCast, ite_self]
  rw [if_pos ⟨h0, h1⟩]

theorem ceilFloat64_exact (total limit : ℤ) (h0 : 0 ≤ total) (ht : total < 2 ^ 53)
    (hl0 : 0 < limit) (hl : limit < 2 ^ 53) :
    ceilFloat64 total limit = ⌈(total : ℚ) / limit⌉ := by
  have hlq : (1 : ℚ) ≤ limit := by exact_mod_cast hl0
  have hle : ⌈(total : ℚ) / limit⌉ ≤ total := by
    apply Int.ceil_le.mpr
    exact div_le_self (by exact_mod_cast h0) hlq
  have hge : 0 ≤ ⌈(total : ℚ) / limit⌉ := by
    apply Int.ceil_nonneg
    exact div_nonneg (by exact_mod_cast h0) (by linarith)
  unfold ceilFloat64 mathCeil float64Div float64OfInt
  rw [float64Round_intCast total h0 ht, float64Round_intCast limit (le_of_lt hl0) hl]
  have hc : ⌈float64Round ((total : ℚ) / limit)⌉ = ⌈(total : ℚ) / limit⌉ := by
    rcases eq_or_lt_of_le h0 with h | h
    · rw [← h]
      simp [float64Round]
    · exact ceil_float64Round_div total limit h ht hl0
  rw [hc]
  apply intOfFloat64_intCast
  · omega
  · have : total < 9223372036854775808 := lt_trans ht (by norm_num)
    omega

/-- The exact ceiling of a quotient of integers is the least count of pages. -/
theorem ceil_div_least (total limit : ℤ) (hl0 : 0 < limit) :
    total ≤ ⌈(total : ℚ) / limit⌉ * limit ∧
      ∀ n : ℤ, total ≤ n * limit → ⌈(total : ℚ) / limit⌉ ≤ n := by
  have hlq : (0 : ℚ) < limit := by exact_mod_cast hl0
  constructor
  · have h := Int.le_ceil ((total : ℚ) / limit)
    rw [div_le_iff₀ hlq] at h
    exact_mod_cast h
  · intro n hn
    apply Int.ceil_le.mpr
    rw [div_le_iff₀ hlq]
    exact_mod_cast hn

theorem float64Round_of_log (q : ℚ) (e : ℤ) (hq : 0 < q) (h1 : (2 : ℚ) ^ e ≤ q)
    (h2 : q < (2 : ℚ) ^ (e + 1)) :
    float64Round q = (roundHalfEven (q / 2 ^ (e - 52)) : ℚ) * 2 ^ (e - 52) := by
  have hb : 1 < (2 : ℕ) := by norm_num
  have hlog : Int.log 2 q = e := by
    apply le_antisymm
    · have := (Int.lt_zpow_iff_log_lt hb hq).mp (by exact_mod_cast h2)
      omega
    · exact (Int.zpow_le_iff_le_log hb hq).mp (by exact_mod_cast h1)
  unfold float64Round
  rw [if_neg (ne_of_gt hq)]
  simp only [abs_of_pos hq, hlog]

theorem ceilFloat64_above_mantissa :
    ceilFloat64 9007199254740993 1 = 9007199254740992 := by
  have hone : float64Round ((1 : ℤ) : ℚ) = ((1 : ℤ) : ℚ) :=
    float64Round_intCast 1 (by norm_num) (by norm_num)
  have hfloor : ⌊(9007199254740993 : ℚ) / 2⌋ = 4503599627370496 := by
    apply Int.floor_eq_iff.mpr
    constructor <;> norm_num
  have hr1 : roundHalfEven ((9007199254740993 : ℚ) / 2) = 4503599627370496 := by
    unfold roundHalfEven
    simp only [hfloor]
    norm_num
  have hbig : float64Round ((9007199254740993 : ℤ) : ℚ) = 9007199254740992 := by
    have e1 : ((9007199254740993 : ℤ) : ℚ) / 2 ^ ((53 : ℤ) - 52) =
        (9007199254740993 : ℚ) / 2 := by norm_num
    rw [float64Round_of_log _ 53 (by norm_num) (by norm_num) (by norm_num), e1, hr1]
    norm_num
  have hq : float64Round (9007199254740992 : ℚ) = 9007199254740992 := by
    have e1 : (9007199254740992 : ℚ) / 2 ^ ((53 : ℤ) - 52) =
        ((4503599627370496 : ℤ) : ℚ) := by norm_num
    rw [float64Round_of_log _ 53 (by norm_num) (by norm_num) (by norm_num), e1,
      roundHalfEven_intCast]
    norm_num
  unfold ceilFloat64 mathCeil float64Div float64OfInt
  rw [hbig, hone]
  have : (9007199254740992 : ℚ) / ((1 : ℤ) : ℚ) = 9007199254740992 := by norm_num
  rw [this, hq]
  have hc : ⌈(9007199254740992 : ℚ)⌉ = 9007199254740992 := by
    have : (9007199254740992 : ℚ) = ((9007199254740992 : ℤ) : ℚ) := by norm_num
    rw [this, Int.ceil_intCast]
  rw [hc]
  exact intOfFloat64_intCast 9007199254740992 (by norm_num) (by norm_num)

theorem wrapInt64_of_range (x : Int) (h0 : -9223372036854775808 ≤ x)
    (h1 : x < 9223372036854775808) : wrapInt64 x = x := by
  unfold wrapInt64
  omega

/-- C26 (as amended): In a successful ListUsers the effective page is
`req.Page` when that is positive and 1 otherwise, the effective limit is
`req.Limit` when that is positive and 10 otherwise; the repository is queried
with that limit and with the offset `(page - 1) * limit` computed in 64-bit
wrapping arithmetic, and the users of the response are the views of the rows
that query returns; the offset is the exact product, and not negative, when
the product is below 2^63; page, limit and the repository's total are echoed
unchanged and the database is left as it was; `total_pages` is the value of
the float computation `int(math.Ceil(float64(total) / float64(limit)))`, and
when total and limit are below 2^53 it is the ceiling of total / limit, the
least n with n * limit >= total. -/
theorem C26_list_users_pagination (u : userUsecase) (like : String → String → Bool)
    (env : Env) (db db1 : DB) (req : ListUsersRequest) (resp : PaginatedUsersResponse)
    (h : u.ListUsers like ceilFloat64 env db req = (.ok resp, db1)) :
    (∃ users,
        userRepository.List like (env.dbErr 0) (env.dbErr 1) db resp.Pagination.Limit
          (wrapInt64 (wrapInt64 (resp.Pagination.Page - 1) * resp.Pagination.Limit))
          req.Search req.Role req.Status = .ok (users, resp.Pagination.Total) ∧
        resp.Users = users.map User.ToResponse) ∧
      db1 = db ∧
      0 ≤ resp.Pagination.Total ∧
      resp.Pagination.Page = (if 0 < req.Page then req.Page else 1) ∧
      resp.Pagination.Limit = (if 0 < req.Limit then req.Limit else 10) ∧
      resp.Pagination.TotalPages = ceilFloat64 resp.Pagination.Total resp.Pagination.Limit ∧
      ((resp.Pagination.Page - 1) * resp.Pagination.Limit < 9223372036854775808 →
        wrapInt64 (wrapInt64 (resp.Pagination.Page - 1) * resp.Pagination.Limit) =
            (resp.Pagination.Page - 1) * resp.Pagination.Limit ∧
          0 ≤ (resp.Pagination.Page - 1) * resp.Pagination.Limit) ∧
      (resp.Pagination.Total < 2 ^ 53 → resp.Pagination.Limit < 2 ^ 53 →
        0 ≤ resp.Pagination.TotalPages ∧
          resp.Pagination.Total ≤ resp.Pagination.TotalPages * resp.Pagination.Limit ∧
          ∀ n : Int, resp.Pagination.Total ≤ n * resp.Pagination.Limit →
            resp.Pagination.TotalPages ≤ n) := by
  unfold userUsecase.ListUsers at h
  dsimp only at h
  split at h
  · simp at h
  · rename_i users total hl
    simp only [Prod.mk.injEq, Except.ok.injEq] at h
    obtain ⟨hresp, hdb⟩ := h
    subst hresp
    simp only
    have hpage : (0 : Int) < (if req.Page ≤ 0 then 1 else req.Page) := by
      split <;> omega
    have hlimit : (0 : Int) < (if req.Limit ≤ 0 then 10 else req.Limit) := by
      split <;> omega
    have htotal : 0 ≤ total := by
      unfold userRepository.List at hl
      dsimp only at hl
      split at hl
      · simp at hl
      · split at hl
        · simp at hl
        · simp only [Except.ok.injEq, Prod.mk.injEq] at hl
          rw [← hl.2]
          exact Int.natCast_nonneg _
    refine ⟨⟨users, hl, rfl⟩, hdb.symm, htotal, ?_, ?_, trivial, ?_, ?_⟩
    · split <;> split <;> omega
    · split <;> split <;> omega
    · intro hprod
      generalize (if req.Page ≤ 0 then 1 else req.Page) = page at hpage hprod ⊢
      generalize (if req.Limit ≤ 0 then 10 else req.Limit) = limit at hlimit hprod ⊢
      have hnn : 0 ≤ (page - 1) * limit := Int.mul_nonneg (by omega) (by omega)
      have hle : page - 1 ≤ (page - 1) * limit := by nlinarith
      rw [wrapInt64_of_range (page - 1) (by omega) (by omega),
        wrapInt64_of_range _ (by omega) hprod]
      exact ⟨rfl, hnn⟩
    · intro ht hl53
      rw [ceilFloat64_exact total _ htotal ht hlimit hl53]
      obtain ⟨h1, h2⟩ := ceil_div_least total _ hlimit
      refine ⟨?_, h1, h2⟩
      apply Int.ceil_nonneg
      exact div_nonneg (by exact_mod_cast htotal) (by exact_mod_cast (le_of_lt hlimit))

theorem C26_list_users_pagination_witness :
    (∃ users,
        userRepository.List exampleLike none none twoUsersDB 1
          (wrapInt64 (wrapInt64 ((2 : Int) - 1) * 1)) "" "" "" = .ok (users, 2) ∧
        [bobResponse] = users.map User.ToResponse) ∧
      (wrapInt64 (wrapInt64 ((2 : Int) - 1) * 1) = (2 - 1) * 1 ∧ (0 : Int) ≤ (2 - 1) * 1) ∧
      ((0 : Int) ≤ ceilFloat64 2 1 ∧ (2 : Int) ≤ ceilFloat64 2 1 * 1 ∧
        ∀ n : Int, 2 ≤ n * 1 → ceilFloat64 2 1 ≤ n) :=
  ⟨(C26_list_users_pagination exampleUserUsecase exampleLike (quietEnv (7 * Second)) twoUsersDB
      twoUsersDB { Page := 2, Limit := 1, Search := "", Role := "", Status := "" }
      { Users := [bobResponse]
        Pagination := { Page := 2, Limit := 1, Total := 2, TotalPages := ceilFloat64 2 1 } }
      (by rfl)).1,
   (C26_list_users_pagination exampleUserUsecase exampleLike (quietEnv (7 * Second)) twoUsersDB
      twoUsersDB { Page := 2, Limit := 1, Search := "", Role := "", Status := "" }
      { Users := [bobResponse]
        Pagination := { Page := 2, Limit := 1, Total := 2, TotalPages := ceilFloat64 2 1 } }
      (by rfl)).2.2.2.2.2.2.1 (by decide),
   (C26_list_users_pagination exampleUserUsecase exampleLike (quietEnv (7 * Second)) twoUsersDB
      twoUsersDB { Page := 2, Limit := 1, Search := "", Role := "", Status := "" }
      { Users := [bobResponse]
        Pagination := { Page := 2, Limit := 1, Total := 2, TotalPages := ceilFloat64 2 1 } }
      (by rfl)).2.2.2.2.2.2.2 (by decide) (by decide)⟩

/-- C26 fails as stated: for the largest page number and limit 100 the offset
handed to the repository is -200, so the first rows are returned as that page;
and for a total of 2^53 + 1 with limit 1 the float computation gives 2^53
pages, fewer than the total needs. -/
theorem C26_offset_wraps_and_page_count_rounds :
    wrapInt64 (wrapInt64 ((9223372036854775807 : Int) - 1) * 100) = -200 ∧
      exampleUserUsecase.ListUsers exampleLike ceilFloat64 (quietEnv (7 * Second)) aliceDB
          { Page := 9223372036854775807, Limit := 100, Search := "", Role := "", Status := "" } =
        (match userRepository.List exampleLike none none aliceDB 100 (-200) "" "" "" with
         | .error err => (.error (.wrap "failed to list users" err), aliceDB)
         | .ok (users, total) =>
           (.ok { Users := users.map User.ToResponse
                  Pagination :=
                    { Page := 9223372036854775807, Limit := 100, Total := total,
                      TotalPages := ceilFloat64 total 100 } },
            aliceDB)) ∧
      userRepository.List exampleLike none none aliceDB 100 (-200) "" "" "" =
        .ok (aliceDB.users, 1) ∧
      ceilFloat64 9007199254740993 1 = 9007199254740992 ∧
      ¬ (9007199254740993 : Int) ≤ ceilFloat64 9007199254740993 1 * 1 := by
  refine ⟨by decide, rfl, by rfl, ceilFloat64_above_mantissa, ?_⟩
  rw [ceilFloat64_above_mantissa]
  decide

end GoGinAuth
